import Mathlib

/-!
# The storefront: orders, addresses, checkout, cart and product list

A shallow embedding of the order route (`backend/routes/order.js`), of the
address route (`backend/routes/addresses.js`), of the totals, the address
selection and the payload of the page `Checkout`, of `handleQty` of the page
`Cart` and of the pagination of the page `AllProducts`, with the parts of the
JavaScript value semantics that they rely on.

Numbers: a finite JavaScript number is modelled as an exact rational, so
arithmetic is exact and there is no overflow; `NaN`, `Infinity` and `-Infinity`
are kept as separate values because the code distinguishes them (`|| 0`,
`Math.max`, `toFixed`).
-/

namespace Storefront

/-! ## JavaScript numbers -/

/-- A JavaScript number: `NaN`, the two infinities, or a finite value. -/
inductive JSNum where
  | nan : JSNum
  | pinf : JSNum
  | ninf : JSNum
  | fin : ℚ → JSNum
  deriving DecidableEq

namespace JSNum

/-- The number `0`. -/
def zero : JSNum := fin 0

/-- The number `1`. -/
def one : JSNum := fin 1

/-- Truthiness of a number (`ToBoolean`): everything except `NaN` and `0`. -/
def truthy : JSNum → Bool
  | nan => false
  | fin q => decide (q ≠ 0)
  | _ => true

/-- The expression `x || d` for two numbers. -/
def orElse (x d : JSNum) : JSNum := if x.truthy then x else d

/-- Addition of numbers (`+` on two numbers). -/
def add : JSNum → JSNum → JSNum
  | nan, _ => nan
  | _, nan => nan
  | pinf, ninf => nan
  | ninf, pinf => nan
  | pinf, _ => pinf
  | _, pinf => pinf
  | ninf, _ => ninf
  | _, ninf => ninf
  | fin a, fin b => fin (a + b)

/-- The infinity carrying the sign of `q * s`, for a non-zero finite `q` and
an infinity of sign `s` (`true` is positive). -/
def infOfSign (q : ℚ) (s : Bool) : JSNum :=
  if (0 < q) = s then pinf else ninf

/-- Multiplication of numbers (`*`). -/
def mul : JSNum → JSNum → JSNum
  | nan, _ => nan
  | _, nan => nan
  | pinf, pinf => pinf
  | ninf, ninf => pinf
  | pinf, ninf => ninf
  | ninf, pinf => ninf
  | fin a, pinf => if a = 0 then nan else infOfSign a true
  | fin a, ninf => if a = 0 then nan else infOfSign a false
  | pinf, fin b => if b = 0 then nan else infOfSign b true
  | ninf, fin b => if b = 0 then nan else infOfSign b false
  | fin a, fin b => fin (a * b)

/-- The call `Math.max(a, b)`. -/
def max : JSNum → JSNum → JSNum
  | nan, _ => nan
  | _, nan => nan
  | pinf, _ => pinf
  | _, pinf => pinf
  | ninf, b => b
  | a, ninf => a
  | fin a, fin b => fin (if a ≤ b then b else a)

/-- Rounding of a finite number to hundredths as `toFixed(2)` does it: the
integer `n` with `n / 100` closest to `|q|`, the larger one on a tie, with the
sign of `q` put back. -/
def round2 (q : ℚ) : ℚ :=
  if q < 0 then -((⌊(-q) * 100 + 1 / 2⌋ : ℤ) : ℚ) / 100
  else ((⌊q * 100 + 1 / 2⌋ : ℤ) : ℚ) / 100

/-- The expression `Number(x.toFixed(2))`. `toFixed` prints `NaN` and the
infinities by name and `Number` reads them back. For `|x| ≥ 10^21` `toFixed`
prints the number itself; a double of that size is an integer, which rounding
to hundredths leaves unchanged, so the rounding formula is used throughout. -/
def toFixed2 : JSNum → JSNum
  | fin q => fin (round2 q)
  | x => x

/-- The order `0 ≤ x` on numbers; `NaN` is not ordered. -/
def nonneg : JSNum → Prop
  | pinf => True
  | fin q => 0 ≤ q
  | _ => False

/-- The order `1 ≤ x` on numbers; `NaN` is not ordered. -/
def geOne : JSNum → Prop
  | pinf => True
  | fin q => 1 ≤ q
  | _ => False

/-- The number is finite and an integer. -/
def isInteger : JSNum → Prop
  | fin q => ∃ n : ℤ, q = n
  | _ => False

/-- The number is finite and an integer multiple of `0.01`. -/
def isCents : JSNum → Prop
  | fin q => ∃ n : ℤ, q = n / 100
  | _ => False

end JSNum

/-! ## JavaScript values -/

/-- A value as the handler sees it: what `JSON.parse` produces, plus
`undefined`, the result of reading a member that is not there. The members of
an object are listed with their keys, each key once (of two members with the
same key `JSON.parse` keeps the last). -/
inductive JSVal where
  | undefined : JSVal
  | null : JSVal
  | bool : Bool → JSVal
  | num : JSNum → JSVal
  | str : String → JSVal
  | arr : List JSVal → JSVal
  | obj : List (String × JSVal) → JSVal

/-- A thrown exception. -/
inductive Exn where
  | typeError : Exn
  | storeError : Exn
  deriving DecidableEq

namespace JSVal

/-- Truthiness (`ToBoolean`): `undefined`, `null`, `false`, `0`, `NaN` and the
empty string are falsy. -/
def truthy : JSVal → Bool
  | undefined => false
  | null => false
  | bool b => b
  | num x => x.truthy
  | str s => decide (s ≠ "")
  | arr _ => true
  | obj _ => true

/-- The expression `a || b`. -/
def orElse (a b : JSVal) : JSVal := if a.truthy then a else b

/-- Whether an object has a member of its own with the key `k`. -/
def hasKey (k : String) : List (String × JSVal) → Bool
  | [] => false
  | (k', _) :: rest => k' == k || hasKey k rest

/-- Reading the member `k` of a value, `v.k`, for a key that no prototype
defines (`price`, `quantity`, `productID`, `name`, ...): a `TypeError` on
`undefined` and `null`, the member of an object when it has one, `undefined`
otherwise. -/
def get (v : JSVal) (k : String) : Except Exn JSVal :=
  match v with
  | undefined => .error .typeError
  | null => .error .typeError
  | obj kvs => .ok ((kvs.lookup k).getD undefined)
  | _ => .ok undefined

end JSVal

/-! ## `Number(...)` -/

/-- The white space that `Number` strips from both ends of a string
(`StrWhiteSpaceChar`: white space and line terminators). -/
def isStrWhiteSpace (c : Char) : Bool :=
  let n := c.toNat
  n == 9 || n == 10 || n == 11 || n == 12 || n == 13 || n == 32 || n == 0xA0 ||
  n == 0x1680 || (0x2000 ≤ n && n ≤ 0x200A) || n == 0x2028 || n == 0x2029 ||
  n == 0x202F || n == 0x205F || n == 0x3000 || n == 0xFEFF

/-- The value of a digit in the given base, if the character is one. -/
def digitValue (base : Nat) (c : Char) : Option Nat :=
  let n := c.toNat
  let v :=
    if 48 ≤ n ∧ n ≤ 57 then some (n - 48)
    else if 97 ≤ n ∧ n ≤ 102 then some (n - 87)
    else if 65 ≤ n ∧ n ≤ 70 then some (n - 55)
    else none
  v.bind fun d => if d < base then some d else none

/-- The value of a run of digits, read from the left with accumulator `acc`;
`none` when a character is not a digit of the base. -/
def digitsValue (base : Nat) : List Char → Nat → Option Nat
  | [], acc => some acc
  | c :: cs, acc =>
    match digitValue base c with
    | some d => digitsValue base cs (acc * base + d)
    | none => none

/-- The value of a non-empty run of digits. -/
def readDigits (base : Nat) (cs : List Char) : Option Nat :=
  if cs.isEmpty then none else digitsValue base cs 0

/-- The exponent part of a decimal literal (`e` or `E`, an optional sign,
digits); an absent exponent part is `0`. -/
def readExponent : List Char → Option ℤ
  | [] => some 0
  | c :: cs =>
    if c == 'e' || c == 'E' then
      match cs with
      | '+' :: ds => (readDigits 10 ds).map fun n => (n : ℤ)
      | '-' :: ds => (readDigits 10 ds).map fun n => -(n : ℤ)
      | ds => (readDigits 10 ds).map fun n => (n : ℤ)
    else none

/-- An unsigned decimal literal (`StrUnsignedDecimalLiteral`): `Infinity`,
or digits with an optional fraction and exponent, at least one digit before
or after the point. -/
def readUnsignedDecimal (cs : List Char) : Option JSNum :=
  if cs == "Infinity".toList then some .pinf
  else
    let ip := cs.takeWhile Char.isDigit
    let r1 := cs.dropWhile Char.isDigit
    let fp := match r1 with
      | '.' :: r => r.takeWhile Char.isDigit
      | _ => []
    let r2 := match r1 with
      | '.' :: r => r.dropWhile Char.isDigit
      | _ => r1
    if ip.isEmpty && fp.isEmpty then none
    else
      match digitsValue 10 (ip ++ fp) 0, readExponent r2 with
      | some m, some e => some (.fin ((m : ℚ) * (10 : ℚ) ^ (e - (fp.length : ℤ))))
      | _, _ => none

/-- Negation of a number. -/
def JSNum.neg : JSNum → JSNum
  | .nan => .nan
  | .pinf => .ninf
  | .ninf => .pinf
  | .fin q => .fin (-q)

/-- A numeric literal after the white space is stripped
(`StrNumericLiteral`): a signed decimal literal, or an unsigned binary, octal
or hexadecimal integer. -/
def readNumeric : List Char → Option JSNum
  | '0' :: 'x' :: ds => (readDigits 16 ds).map fun n => .fin n
  | '0' :: 'X' :: ds => (readDigits 16 ds).map fun n => .fin n
  | '0' :: 'o' :: ds => (readDigits 8 ds).map fun n => .fin n
  | '0' :: 'O' :: ds => (readDigits 8 ds).map fun n => .fin n
  | '0' :: 'b' :: ds => (readDigits 2 ds).map fun n => .fin n
  | '0' :: 'B' :: ds => (readDigits 2 ds).map fun n => .fin n
  | '+' :: cs => readUnsignedDecimal cs
  | '-' :: cs => (readUnsignedDecimal cs).map JSNum.neg
  | cs => readUnsignedDecimal cs

/-- The conversion of a string to a number (`StringToNumber`): white space is
stripped from both ends, the empty string is `0`, a numeric literal is its
value and anything else is `NaN`. -/
def stringToNumber (s : String) : JSNum :=
  let cs := ((s.toList.dropWhile isStrWhiteSpace).reverse.dropWhile isStrWhiteSpace).reverse
  if cs.isEmpty then .zero else (readNumeric cs).getD .nan

mutual
/-- Whether converting the value to a string throws: an object parsed from
JSON whose own member `toString` hides `Object.prototype.toString` has no
callable conversion method (`valueOf` returns the object itself), and an
array converts each of its elements when it is joined. -/
def throwsToString : JSVal → Bool
  | .obj kvs => JSVal.hasKey "toString" kvs
  | .arr xs => anyThrowsToString xs
  | _ => false
/-- Whether converting some value of the list to a string throws. -/
def anyThrowsToString : List JSVal → Bool
  | [] => false
  | x :: xs => throwsToString x || anyThrowsToString xs
end

mutual
/-- The number read from an array element as `join` prints it: `undefined`
and `null` print as the empty string, a number prints as a literal of its own
value, an object prints as `[object Object]`. -/
def elemNumber : JSVal → JSNum
  | .undefined => .zero
  | .null => .zero
  | .bool _ => .nan
  | .num x => x
  | .str s => stringToNumber s
  | .arr ys => joinNumber ys
  | .obj _ => .nan
/-- The number read from `xs.join(",")`: the empty array prints as the empty
string, one element prints as itself, and two or more elements print with a
comma, which no numeric literal contains. -/
def joinNumber : List JSVal → JSNum
  | [] => .zero
  | [x] => elemNumber x
  | _ :: _ :: _ => .nan
end

/-- The call `Number(v)` (`ToNumber`). An object or array is first converted
to a primitive: `valueOf` returns the object itself, so `toString` decides. -/
def toNumber : JSVal → Except Exn JSNum
  | .undefined => .ok .nan
  | .null => .ok .zero
  | .bool b => .ok (if b then .one else .zero)
  | .num x => .ok x
  | .str s => .ok (stringToNumber s)
  | .arr xs => if anyThrowsToString xs then .error .typeError else .ok (joinNumber xs)
  | .obj kvs => if JSVal.hasKey "toString" kvs then .error .typeError else .ok .nan

/-! ## The order route: helper and normaliser -/

/-- The helper `toMoney` applied to a number:
`Number((n || 0).toFixed(2))`. -/
def toMoneyNum (x : JSNum) : JSNum := (x.orElse .zero).toFixed2

/-- The helper `toMoney = (n) => Number((Number(n) || 0).toFixed(2))`. -/
def toMoney (n : JSVal) : Except Exn JSNum :=
  (toNumber n).map toMoneyNum

/-- A normalised line, the object the `items.map` callback returns. -/
structure Line where
  productID : JSVal
  name : JSVal
  price : JSNum
  quantity : JSNum

/-- The member `productID: Number(it.productID) || null`. -/
def productIDOf (x : JSNum) : JSVal := if x.truthy then .num x else .null

/-- The quantity of a line, `Math.max(1, Number(it.quantity) || 1)`, from
the converted raw quantity. -/
def qtyOf (x : JSNum) : JSNum := JSNum.max .one (x.orElse .one)

/-- One call of the `items.map` callback on the element `it`: the normalised
line and the line total that is added to `total`. Reading a member of `null`
and converting a value with no callable conversion method throw. -/
def normalizeLine (it : JSVal) : Except Exn (Line × JSNum) := do
  let price ← toMoney (← it.get "price")
  let qty := qtyOf (← toNumber (← it.get "quantity"))
  let lineTotal := toMoneyNum (price.mul qty)
  let productID := productIDOf (← toNumber (← it.get "productID"))
  let name := (← it.get "name").orElse (.str "Item")
  pure ({ productID := productID, name := name, price := price, quantity := qty }, lineTotal)

/-- The loop `items.map(...)` with its side effect on `total`: the normalised
lines and the value of `total` after the last callback, from the value
`total` has before the first. -/
def normalizeAll : List JSVal → JSNum → Except Exn (List Line × JSNum)
  | [], total => .ok ([], total)
  | it :: rest, total =>
    match normalizeLine it with
    | .error e => .error e
    | .ok (line, lineTotal) =>
      match normalizeAll rest (total.add lineTotal) with
      | .error e => .error e
      | .ok (lines, total') => .ok (line :: lines, total')

/-- Step 2 of the handler: `let total = 0`, the `items.map` loop, and
`total = toMoney(total)`. The result is the normalised lines and the order
total. -/
def computeTotal (items : List JSVal) : Except Exn (List Line × JSNum) :=
  match normalizeAll items .zero with
  | .error e => .error e
  | .ok (lines, total) => .ok (lines, toMoneyNum total)

/-! ## The store -/

/-- A row of the table `addresses`. -/
structure AddressRow where
  addressID : Nat
  userID : JSVal
  fullName : JSVal
  country : JSVal
  address : JSVal
  unit : JSVal
  city : JSVal
  state : JSVal
  zipCode : JSVal
  phoneNum : JSVal
  isPrimary : Nat
  createdAt : Nat

/-- A row of the table `orders`. -/
structure OrderRow where
  orderID : Nat
  userID : JSVal
  addressID : JSVal
  paymentID : JSVal
  total : JSNum
  status : String
  createdAt : Nat
  trackingNumber : JSVal

/-- A row of the table `order_items`. -/
structure OrderItemRow where
  itemID : Nat
  orderID : Nat
  productID : JSVal
  name : JSVal
  price : JSNum
  quantity : JSNum

/-- The contents of the three tables. -/
structure Tables where
  addresses : List AddressRow
  orders : List OrderRow
  orderItems : List OrderItemRow

/-- A call the handler makes on the pool or on its connection. -/
inductive Op where
  | getConnection : Op
  | selectAddress (addressID userID : JSVal) : Op
  | beginTransaction : Op
  | insertOrder (userID addressID paymentID : JSVal) (total : JSNum)
      (trackingNumber : JSVal) : Op
  | insertItem (orderID : Nat) (line : Line) : Op
  | commit : Op
  | rollback : Op
  | release : Op
  | selectOrders (userID : JSVal) : Op
  | selectItems (orderIDs : List Nat) : Op
  | clearPrimary (userID : JSVal) : Op
  | insertAddress (userID fullName country address unit city state zipCode phoneNum : JSVal)
      (isPrimary : Nat) : Op

/-- The store as one handler run sees it through its connection: the tables
as the connection reads them, the contents saved at `beginTransaction` while
a transaction is open, the counters of the generated keys (a rollback does
not give a key back), the clock behind `NOW()`, the calls made so far, and
for every position in that sequence whether the call made there fails
(constraint violation, connection loss, deadlock). -/
structure World where
  tables : Tables
  saved : Option Tables
  nextOrderID : Nat
  nextItemID : Nat
  nextAddressID : Nat
  now : Nat
  log : List Op
  faults : Nat → Bool

namespace World

/-- Records a call. -/
def record (w : World) (op : Op) : World := { w with log := w.log ++ [op] }

/-- Whether the next call fails. -/
def failsNext (w : World) : Bool := w.faults w.log.length

/-- The contents that are committed: those saved at `beginTransaction` while
a transaction is open, the tables themselves otherwise. -/
def committed (w : World) : Tables := w.saved.getD w.tables

/-- The call `pool.getConnection()`. The connection handed out has no
transaction open. -/
def getConnection (w : World) : Except Exn Unit × World :=
  if w.failsNext then (.error .storeError, w.record .getConnection)
  else (.ok (), { w.record .getConnection with saved := none })

/-- Comparison of a column with a bound parameter in a `WHERE` clause,
idealised: a number equals a column holding the same number and a string
equals a column holding the same string. -/
def sqlEq : JSVal → JSVal → Bool
  | .num (.fin a), .num (.fin b) => a == b
  | .str a, .str b => a == b
  | _, _ => false

/-- The query
`SELECT addressID FROM addresses WHERE addressID = ? AND userID = ?`. -/
def selectAddress (w : World) (addressID userID : JSVal) :
    Except Exn (List AddressRow) × World :=
  if w.failsNext then (.error .storeError, w.record (.selectAddress addressID userID))
  else
    (.ok (w.tables.addresses.filter fun r =>
        sqlEq (.num (.fin r.addressID)) addressID && sqlEq r.userID userID),
      w.record (.selectAddress addressID userID))

/-- The call `conn.beginTransaction()`. -/
def beginTransaction (w : World) : Except Exn Unit × World :=
  if w.failsNext then (.error .storeError, w.record .beginTransaction)
  else (.ok (), { w.record .beginTransaction with saved := some w.tables })

/-- The statement `INSERT INTO orders (userID, addressID, paymentID, total,
status, created_at, trackingNumber) VALUES (?, ?, ?, ?, 'Order Placed',
NOW(), ?)`; the result is `insertId`. -/
def insertOrder (w : World) (userID addressID paymentID : JSVal) (total : JSNum)
    (trackingNumber : JSVal) : Except Exn Nat × World :=
  let w' := w.record (.insertOrder userID addressID paymentID total trackingNumber)
  if w.failsNext then (.error .storeError, w')
  else
    let row : OrderRow :=
      { orderID := w.nextOrderID, userID := userID, addressID := addressID,
        paymentID := paymentID, total := total, status := "Order Placed",
        createdAt := w.now, trackingNumber := trackingNumber }
    (.ok w.nextOrderID,
      { w' with
        tables := { w.tables with orders := w.tables.orders ++ [row] }
        nextOrderID := w.nextOrderID + 1 })

/-- The statement `INSERT INTO order_items (orderID, productID, name, price,
quantity) VALUES (?, ?, ?, ?, ?)`. -/
def insertItem (w : World) (orderID : Nat) (it : Line) : Except Exn Unit × World :=
  let w' := w.record (.insertItem orderID it)
  if w.failsNext then (.error .storeError, w')
  else
    let row : OrderItemRow :=
      { itemID := w.nextItemID, orderID := orderID, productID := it.productID,
        name := it.name, price := it.price, quantity := it.quantity }
    (.ok (),
      { w' with
        tables := { w.tables with orderItems := w.tables.orderItems ++ [row] }
        nextItemID := w.nextItemID + 1 })

/-- The call `conn.commit()`. A commit that fails leaves the transaction
open. -/
def commit (w : World) : Except Exn Unit × World :=
  if w.failsNext then (.error .storeError, w.record .commit)
  else (.ok (), { w.record .commit with saved := none })

/-- The call `conn.rollback()`: the tables get back the contents saved at
`beginTransaction`; with no transaction open nothing changes. -/
def rollback (w : World) : Except Exn Unit × World :=
  if w.failsNext then (.error .storeError, w.record .rollback)
  else (.ok (), { w.record .rollback with tables := w.committed, saved := none })

/-- The call `conn.release()`; it does no input or output and does not
fail. -/
def release (w : World) : World := w.record .release

end World

/-! ## The handler `POST /api/orders` -/

/-- A request as the handler reads it: the identity that the authentication
middleware attached (`req.user.userID`) and the parsed body (`req.body`). -/
structure Request where
  userID : JSVal
  body : JSVal

/-- The JSON document of a response. -/
inductive ResponseBody where
  | message (text : String) : ResponseBody
  | placed (text : String) (orderID : Nat) (total : JSNum) : ResponseBody
  | orders (results : List (OrderRow × List OrderItemRow)) : ResponseBody
  | created (addressID : Nat) : ResponseBody

/-- A response: `res.status(status).json(body)`. -/
structure Response where
  status : Nat
  body : ResponseBody

/-- A member with a default value in a destructuring pattern
(`paymentID = null`): the default stands in for `undefined`. -/
def withDefault (v d : JSVal) : JSVal :=
  match v with
  | .undefined => d
  | v => v

/-- The test `!Array.isArray(items) || items.length === 0`: the elements of
`items` when it is a non-empty array. -/
def nonEmptyArray : JSVal → Option (List JSVal)
  | .arr (x :: xs) => some (x :: xs)
  | _ => none

/-- The loop `for (const it of normalized) await conn.query(insertSQL, ...)`;
the first insert that fails ends it. -/
def insertItems (orderID : Nat) : List Line → World → Except Exn Unit × World
  | [], w => (.ok (), w)
  | it :: rest, w =>
    match w.insertItem orderID it with
    | (.error e, w') => (.error e, w')
    | (.ok (), w') => insertItems orderID rest w'

/-- The body of the `try` block of the handler, up to the response it sends
or the exception it raises. -/
def placeOrderTry (userID addressID paymentID trackingNumber : JSVal)
    (items : List JSVal) (w : World) : Except Exn Response × World :=
  match w.selectAddress addressID userID with
  | (.error e, w1) => (.error e, w1)
  | (.ok addressRows, w1) =>
    if addressRows.length = 0 then
      (.ok ⟨404, .message "Address not found for this user"⟩, w1.release)
    else
      match computeTotal items with
      | .error e => (.error e, w1)
      | .ok (normalized, total) =>
        match w1.beginTransaction with
        | (.error e, w2) => (.error e, w2)
        | (.ok (), w2) =>
          match w2.insertOrder userID addressID paymentID total trackingNumber with
          | (.error e, w3) => (.error e, w3)
          | (.ok orderID, w3) =>
            match insertItems orderID normalized w3 with
            | (.error e, w4) => (.error e, w4)
            | (.ok (), w4) =>
              match w4.commit with
              | (.error e, w5) => (.error e, w5)
              | (.ok (), w5) =>
                (.ok ⟨201, .placed "Order placed successfully" orderID total⟩, w5)

/-- The handler of `POST /api/orders`, run alone from the state `w`: the
response it sends, if it sends one, and the state it leaves. No response is
sent when the handler's promise rejects: on an exception outside the `try`
block (destructuring a body that is `null` or `undefined`, a failing
`getConnection`) and when `rollback` itself fails in the `catch` block. -/
def placeOrder (req : Request) (w : World) : Option Response × World :=
  match req.body.get "addressID", req.body.get "paymentID",
      req.body.get "trackingNumber", req.body.get "items" with
  | .ok addressID, .ok paymentID, .ok trackingNumber, .ok items =>
    let paymentID := withDefault paymentID .null
    let trackingNumber := withDefault trackingNumber .null
    let userID := req.userID
    if !userID.truthy then (some ⟨400, .message "Missing userID"⟩, w)
    else if !addressID.truthy then (some ⟨400, .message "Missing addressID"⟩, w)
    else
      match nonEmptyArray items with
      | none => (some ⟨400, .message "Cart is empty"⟩, w)
      | some items =>
        match w.getConnection with
        | (.error _, w1) => (none, w1)
        | (.ok (), w1) =>
          match placeOrderTry userID addressID paymentID trackingNumber items w1 with
          | (.ok response, w2) => (some response, w2.release)
          | (.error _, w2) =>
            match w2.rollback with
            | (.error _, w3) => (none, w3.release)
            | (.ok (), w3) => (some ⟨500, .message "Error placing order"⟩, w3.release)
  | _, _, _, _ => (none, w)

/-! ## The handler `GET /api/orders/:userID` -/

namespace World

/-- Puts an order row into a list that is sorted by `orderID`, largest
first. -/
def insertNewestFirst (o : OrderRow) : List OrderRow → List OrderRow
  | [] => [o]
  | x :: xs => if x.orderID ≤ o.orderID then o :: x :: xs else x :: insertNewestFirst o xs

/-- The clause `ORDER BY orderID DESC`. -/
def sortNewestFirst : List OrderRow → List OrderRow
  | [] => []
  | o :: rest => insertNewestFirst o (sortNewestFirst rest)

/-- The query `SELECT * FROM orders WHERE userID = ? ORDER BY orderID DESC`. -/
def selectOrders (w : World) (userID : JSVal) : Except Exn (List OrderRow) × World :=
  if w.failsNext then (.error .storeError, w.record (.selectOrders userID))
  else
    (.ok (sortNewestFirst (w.tables.orders.filter fun r => sqlEq r.userID userID)),
      w.record (.selectOrders userID))

/-- The query `SELECT * FROM order_items WHERE orderID IN (?, ..., ?)`. The
statement has no `ORDER BY`; the rows come in the order of the table, which
is the order of insertion. -/
def selectItems (w : World) (orderIDs : List Nat) :
    Except Exn (List OrderItemRow) × World :=
  if w.failsNext then (.error .storeError, w.record (.selectItems orderIDs))
  else
    (.ok (w.tables.orderItems.filter fun r => orderIDs.contains r.orderID),
      w.record (.selectItems orderIDs))

end World

/-- The test `itemMap.has(k)` on a `Map` from order ids to arrays of item
rows, kept as its entries in insertion order. -/
def mapHas (m : List (Nat × List OrderItemRow)) (k : Nat) : Bool :=
  m.any fun e => e.1 == k

/-- The call `itemMap.get(k)`; `none` stands for `undefined`. -/
def mapGet (m : List (Nat × List OrderItemRow)) (k : Nat) : Option (List OrderItemRow) :=
  match m with
  | [] => none
  | e :: rest => if e.1 == k then some e.2 else mapGet rest k

/-- The call `itemMap.set(k, v)`: the value of an entry that exists is
replaced, a new entry goes to the end. -/
def mapSet (m : List (Nat × List OrderItemRow)) (k : Nat) (v : List OrderItemRow) :
    List (Nat × List OrderItemRow) :=
  if mapHas m k then m.map fun e => if e.1 == k then (e.1, v) else e
  else m ++ [(k, v)]

/-- The statement `itemMap.get(k).push(it)`, which changes the array stored
under `k` in place. -/
def mapPush (m : List (Nat × List OrderItemRow)) (k : Nat) (it : OrderItemRow) :
    List (Nat × List OrderItemRow) :=
  m.map fun e => if e.1 == k then (e.1, e.2 ++ [it]) else e

/-- The loop `for (const it of items) { if (!itemMap.has(it.orderID))
itemMap.set(it.orderID, []); itemMap.get(it.orderID).push(it); }` from the
map `m`. -/
def groupItems : List OrderItemRow → List (Nat × List OrderItemRow) →
    List (Nat × List OrderItemRow)
  | [], m => m
  | it :: rest, m =>
    let m1 := if !mapHas m it.orderID then mapSet m it.orderID [] else m
    groupItems rest (mapPush m1 it.orderID it)

/-- The result `orders.map((o) => ({ ...o, items: itemMap.get(o.orderID) ||
[] }))` with `itemMap` built by the loop from the empty map. -/
def assembleOrders (orders : List OrderRow) (items : List OrderItemRow) :
    List (OrderRow × List OrderItemRow) :=
  let itemMap := groupItems items []
  orders.map fun o => (o, (mapGet itemMap o.orderID).getD [])

/-- The body of the `try` block of the handler of `GET /api/orders/:userID`. -/
def getOrdersTry (userID : JSVal) (w : World) : Except Exn Response × World :=
  match w.selectOrders userID with
  | (.error e, w1) => (.error e, w1)
  | (.ok orders, w1) =>
    if orders.length = 0 then (.ok ⟨200, .orders []⟩, w1.release)
    else
      match w1.selectItems (orders.map fun o => o.orderID) with
      | (.error e, w2) => (.error e, w2)
      | (.ok items, w2) => (.ok ⟨200, .orders (assembleOrders orders items)⟩, w2)

/-- The handler of `GET /api/orders/:userID`, run alone from the state `w`,
with `userID` the path parameter `req.params.userID`, a string. A failing
`getConnection` rejects the handler's promise; any other failure is answered
with `500`, without a rollback. -/
def getOrdersForUser (userID : String) (w : World) : Option Response × World :=
  match w.getConnection with
  | (.error _, w1) => (none, w1)
  | (.ok (), w1) =>
    match getOrdersTry (.str userID) w1 with
    | (.ok response, w2) => (some response, w2.release)
    | (.error _, w2) => (some ⟨500, .message "Error fetching orders"⟩, w2.release)

/-- The reference result of the read path: the order rows in their sequence,
each with the item rows that carry its `orderID`, in the order of the item
rows. -/
def specOrdersWithItems (orders : List OrderRow) (items : List OrderItemRow) :
    List (OrderRow × List OrderItemRow) :=
  orders.map fun o => (o, items.filter fun it => it.orderID == o.orderID)

/-- The rows that the item loop of `placeOrder` adds to `order_items` for the
normalised lines, the first with the key `itemID`. -/
def itemRows (orderID : Nat) : Nat → List Line → List OrderItemRow
  | _, [] => []
  | itemID, l :: rest =>
    { itemID := itemID, orderID := orderID, productID := l.productID, name := l.name,
      price := l.price, quantity := l.quantity } :: itemRows orderID (itemID + 1) rest

/-! ## The handler `POST /api/addresses` -/

namespace World

/-- The statement `UPDATE addresses SET is_primary = 0 WHERE userID = ?`. -/
def clearPrimary (w : World) (userID : JSVal) : Except Exn Unit × World :=
  if w.failsNext then (.error .storeError, w.record (.clearPrimary userID))
  else
    (.ok (),
      { w.record (.clearPrimary userID) with
        tables := { w.tables with
          addresses := w.tables.addresses.map fun r =>
            if sqlEq r.userID userID then { r with isPrimary := 0 } else r } })

/-- The statement `INSERT INTO addresses (userID, fullName, country, address,
unit, city, state, zipCode, phoneNum, is_primary, created_at) VALUES (?, ?,
?, ?, ?, ?, ?, ?, ?, ?, NOW())`; the result is `insertId`. -/
def insertAddress (w : World)
    (userID fullName country address unit city state zipCode phoneNum : JSVal)
    (isPrimary : Nat) : Except Exn Nat × World :=
  let w' := w.record
    (.insertAddress userID fullName country address unit city state zipCode phoneNum isPrimary)
  if w.failsNext then (.error .storeError, w')
  else
    let row : AddressRow :=
      { addressID := w.nextAddressID, userID := userID, fullName := fullName,
        country := country, address := address, unit := unit, city := city, state := state,
        zipCode := zipCode, phoneNum := phoneNum, isPrimary := isPrimary, createdAt := w.now }
    (.ok w.nextAddressID,
      { w' with
        tables := { w.tables with addresses := w.tables.addresses ++ [row] }
        nextAddressID := w.nextAddressID + 1 })

end World

/-- The fields of the body of an add-address request after destructuring,
with the defaults `unit = null` and `is_primary = 0` applied. -/
structure AddressFields where
  fullName : JSVal
  country : JSVal
  address : JSVal
  unit : JSVal
  city : JSVal
  state : JSVal
  zipCode : JSVal
  phoneNum : JSVal
  isPrimary : JSVal

/-- The destructuring `const { fullName, country, address, unit = null, city,
state, zipCode, phoneNum, is_primary = 0 } = req.body`. -/
def addressFields (body : JSVal) : Except Exn AddressFields := do
  let fullName ← body.get "fullName"
  let country ← body.get "country"
  let address ← body.get "address"
  let unit ← body.get "unit"
  let city ← body.get "city"
  let state ← body.get "state"
  let zipCode ← body.get "zipCode"
  let phoneNum ← body.get "phoneNum"
  let isPrimary ← body.get "is_primary"
  pure { fullName := fullName, country := country, address := address,
         unit := withDefault unit .null, city := city, state := state, zipCode := zipCode,
         phoneNum := phoneNum, isPrimary := withDefault isPrimary (.num .zero) }

/-- The test `!userID || !fullName || !country || !address || !city || !state
|| !zipCode || !phoneNum` negated: the request is accepted. -/
def addressAccepted (userID : JSVal) (f : AddressFields) : Bool :=
  userID.truthy && f.fullName.truthy && f.country.truthy && f.address.truthy &&
  f.city.truthy && f.state.truthy && f.zipCode.truthy && f.phoneNum.truthy

/-- The body of the `try` block of the handler of `POST /api/addresses`. The
other addresses of the user are cleared when `Number(is_primary) === 1`; the
new row is primary when `is_primary` is truthy. -/
def addAddressTry (userID : JSVal) (f : AddressFields) (w : World) :
    Except Exn Response × World :=
  match w.beginTransaction with
  | (.error e, w1) => (.error e, w1)
  | (.ok (), w1) =>
    match toNumber f.isPrimary with
    | .error e => (.error e, w1)
    | .ok n =>
      let cleared : Except Exn Unit × World :=
        if n = .fin 1 then w1.clearPrimary userID else (.ok (), w1)
      match cleared with
      | (.error e, w2) => (.error e, w2)
      | (.ok (), w2) =>
        match w2.insertAddress userID f.fullName f.country f.address f.unit f.city f.state
            f.zipCode f.phoneNum (if f.isPrimary.truthy then 1 else 0) with
        | (.error e, w3) => (.error e, w3)
        | (.ok insertId, w3) =>
          match w3.commit with
          | (.error e, w4) => (.error e, w4)
          | (.ok (), w4) => (.ok ⟨201, .created insertId⟩, w4)

/-- The handler of `POST /api/addresses`, run alone from the state `w`. -/
def addAddress (req : Request) (w : World) : Option Response × World :=
  match addressFields req.body with
  | .error _ => (none, w)
  | .ok f =>
    if !addressAccepted req.userID f then (some ⟨400, .message "Missing required fields"⟩, w)
    else
      match w.getConnection with
      | (.error _, w1) => (none, w1)
      | (.ok (), w1) =>
        match addAddressTry req.userID f w1 with
        | (.ok response, w2) => (some response, w2.release)
        | (.error _, w2) =>
          match w2.rollback with
          | (.error _, w3) => (none, w3.release)
          | (.ok (), w3) => (some ⟨500, .message "Server error"⟩, w3.release)

/-- The number of addresses of the user `u` that are primary. -/
def primaryCount (rows : List AddressRow) (u : JSVal) : Nat :=
  (rows.filter fun r => World.sqlEq r.userID u && r.isPrimary == 1).length

/-- The invariant of the address table: no user has two primary addresses. -/
def atMostOnePrimary (rows : List AddressRow) : Prop :=
  ∀ u, primaryCount rows u ≤ 1

/-! ## `POST /api/orders` between its `await`s

Handlers of different requests run on one thread and change over at every
`await`. The handler is cut here at its `await`s, so that other handlers can
be run in between. -/

/-- The state that the handlers of `order.js` share. Line 21,
`userID = req.user.userID`, assigns a variable that is declared nowhere; in
a CommonJS module without `"use strict"` this writes a property of the global
object, and the later uses of `userID` read that property. -/
structure Globals where
  userID : JSVal

/-- The local variables of a handler that is suspended, by the `await` it is
suspended at. -/
inductive Suspended where
  | connection (addressID paymentID trackingNumber : JSVal) (items : List JSVal) : Suspended
  | addressRows (addressID paymentID trackingNumber : JSVal) (items : List JSVal) : Suspended
  | begun (addressID paymentID trackingNumber : JSVal) (normalized : List Line)
      (total : JSNum) : Suspended
  | orderInserted (normalized : List Line) (total : JSNum) : Suspended
  | itemInserted (orderID : Nat) (rest : List Line) (total : JSNum) : Suspended
  | committed (orderID : Nat) (total : JSNum) : Suspended
  | rolledBack : Suspended

/-- How an awaited call settles: whether it failed, and otherwise the rows
or the `insertId` it yields, when the call yields any. -/
structure Reply where
  failed : Bool
  rows : List AddressRow
  insertId : Nat

/-- What the handler does between two `await`s: the calls it makes, in order,
then either it is suspended at the last of them or it has finished, with the
response it sent, if any. -/
structure Step where
  calls : List Op
  next : Option Suspended
  response : Option Response

/-- The `catch` block up to its `await`: `await conn.rollback()`. -/
def catchStep : Step := ⟨[.rollback], some .rolledBack, none⟩

/-- The item loop from the lines that are left, then `conn.commit()`. -/
def itemsStep (orderID : Nat) (total : JSNum) : List Line → Step
  | [] => ⟨[.commit], some (.committed orderID total), none⟩
  | it :: rest => ⟨[.insertItem orderID it], some (.itemInserted orderID rest total), none⟩

/-- The handler from its start to the first `await`, `await
pool.getConnection()`. -/
def placeOrderStart (g : Globals) (req : Request) : Globals × Step :=
  match req.body.get "addressID", req.body.get "paymentID",
      req.body.get "trackingNumber", req.body.get "items" with
  | .ok addressID, .ok paymentID, .ok trackingNumber, .ok items =>
    let paymentID := withDefault paymentID .null
    let trackingNumber := withDefault trackingNumber .null
    let g := { g with userID := req.userID }
    if !g.userID.truthy then (g, ⟨[], none, some ⟨400, .message "Missing userID"⟩⟩)
    else if !addressID.truthy then (g, ⟨[], none, some ⟨400, .message "Missing addressID"⟩⟩)
    else
      match nonEmptyArray items with
      | none => (g, ⟨[], none, some ⟨400, .message "Cart is empty"⟩⟩)
      | some items =>
        (g, ⟨[.getConnection], some (.connection addressID paymentID trackingNumber items),
          none⟩)
  | _, _, _, _ => (g, ⟨[], none, none⟩)

/-- The handler from the settlement of the `await` it is suspended at to its
next `await` or to its end. The uses of `userID` read the shared variable as
it is at that moment. -/
def placeOrderResume (g : Globals) (s : Suspended) (reply : Reply) : Step :=
  match s with
  | .connection addressID paymentID trackingNumber items =>
    if reply.failed then ⟨[], none, none⟩
    else
      ⟨[.selectAddress addressID g.userID],
        some (.addressRows addressID paymentID trackingNumber items), none⟩
  | .addressRows addressID paymentID trackingNumber items =>
    if reply.failed then catchStep
    else if reply.rows.length = 0 then
      ⟨[.release, .release], none, some ⟨404, .message "Address not found for this user"⟩⟩
    else
      match computeTotal items with
      | .error _ => catchStep
      | .ok (normalized, total) =>
        ⟨[.beginTransaction],
          some (.begun addressID paymentID trackingNumber normalized total), none⟩
  | .begun addressID paymentID trackingNumber normalized total =>
    if reply.failed then catchStep
    else
      ⟨[.insertOrder g.userID addressID paymentID total trackingNumber],
        some (.orderInserted normalized total), none⟩
  | .orderInserted normalized total =>
    if reply.failed then catchStep else itemsStep reply.insertId total normalized
  | .itemInserted orderID rest total =>
    if reply.failed then catchStep else itemsStep orderID total rest
  | .committed orderID total =>
    if reply.failed then catchStep
    else ⟨[.release], none, some ⟨201, .placed "Order placed successfully" orderID total⟩⟩
  | .rolledBack =>
    if reply.failed then ⟨[.release], none, none⟩
    else ⟨[.release], none, some ⟨500, .message "Error placing order"⟩⟩

/-- The settlement of a call that completed with nothing to yield. -/
def Reply.done : Reply := ⟨false, [], 0⟩

/-- The settlement of a call that failed. -/
def Reply.failure : Reply := ⟨true, [], 0⟩

/-- The settlement of a call from the outcome of the store operation. -/
def replyOf {α : Type} (rows : α → List AddressRow) (insertId : α → Nat) :
    Except Exn α × World → Reply × World
  | (.ok a, w) => (⟨false, rows a, insertId a⟩, w)
  | (.error _, w) => (Reply.failure, w)

/-- One call on the store and how it settles. -/
def World.perform (w : World) (op : Op) : Reply × World :=
  match op with
  | .getConnection => replyOf (fun _ => []) (fun _ => 0) w.getConnection
  | .selectAddress addressID userID =>
    replyOf (fun rows => rows) (fun _ => 0) (w.selectAddress addressID userID)
  | .beginTransaction => replyOf (fun _ => []) (fun _ => 0) w.beginTransaction
  | .insertOrder userID addressID paymentID total trackingNumber =>
    replyOf (fun _ => []) (fun id => id)
      (w.insertOrder userID addressID paymentID total trackingNumber)
  | .insertItem orderID line => replyOf (fun _ => []) (fun _ => 0) (w.insertItem orderID line)
  | .commit => replyOf (fun _ => []) (fun _ => 0) w.commit
  | .rollback => replyOf (fun _ => []) (fun _ => 0) w.rollback
  | .release => (Reply.done, w.release)
  | .selectOrders userID => replyOf (fun _ => []) (fun _ => 0) (w.selectOrders userID)
  | .selectItems orderIDs => replyOf (fun _ => []) (fun _ => 0) (w.selectItems orderIDs)
  | .clearPrimary userID => replyOf (fun _ => []) (fun _ => 0) (w.clearPrimary userID)
  | .insertAddress userID fullName country address unit city state zipCode phoneNum
      isPrimary =>
    replyOf (fun _ => []) (fun id => id)
      (w.insertAddress userID fullName country address unit city state zipCode phoneNum
        isPrimary)

/-- The calls of a step, one after the other; the settlement is that of the
last call. -/
def performAll (w : World) : List Op → Reply × World
  | [] => (Reply.done, w)
  | [op] => w.perform op
  | op :: rest => performAll (w.perform op).2 rest

/-- The handler run with no other handler in between: every step is followed
at once by the settlement of its call; `fuel` bounds the number of
`await`s. -/
def runAlone : Nat → Globals → Step → World → Option Response × World
  | 0, _, step, w =>
    match step.next with
    | none => (step.response, (performAll w step.calls).2)
    | some _ => (none, (performAll w step.calls).2)
  | fuel + 1, g, step, w =>
    match step.next with
    | none => (step.response, (performAll w step.calls).2)
    | some s =>
      runAlone fuel g (placeOrderResume g s (performAll w step.calls).1)
        (performAll w step.calls).2

/-! ## The order total as the specification words it -/

/-- The sum of a list of numbers. -/
def sumNums : List JSNum → JSNum
  | [] => .zero
  | x :: xs => x.add (sumNums xs)

/-- The line total of a raw line as the specification words it:
`toMoney(price * quantity)` with `price = toMoney(item.price)` and
`quantity = max(1, Number(item.quantity) || 1)`. -/
def specLineTotal (it : JSVal) : Except Exn JSNum := do
  let price ← toMoney (← it.get "price")
  let quantity := JSNum.max .one ((← toNumber (← it.get "quantity")).orElse .one)
  pure (toMoneyNum (price.mul quantity))

/-- The line totals of the raw lines, in order. -/
def specLineTotals : List JSVal → Except Exn (List JSNum)
  | [] => .ok []
  | it :: rest =>
    match specLineTotal it, specLineTotals rest with
    | .ok t, .ok ts => .ok (t :: ts)
    | .error e, _ => .error e
    | _, .error e => .error e

/-- The order total as the specification words it: `toMoney` of the sum of
the line totals. -/
def specTotal (items : List JSVal) : Except Exn JSNum :=
  (specLineTotals items).map fun ts => toMoneyNum (sumNums ts)

/-- A number below zero: `-Infinity` or a negative finite number. -/
def JSNum.negative : JSNum → Prop
  | .ninf => True
  | .fin q => q < 0
  | _ => False

/-- A number above one: `Infinity` or a finite number above one. -/
def JSNum.gtOne : JSNum → Prop
  | .pinf => True
  | .fin q => 1 < q
  | _ => False

/-! ## The predicates on numbers can be evaluated -/

instance JSNum.decNonneg (x : JSNum) : Decidable x.nonneg := by
  cases x <;> unfold JSNum.nonneg <;> infer_instance

instance JSNum.decGeOne (x : JSNum) : Decidable x.geOne := by
  cases x <;> unfold JSNum.geOne <;> infer_instance

instance JSNum.decNegative (x : JSNum) : Decidable x.negative := by
  cases x <;> unfold JSNum.negative <;> infer_instance

instance JSNum.decGtOne (x : JSNum) : Decidable x.gtOne := by
  cases x <;> unfold JSNum.gtOne <;> infer_instance

instance JSNum.decIsInteger (x : JSNum) : Decidable x.isInteger :=
  match x with
  | .nan => isFalse (fun h => h)
  | .pinf => isFalse (fun h => h)
  | .ninf => isFalse (fun h => h)
  | .fin q =>
    decidable_of_iff (q.den = 1)
      ⟨fun h => ⟨q.num, ((Rat.den_eq_one_iff q).mp h).symm⟩,
       fun ⟨n, hn⟩ => by rw [hn]; exact Rat.den_intCast n⟩

instance JSNum.decIsCents (x : JSNum) : Decidable x.isCents :=
  match x with
  | .nan => isFalse (fun h => h)
  | .pinf => isFalse (fun h => h)
  | .ninf => isFalse (fun h => h)
  | .fin q =>
    decidable_of_iff ((q * 100).den = 1)
      ⟨fun h => ⟨(q * 100).num, by
          have := (Rat.den_eq_one_iff (q * 100)).mp h
          rw [this]; ring⟩,
       fun ⟨n, hn⟩ => by
          have : q * 100 = (n : ℚ) := by rw [hn]; ring
          rw [this]; exact Rat.den_intCast n⟩

/-! ## Sample data -/

/-- An address of the user `u1`. -/
def sampleAddress : AddressRow :=
  { addressID := 7, userID := .str "u1", fullName := .str "Ada", country := .str "NZ",
    address := .str "1 Main St", unit := .null, city := .str "Nelson", state := .str "NSN",
    zipCode := .str "7010", phoneNum := .str "555", isPrimary := 1, createdAt := 0 }

/-- A store with one address and no orders, no call made yet, with the given
fault schedule. -/
def sampleWorld (faults : Nat → Bool) : World :=
  { tables := { addresses := [sampleAddress], orders := [], orderItems := [] },
    saved := none, nextOrderID := 1, nextItemID := 1, nextAddressID := 8, now := 0, log := [],
    faults := faults }

/-- A request of `u1` for one line, to the address `7`. -/
def sampleRequest : Request :=
  { userID := .str "u1",
    body := .obj [("addressID", .num (.fin 7)),
      ("items", .arr [.obj [("price", .num (.fin (5 / 2))), ("quantity", .num (.fin 3))]])] }

/-- A request of `u1` with an empty cart. -/
def emptyCartRequest : Request :=
  { userID := .str "u1", body := .obj [("addressID", .num (.fin 7)), ("items", .arr [])] }

/-- A request of `u2`, who owns no address, to the address `7`. -/
def strangerRequest : Request :=
  { userID := .str "u2",
    body := .obj [("addressID", .num (.fin 7)),
      ("items", .arr [.obj [("price", .num (.fin (5 / 2))), ("quantity", .num (.fin 3))]])] }

/-- The two lines of the worked example: `29.99` twice and `10.00` once. -/
def workedItems : List JSVal :=
  [.obj [("price", .num (.fin 29.99)), ("quantity", .num (.fin 2))],
   .obj [("price", .num (.fin 10)), ("quantity", .num (.fin 1))]]

/-- The request of `u1` for the worked example, to the address `7`. -/
def workedRequest : Request :=
  { userID := .str "u1",
    body := .obj [("addressID", .num (.fin 7)), ("items", .arr workedItems)] }

/-- The order row of the worked example. -/
def workedOrderRow : OrderRow :=
  { orderID := 1, userID := .str "u1", addressID := .num (.fin 7), paymentID := .null,
    total := .fin 69.98, status := "Order Placed", createdAt := 0, trackingNumber := .null }

/-- The item rows of the worked example. -/
def workedItemRows : List OrderItemRow :=
  [⟨1, 1, .null, .str "Item", .fin 29.99, .fin 2⟩, ⟨2, 1, .null, .str "Item", .fin 10, .fin 1⟩]

/-- The store after the worked example has been placed on the sample store
with no failing call. -/
def workedWorld : World :=
  { tables := { addresses := [sampleAddress], orders := [workedOrderRow],
                orderItems := workedItemRows },
    saved := none, nextOrderID := 2, nextItemID := 3, nextAddressID := 8, now := 0,
    log := [.getConnection, .selectAddress (.num (.fin 7)) (.str "u1"), .beginTransaction,
      .insertOrder (.str "u1") (.num (.fin 7)) .null (.fin 69.98) .null,
      .insertItem 1 ⟨.null, .str "Item", .fin 29.99, .fin 2⟩,
      .insertItem 1 ⟨.null, .str "Item", .fin 10, .fin 1⟩, .commit, .release],
    faults := fun _ => false }

/-- The body of an add-address request with the given value of
`is_primary`. -/
def addressBody (isPrimary : JSVal) : JSVal :=
  .obj [("fullName", .str "Ada"), ("country", .str "NZ"), ("address", .str "2 Side St"),
    ("city", .str "Nelson"), ("state", .str "NSN"), ("zipCode", .str "7010"),
    ("phoneNum", .str "555"), ("is_primary", isPrimary)]

/-- The fields that the handler reads from `addressBody isPrimary`, for a
value of `is_primary` other than `undefined`. -/
def addressBodyFields (isPrimary : JSVal) : AddressFields :=
  { fullName := .str "Ada", country := .str "NZ", address := .str "2 Side St", unit := .null,
    city := .str "Nelson", state := .str "NSN", zipCode := .str "7010", phoneNum := .str "555",
    isPrimary := isPrimary }

/-! ## Counting `release` -/

/-- Whether a call is `conn.release()`. -/
def Op.isRelease : Op → Bool
  | .release => true
  | _ => false

/-- The number of times `conn.release()` is called in a sequence of calls. -/
def releaseCount (ops : List Op) : Nat := (ops.filter Op.isRelease).length

/-! ## The persisted item values as the specification words them -/

/-- The `productID` of an order item as the specification words it:
`Number(productID)` when that is a number other than zero, `null`
otherwise. -/
def specProductID (x : JSNum) : JSVal :=
  match x with
  | .nan => .null
  | .fin q => if q = 0 then .null else .num (.fin q)
  | x => .num x

/-- The `name` of an order item as the specification words it: the name the
caller supplied, or `"Item"` when that is empty or missing (a value that
counts as false). -/
def specItemName (name : JSVal) : JSVal :=
  if name.truthy then name else .str "Item"

/-- The `productID`, `name` and `price` of an order item as the
specification words them, from the request line alone. -/
def specSnapshot (it : JSVal) : Except Exn (JSVal × JSVal × JSNum) := do
  let productID ← toNumber (← it.get "productID")
  let name ← it.get "name"
  let price ← toMoney (← it.get "price")
  pure (specProductID productID, specItemName name, price)

/-! ## The page `Checkout` -/

/-- The expression `a ?? b`. -/
def JSVal.nullish (a b : JSVal) : JSVal :=
  match a with
  | .undefined => b
  | .null => b
  | a => a

/-- The expression `v?.k` for a key that no prototype defines: `undefined`
when `v` is `undefined` or `null`, the member of an object when it has one,
`undefined` otherwise. -/
def JSVal.optGet (v : JSVal) (k : String) : JSVal :=
  match v with
  | .obj kvs => (kvs.lookup k).getD .undefined
  | _ => .undefined

namespace Checkout

/-- The test `v === 1`. -/
def strictEqOne : JSVal → Bool
  | .num (.fin q) => decide (q = 1)
  | _ => false

/-- The call `xs.find((a) => a.is_primary === 1)`: the first element that
passes the test, `undefined` when there is none. Reading the member of an
element that is `null` or `undefined` throws. -/
def findPrimary : List JSVal → Except Exn JSVal
  | [] => .ok .undefined
  | a :: rest =>
    match a.get "is_primary" with
    | .error e => .error e
    | .ok v => if strictEqOne v then .ok a else findPrimary rest

/-- The receiver `(data || [])` of `.find`: the elements of an array, no
elements for a value that counts as false; any other value has no method
`find` and the call throws. -/
def orEmptyArray (data : JSVal) : Except Exn (List JSVal) :=
  match data with
  | .arr xs => .ok xs
  | v => if v.truthy then .error .typeError else .ok []

/-- The expression `data?.[0]`, evaluated after `(data || []).find(...)` has
returned: the first element of an array that has one, `undefined`
otherwise. -/
def firstOf (data : JSVal) : JSVal :=
  match data with
  | .arr (x :: _) => x
  | _ => .undefined

/-- The state `selectedAddressID` after `fetchAddresses` has run for a
logged-in user with the response body `data`: the argument of
`setSelectedAddressID`, `primary?.addressID ?? data?.[0]?.addressID ?? null`.
The state starts as `null`, and an exception in the `try` block leaves it
so. -/
def initialSelection (data : JSVal) : JSVal :=
  match orEmptyArray data with
  | .error _ => .null
  | .ok xs =>
    match findPrimary xs with
    | .error _ => .null
    | .ok primary =>
      (primary.optGet "addressID").nullish (((firstOf data).optGet "addressID").nullish .null)

/-- The guard `if (!selectedAddressID) { alert(...); return; }` of
`placeOrder` on the page: no order request is sent. -/
def orderBlocked (selectedAddressID : JSVal) : Bool := !selectedAddressID.truthy

/-- The constant `TAX_RATE = 0.12`. -/
def taxRate : JSNum := .fin 0.12

/-- The callback of `cart.reduce`:
`s + (Number(it.price) || 0) * (Number(it.qty) || 1)`. -/
def subTotalStep (s : JSNum) (it : JSVal) : Except Exn JSNum := do
  let price ← toNumber (← it.get "price")
  let qty ← toNumber (← it.get "qty")
  pure (s.add ((price.orElse .zero).mul (qty.orElse .one)))

/-- The call `cart.reduce(callback, s)`. -/
def subTotalFrom : List JSVal → JSNum → Except Exn JSNum
  | [], s => .ok s
  | it :: rest, s =>
    match subTotalStep s it with
    | .error e => .error e
    | .ok s' => subTotalFrom rest s'

/-- The value `subTotal` of the page. -/
def subTotal (cart : List JSVal) : Except Exn JSNum := subTotalFrom cart .zero

/-- The value `tax = subTotal * TAX_RATE`. -/
def tax (subTotal : JSNum) : JSNum := subTotal.mul taxRate

/-- The value `total = subTotal + tax`. -/
def total (subTotal : JSNum) : JSNum := subTotal.add (tax subTotal)

/-- The value `Number(total.toFixed(2))` that the page hands to the
thank-you page, which shows it as "Total paid". -/
def totalPaid (subTotal : JSNum) : JSNum := (total subTotal).toFixed2

/-- A number as `JSON.stringify` sends it: `NaN` and the infinities become
`null`. -/
def jsonNumber : JSNum → JSVal
  | .fin q => .num (.fin q)
  | _ => .null

/-- The element of `items` that the page sends for the cart item `it`,
`{ productID: it.id ?? it.productID ?? null, name: it.name, price:
Number(it.price) || 0, quantity: Number(it.qty) || 1 }`, as the server parses
it: `JSON.stringify` leaves out a member that is `undefined`. -/
def payloadItem (it : JSVal) : Except Exn JSVal := do
  let id ← it.get "id"
  let productID ← it.get "productID"
  let name ← it.get "name"
  let price ← toNumber (← it.get "price")
  let qty ← toNumber (← it.get "qty")
  pure (.obj ([("productID", id.nullish (productID.nullish .null))] ++
    (match name with
      | .undefined => []
      | n => [("name", n)]) ++
    [("price", jsonNumber (price.orElse .zero)), ("quantity", jsonNumber (qty.orElse .one))]))

/-- The member `items` of the payload, `cart.map(...)`. -/
def payloadItems : List JSVal → Except Exn (List JSVal)
  | [] => .ok []
  | it :: rest =>
    match payloadItem it with
    | .error e => .error e
    | .ok x =>
      match payloadItems rest with
      | .error e => .error e
      | .ok xs => .ok (x :: xs)

end Checkout

/-- A cart item of the class of carts for which the page and the server are
compared: the price converts to a number that is not below zero and has at
most two fraction digits, the quantity converts to a positive integer, and
the conversion of the product id on the server does not throw. -/
def Checkout.wellPriced (it : JSVal) : Prop :=
  ∃ (pv qv idv pidv : JSVal) (n m : ℤ) (dn : JSNum),
    it.get "price" = .ok pv ∧ toNumber pv = .ok (.fin ((n : ℚ) / 100)) ∧ 0 ≤ n ∧
    it.get "qty" = .ok qv ∧ toNumber qv = .ok (.fin (m : ℚ)) ∧ 0 < m ∧
    it.get "id" = .ok idv ∧ it.get "productID" = .ok pidv ∧
    toNumber (idv.nullish (pidv.nullish .null)) = .ok dn

/-- A cart with one free item. -/
def freeCart : List JSVal := [.obj [("price", .num (.fin 0)), ("qty", .num (.fin 1))]]

/-- A cart with two pens at `29.99`. -/
def pricedCart : List JSVal :=
  [.obj [("id", .num (.fin 3)), ("name", .str "Pen"), ("price", .num (.fin (2999 / 100))),
    ("qty", .num (.fin 2))]]

/-! ## The page `Cart` -/

/-- The call `Math.min(a, b)`. -/
def JSNum.min : JSNum → JSNum → JSNum
  | .nan, _ => .nan
  | _, .nan => .nan
  | .ninf, _ => .ninf
  | _, .ninf => .ninf
  | .pinf, b => b
  | a, .pinf => a
  | .fin a, .fin b => .fin (if a ≤ b then a else b)

/-- The relation `a <= b` on numbers; it does not hold of `NaN`. -/
def JSNum.le : JSNum → JSNum → Prop
  | .nan, _ => False
  | _, .nan => False
  | .ninf, _ => True
  | _, .pinf => True
  | .fin a, .fin b => a ≤ b
  | _, _ => False

namespace Cart

/-- A cart item, an object, as the list of its members, each key once. -/
abbrev Item := List (String × JSVal)

/-- The member `item.k`, `undefined` when the item has none. -/
def member (item : Item) (k : String) : JSVal := (item.lookup k).getD .undefined

/-- The object `{ ...item, k: v }`: the member `k` gets the value `v` where
it stands, or is added at the end. -/
def setMember (item : Item) (k : String) (v : JSVal) : Item :=
  if JSVal.hasKey k item then item.map fun e => if e.1 == k then (k, v) else e
  else item ++ [(k, v)]

/-- The function `makeItemKey`. The conversion of a value to a string that a
template literal applies is the parameter `toStr`. -/
def makeItemKey (toStr : JSVal → Except Exn String) (item : Item) : Except Exn String := do
  let pid := (member item "id").nullish ((member item "productID").nullish
    ((member item "productId").nullish ((member item "productid").nullish
      (member item "productID"))))
  let optionName := (member item "optionName").nullish (.str "default")
  let optionValue := (member item "optionValue").nullish (.str "default")
  pure ((← toStr pid) ++ "-" ++ (← toStr optionName) ++ "-" ++ (← toStr optionValue))

/-- The expression `it.key ?? makeItemKey(it)`. -/
def itemKey (toStr : JSVal → Except Exn String) (it : Item) : Except Exn JSVal :=
  match member it "key" with
  | .undefined => (makeItemKey toStr it).map .str
  | .null => (makeItemKey toStr it).map .str
  | k => .ok k

/-- The test `itKey === key` for a key that is a string. -/
def strictEqStr (itKey : JSVal) (key : String) : Bool :=
  match itKey with
  | .str s => s == key
  | _ => false

/-- The callback of `prev.map` in `handleQty`. -/
def handleQtyItem (toStr : JSVal → Except Exn String) (key : String) (next : JSNum)
    (it : Item) : Except Exn Item := do
  let itKey ← itemKey toStr it
  if strictEqStr itKey key then
    let stock ← toNumber ((member it "stock").nullish (.num (.fin 9999)))
    let clamped := JSNum.max .one (JSNum.min stock next)
    pure (setMember (setMember it "qty" (.num clamped)) "key" ((member it "key").nullish itKey))
  else pure it

/-- The cart `updated` that `handleQty(key, next)` makes of the cart
`prev`. -/
def handleQty (toStr : JSVal → Except Exn String) (key : String) (next : JSNum) :
    List Item → Except Exn (List Item)
  | [] => .ok []
  | it :: rest =>
    match handleQtyItem toStr key next it with
    | .error e => .error e
    | .ok it' =>
      match handleQty toStr key next rest with
      | .error e => .error e
      | .ok rest' => .ok (it' :: rest')

end Cart

/-- A conversion to a string that reads a string as it is and prints every
other value as `undefined`; the key of the sample item does not depend on
it. -/
def sampleToStr : JSVal → Except Exn String
  | .str s => .ok s
  | _ => .ok "undefined"

/-- A cart with one item, of which five are in stock. -/
def sampleCart : List Cart.Item :=
  [[("key", .str "7-default-default"), ("qty", .num (.fin 1)), ("stock", .num (.fin 5))]]

/-! ## The page `AllProducts` -/

namespace AllProducts

/-- The constant `perPage = 24`. -/
def perPage : ℤ := 24

/-- The value `totalPages = Math.max(1, Math.ceil(filtered.length / perPage))`
for a list of the given length. -/
def totalPages (length : Nat) : ℤ := max 1 ⌈(length : ℚ) / (perPage : ℚ)⌉

/-- The value `pageSafe = Math.min(Math.max(1, page), totalPages)`. -/
def pageSafe (page : ℤ) (length : Nat) : ℤ := min (max 1 page) (totalPages length)

/-- The call `xs.slice(start, stop)` for integer arguments: an index below
zero counts from the end, and both indices are brought into the range of the
list. -/
def slice {α : Type} (xs : List α) (start stop : ℤ) : List α :=
  let len : ℤ := xs.length
  let k : ℤ := if start < 0 then max (len + start) 0 else min start len
  let final : ℤ := if stop < 0 then max (len + stop) 0 else min stop len
  (xs.drop k.toNat).take (final - k).toNat

/-- The value `pageItems = filtered.slice((pageSafe - 1) * perPage, pageSafe *
perPage)` when the state `page` holds the given number. -/
def pageItems {α : Type} (filtered : List α) (page : ℤ) : List α :=
  slice filtered ((pageSafe page filtered.length - 1) * perPage)
    (pageSafe page filtered.length * perPage)

end AllProducts

/-! ## Numbers: basic facts -/

theorem jsAdd_zero_left (x : JSNum) : JSNum.zero.add x = x := by
  cases x <;> simp [JSNum.add, JSNum.zero]

theorem jsAdd_zero_right (x : JSNum) : x.add JSNum.zero = x := by
  cases x <;> simp [JSNum.add, JSNum.zero]

theorem jsAdd_assoc (a b c : JSNum) : (a.add b).add c = a.add (b.add c) := by
  cases a <;> cases b <;> cases c <;> simp [JSNum.add, add_assoc]

theorem round2_isCents (q : ℚ) : ∃ n : ℤ, JSNum.round2 q = n / 100 := by
  unfold JSNum.round2
  split
  · exact ⟨-⌊-q * 100 + 1 / 2⌋, by push_cast; ring⟩
  · exact ⟨⌊q * 100 + 1 / 2⌋, rfl⟩

theorem round2_nonneg (q : ℚ) (h : 0 ≤ q) : 0 ≤ JSNum.round2 q := by
  unfold JSNum.round2
  rw [if_neg (not_lt.mpr h)]
  have : (0 : ℤ) ≤ ⌊q * 100 + 1 / 2⌋ := Int.floor_nonneg.mpr (by positivity)
  have h2 : (0 : ℚ) ≤ ((⌊q * 100 + 1 / 2⌋ : ℤ) : ℚ) := by exact_mod_cast this
  positivity

theorem toMoneyNum_nan : toMoneyNum .nan = .fin (JSNum.round2 0) := rfl

theorem toMoneyNum_pinf : toMoneyNum .pinf = .pinf := rfl

theorem toMoneyNum_ninf : toMoneyNum .ninf = .ninf := rfl

theorem toMoneyNum_fin (q : ℚ) : toMoneyNum (.fin q) = .fin (JSNum.round2 q) := by
  by_cases hq : q = 0
  · subst hq
    simp [toMoneyNum, JSNum.orElse, JSNum.truthy, JSNum.toFixed2, JSNum.zero]
  · simp [toMoneyNum, JSNum.orElse, JSNum.truthy, JSNum.toFixed2, hq]

/-- The helper `toMoney` never yields `NaN`. -/
theorem toMoneyNum_ne_nan (x : JSNum) : toMoneyNum x ≠ .nan := by
  cases x <;> simp [toMoneyNum_nan, toMoneyNum_pinf, toMoneyNum_ninf, toMoneyNum_fin]

/-- On a number that is not below zero the helper `toMoney` yields a number
that is not below zero; `NaN` becomes `0`. -/
theorem toMoneyNum_nonneg (x : JSNum) (h : ¬ x.negative) : (toMoneyNum x).nonneg := by
  cases x with
  | nan => rw [toMoneyNum_nan]; exact round2_nonneg 0 le_rfl
  | pinf => simp [toMoneyNum_pinf, JSNum.nonneg]
  | ninf => simp [JSNum.negative] at h
  | fin q =>
    simp only [JSNum.negative, not_lt] at h
    rw [toMoneyNum_fin]
    exact round2_nonneg q h

/-- On a finite number or `NaN` the helper `toMoney` yields an integer
multiple of `0.01`. -/
theorem toMoneyNum_isCents (x : JSNum) (h1 : x ≠ .pinf) (h2 : x ≠ .ninf) :
    (toMoneyNum x).isCents := by
  cases x with
  | nan => rw [toMoneyNum_nan]; exact round2_isCents 0
  | pinf => exact absurd rfl h1
  | ninf => exact absurd rfl h2
  | fin q => rw [toMoneyNum_fin]; exact round2_isCents q

/-! ## The normaliser: what a completed call returns -/

/-- A call of the callback that completes read the four members and
converted three of them, and returns the line and line total built from the
converted values. -/
theorem normalizeLine_inv (it : JSVal) (line : Line) (lt : JSNum)
    (h : normalizeLine it = .ok (line, lt)) :
    ∃ p q d nm pn qn dn,
      it.get "price" = .ok p ∧ it.get "quantity" = .ok q ∧
      it.get "productID" = .ok d ∧ it.get "name" = .ok nm ∧
      toNumber p = .ok pn ∧ toNumber q = .ok qn ∧ toNumber d = .ok dn ∧
      line = { productID := productIDOf dn, name := nm.orElse (.str "Item"),
               price := toMoneyNum pn, quantity := qtyOf qn } ∧
      lt = toMoneyNum ((toMoneyNum pn).mul (qtyOf qn)) := by
  unfold normalizeLine at h
  cases h1 : it.get "price" with
  | error e => simp [h1, bind, Except.bind] at h
  | ok p =>
    cases h2 : toNumber p with
    | error e => simp [h1, h2, bind, Except.bind, toMoney, Except.map] at h
    | ok pn =>
      cases h3 : it.get "quantity" with
      | error e => simp [h1, h2, h3, bind, Except.bind, toMoney, Except.map] at h
      | ok q =>
        cases h4 : toNumber q with
        | error e => simp [h1, h2, h3, h4, bind, Except.bind, toMoney, Except.map] at h
        | ok qn =>
          cases h5 : it.get "productID" with
          | error e => simp [h1, h2, h3, h4, h5, bind, Except.bind, toMoney, Except.map] at h
          | ok d =>
            cases h6 : toNumber d with
            | error e =>
              simp [h1, h2, h3, h4, h5, h6, bind, Except.bind, toMoney, Except.map] at h
            | ok dn =>
              cases h7 : it.get "name" with
              | error e =>
                simp [h1, h2, h3, h4, h5, h6, h7, bind, Except.bind, toMoney, Except.map] at h
              | ok nm =>
                simp [h1, h2, h3, h4, h5, h6, h7, bind, Except.bind, toMoney, Except.map,
                  pure, Except.pure] at h
                exact ⟨p, q, d, nm, pn, qn, dn, rfl, rfl, rfl, rfl, h2, h4, h6,
                  h.1.symm, h.2.symm⟩

/-- A call of the callback completes when the four members can be read and
the three conversions complete. -/
theorem normalizeLine_ok (it p q d nm : JSVal) (pn qn dn : JSNum)
    (h1 : it.get "price" = .ok p) (h2 : it.get "quantity" = .ok q)
    (h3 : it.get "productID" = .ok d) (h4 : it.get "name" = .ok nm)
    (h5 : toNumber p = .ok pn) (h6 : toNumber q = .ok qn) (h7 : toNumber d = .ok dn) :
    normalizeLine it =
      .ok ({ productID := productIDOf dn, name := nm.orElse (.str "Item"),
             price := toMoneyNum pn, quantity := qtyOf qn },
           toMoneyNum ((toMoneyNum pn).mul (qtyOf qn))) := by
  simp [normalizeLine, h1, h2, h3, h4, h5, h6, h7, bind, Except.bind, toMoney, Except.map,
    pure, Except.pure]

theorem specLineTotal_of_normalizeLine (it : JSVal) (line : Line) (lt : JSNum)
    (h : normalizeLine it = .ok (line, lt)) : specLineTotal it = .ok lt := by
  obtain ⟨p, q, d, nm, pn, qn, dn, h1, h2, -, -, h5, h6, -, -, rfl⟩ :=
    normalizeLine_inv it line lt h
  simp [specLineTotal, h1, h2, h5, h6, bind, Except.bind, toMoney, Except.map, pure,
    Except.pure, qtyOf]

theorem normalizeAll_spec (items : List JSVal) (start : JSNum) (lines : List Line)
    (total : JSNum) (h : normalizeAll items start = .ok (lines, total)) :
    ∃ ts, specLineTotals items = .ok ts ∧ total = start.add (sumNums ts) := by
  induction items generalizing start lines total with
  | nil =>
    simp only [normalizeAll, Except.ok.injEq, Prod.mk.injEq] at h
    exact ⟨[], rfl, by simp [sumNums, jsAdd_zero_right, h.2]⟩
  | cons it rest ih =>
    unfold normalizeAll at h
    cases h1 : normalizeLine it with
    | error e => simp [h1] at h
    | ok r =>
      obtain ⟨line, lt⟩ := r
      simp only [h1] at h
      cases h2 : normalizeAll rest (start.add lt) with
      | error e => simp [h2] at h
      | ok r2 =>
        obtain ⟨ls, t⟩ := r2
        simp only [h2, Except.ok.injEq, Prod.mk.injEq] at h
        obtain ⟨ts, hts, ht⟩ := ih (start.add lt) ls t h2
        refine ⟨lt :: ts, ?_, ?_⟩
        · simp [specLineTotals, specLineTotal_of_normalizeLine it line lt h1, hts]
        · rw [← h.2, ht, sumNums, jsAdd_assoc]

theorem qtyOf_geOne (x : JSNum) : (qtyOf x).geOne := by
  cases x with
  | nan => simp [qtyOf, JSNum.orElse, JSNum.truthy, JSNum.max, JSNum.one, JSNum.geOne]
  | pinf => simp [qtyOf, JSNum.orElse, JSNum.truthy, JSNum.max, JSNum.one, JSNum.geOne]
  | ninf => simp [qtyOf, JSNum.orElse, JSNum.truthy, JSNum.max, JSNum.one, JSNum.geOne]
  | fin q =>
    by_cases hq : q = 0
    · subst hq
      simp [qtyOf, JSNum.orElse, JSNum.truthy, JSNum.max, JSNum.one, JSNum.geOne]
    · simp only [qtyOf, JSNum.orElse, JSNum.truthy, ne_eq, hq, not_false_eq_true,
        decide_True, if_true, JSNum.max, JSNum.one, JSNum.geOne]
      split <;> simp_all

theorem mul_not_negative (a b : JSNum) (ha : a.nonneg) (hb : b.geOne) :
    ¬ (a.mul b).negative := by
  cases a with
  | nan => simp [JSNum.nonneg] at ha
  | ninf => simp [JSNum.nonneg] at ha
  | pinf =>
    cases b with
    | nan => simp [JSNum.geOne] at hb
    | ninf => simp [JSNum.geOne] at hb
    | pinf => simp [JSNum.mul, JSNum.negative]
    | fin q =>
      simp only [JSNum.geOne] at hb
      have hq : q ≠ 0 := by linarith
      have hq' : 0 < q := by linarith
      simp [JSNum.mul, hq, JSNum.infOfSign, hq', JSNum.negative]
  | fin p =>
    simp only [JSNum.nonneg] at ha
    cases b with
    | nan => simp [JSNum.geOne] at hb
    | ninf => simp [JSNum.geOne] at hb
    | pinf =>
      by_cases hp : p = 0
      · simp [JSNum.mul, hp, JSNum.negative]
      · have hp' : 0 < p := lt_of_le_of_ne ha (Ne.symm hp)
        simp [JSNum.mul, hp, JSNum.infOfSign, hp', JSNum.negative]
    | fin q =>
      simp only [JSNum.geOne] at hb
      simp only [JSNum.mul, JSNum.negative, not_lt]
      exact mul_nonneg ha (by linarith)

theorem jsAdd_nonneg (a b : JSNum) (ha : a.nonneg) (hb : b.nonneg) : (a.add b).nonneg := by
  cases a <;> cases b <;> simp_all [JSNum.add, JSNum.nonneg]
  exact add_nonneg ha hb

theorem nonneg_not_negative (a : JSNum) (ha : a.nonneg) : ¬ a.negative := by
  cases a <;> simp_all [JSNum.nonneg, JSNum.negative]

theorem normalizeAll_nonneg (items : List JSVal) (start : JSNum) (lines : List Line)
    (total : JSNum) (h : normalizeAll items start = .ok (lines, total))
    (hstart : start.nonneg)
    (hp : ∀ it ∈ items, ∀ p n, it.get "price" = .ok p → toNumber p = .ok n → ¬ n.negative) :
    total.nonneg := by
  induction items generalizing start lines total with
  | nil =>
    simp only [normalizeAll, Except.ok.injEq, Prod.mk.injEq] at h
    rw [← h.2]; exact hstart
  | cons it rest ih =>
    unfold normalizeAll at h
    cases h1 : normalizeLine it with
    | error e => simp [h1] at h
    | ok r =>
      obtain ⟨line, lt⟩ := r
      simp only [h1] at h
      cases h2 : normalizeAll rest (start.add lt) with
      | error e => simp [h2] at h
      | ok r2 =>
        obtain ⟨ls, t⟩ := r2
        simp only [h2, Except.ok.injEq, Prod.mk.injEq] at h
        obtain ⟨p, q, d, nm, pn, qn, dn, g1, -, -, -, g5, -, -, -, rfl⟩ :=
          normalizeLine_inv it line lt h1
        have hpn : ¬ pn.negative := hp it (List.mem_cons_self _ _) p pn g1 g5
        have hlt : (toMoneyNum ((toMoneyNum pn).mul (qtyOf qn))).nonneg :=
          toMoneyNum_nonneg _ (mul_not_negative _ _ (toMoneyNum_nonneg pn hpn) (qtyOf_geOne qn))
        rw [← h.2]
        exact ih _ ls t h2 (jsAdd_nonneg _ _ hstart hlt)
          (fun it' hit' => hp it' (List.mem_cons_of_mem _ hit'))

theorem toNumber_ok_of_not_throws (v : JSVal) (h : throwsToString v = false) :
    ∃ n, toNumber v = .ok n := by
  cases v with
  | undefined => exact ⟨_, rfl⟩
  | null => exact ⟨_, rfl⟩
  | bool b => exact ⟨_, rfl⟩
  | num x => exact ⟨_, rfl⟩
  | str s => exact ⟨_, rfl⟩
  | arr xs =>
    simp only [throwsToString] at h
    exact ⟨joinNumber xs, by simp [toNumber, h]⟩
  | obj kvs =>
    simp only [throwsToString] at h
    exact ⟨.nan, by simp [toNumber, h]⟩

theorem round2_neg_five : JSNum.round2 (-5) = -5 := by
  simp [JSNum.round2]; norm_num

theorem round2_zero : JSNum.round2 0 = 0 := by
  simp [JSNum.round2]; norm_num

theorem round2_five_halves : JSNum.round2 (5 / 2) = 5 / 2 := by
  simp [JSNum.round2]; norm_num

theorem round2_fifteen_halves : JSNum.round2 (15 / 2) = 15 / 2 := by
  simp [JSNum.round2]; norm_num

theorem not_isInteger_five_halves : ¬ (JSNum.fin (5 / 2)).isInteger := by
  rintro ⟨n, hn⟩
  have h2 : (5 : ℚ) = ((2 * n : ℤ) : ℚ) := by push_cast; linarith
  have h3 : (5 : ℤ) = 2 * n := by exact_mod_cast h2
  omega

theorem qtyOf_isInteger_iff (n : JSNum) :
    (qtyOf n).isInteger ↔ (n.isInteger ∨ ¬ n.gtOne) := by
  have one_int : ∃ k : ℤ, (1 : ℚ) = k := ⟨1, by norm_num⟩
  cases n with
  | nan =>
    simpa [qtyOf, JSNum.orElse, JSNum.truthy, JSNum.max, JSNum.one, JSNum.isInteger,
      JSNum.gtOne] using one_int
  | pinf =>
    simp [qtyOf, JSNum.orElse, JSNum.truthy, JSNum.max, JSNum.one, JSNum.isInteger,
      JSNum.gtOne]
  | ninf =>
    simpa [qtyOf, JSNum.orElse, JSNum.truthy, JSNum.max, JSNum.one, JSNum.isInteger,
      JSNum.gtOne] using one_int
  | fin q =>
    by_cases hq : q = 0
    · subst hq
      simpa [qtyOf, JSNum.orElse, JSNum.truthy, JSNum.max, JSNum.one, JSNum.isInteger,
        JSNum.gtOne] using one_int
    · simp only [qtyOf, JSNum.orElse, JSNum.truthy, ne_eq, hq, not_false_eq_true,
        decide_True, if_true, JSNum.max, JSNum.one, JSNum.isInteger, JSNum.gtOne, not_lt]
      by_cases h1 : 1 ≤ q
      · rw [if_pos h1]
        constructor
        · intro h; exact Or.inl h
        · rintro (h | h)
          · exact h
          · have : q = 1 := le_antisymm h h1
            rw [this]; exact one_int
      · rw [if_neg h1]
        constructor
        · intro _; exact Or.inr (le_of_lt (not_le.mp h1))
        · intro _; exact one_int

/-! ## Claims about the normaliser and the order total -/

/-- C2: when the normalisation of the items completes, the total that
`placeOrder` computes is `toMoney` of the sum of the line totals
`toMoney(price * quantity)` with `price = toMoney(item.price)` and
`quantity = max(1, Number(item.quantity) || 1)`: the sum of the rounded
lines, rounded once more. -/
theorem computeTotal_eq_specTotal (items : List JSVal) (lines : List Line) (total : JSNum)
    (h : computeTotal items = .ok (lines, total)) :
    specTotal items = .ok total := by
  unfold computeTotal at h
  cases h1 : normalizeAll items .zero with
  | error e => simp [h1] at h
  | ok r =>
    obtain ⟨ls, t⟩ := r
    simp only [h1, Except.ok.injEq, Prod.mk.injEq] at h
    obtain ⟨ts, hts, ht⟩ := normalizeAll_spec items .zero ls t h1
    simp [specTotal, hts, Except.map, ← h.2, ht, jsAdd_zero_left]

/-- C2, witness: two lines, the second with no price and no quantity. -/
theorem computeTotal_eq_specTotal_witness :
    computeTotal [.obj [("price", .num (.fin (5 / 2))), ("quantity", .num (.fin 3))],
        .obj [("name", .str "Pen")]]
      = .ok ([⟨.null, .str "Item", .fin (5 / 2), .fin 3⟩, ⟨.null, .str "Pen", .fin 0, .fin 1⟩],
          .fin (15 / 2)) ∧
    specTotal [.obj [("price", .num (.fin (5 / 2))), ("quantity", .num (.fin 3))],
        .obj [("name", .str "Pen")]] = .ok (.fin (15 / 2)) :=
  have h : computeTotal [.obj [("price", .num (.fin (5 / 2))), ("quantity", .num (.fin 3))],
        .obj [("name", .str "Pen")]]
      = .ok ([⟨.null, .str "Item", .fin (5 / 2), .fin 3⟩, ⟨.null, .str "Pen", .fin 0, .fin 1⟩],
          .fin (15 / 2)) := by
    simp [computeTotal, normalizeAll, normalizeLine, JSVal.get, List.lookup, toNumber, toMoney,
      Except.map, bind, Except.bind, pure, Except.pure, toMoneyNum_fin, toMoneyNum_nan, qtyOf,
      JSNum.orElse, JSNum.truthy, JSNum.max, JSNum.one, JSNum.zero, JSNum.mul, JSNum.add,
      productIDOf, JSVal.orElse, JSVal.truthy, round2_zero, round2_five_halves,
      round2_fifteen_halves]
    norm_num [round2_fifteen_halves]
  ⟨h, computeTotal_eq_specTotal _ _ _ h⟩

/-- C3, as stated, fails: one line with the price `-5` and no quantity gives
the order total `-5`. -/
theorem total_negative_counterexample :
    computeTotal [.obj [("price", .num (.fin (-5)))]]
      = .ok ([⟨.null, .str "Item", .fin (-5), .fin 1⟩], .fin (-5)) ∧
    ¬ (JSNum.fin (-5)).nonneg := by
  constructor
  · simp [computeTotal, normalizeAll, normalizeLine, JSVal.get, List.lookup, toNumber, toMoney,
      Except.map, bind, Except.bind, pure, Except.pure, toMoneyNum_fin, toMoneyNum_nan, qtyOf,
      JSNum.orElse, JSNum.truthy, JSNum.max, JSNum.one, JSNum.zero, JSNum.mul, JSNum.add,
      productIDOf, JSVal.orElse, JSVal.truthy, round2_neg_five]
  · simp [JSNum.nonneg]

/-- C3, amended: when no line has a price that converts to a number below
zero, the order total that a completed normalisation yields is not below
zero (and is not `NaN`). -/
theorem total_nonneg_of_prices (items : List JSVal) (lines : List Line) (total : JSNum)
    (h : computeTotal items = .ok (lines, total))
    (hp : ∀ it ∈ items, ∀ p n, it.get "price" = .ok p → toNumber p = .ok n → ¬ n.negative) :
    total.nonneg := by
  unfold computeTotal at h
  cases h1 : normalizeAll items .zero with
  | error e => simp [h1] at h
  | ok r =>
    obtain ⟨ls, t⟩ := r
    simp only [h1, Except.ok.injEq, Prod.mk.injEq] at h
    rw [← h.2]
    exact toMoneyNum_nonneg t (nonneg_not_negative t
      (normalizeAll_nonneg items .zero ls t h1 (by simp [JSNum.zero, JSNum.nonneg]) hp))

/-- C3, amended, witness: one line with the price `2.5` and the quantity
`3`. -/
theorem total_nonneg_of_prices_witness :
    computeTotal [.obj [("price", .num (.fin (5 / 2))), ("quantity", .num (.fin 3))]]
      = .ok ([⟨.null, .str "Item", .fin (5 / 2), .fin 3⟩], .fin (15 / 2)) ∧
    (JSNum.fin (15 / 2)).nonneg :=
  have h : computeTotal [.obj [("price", .num (.fin (5 / 2))), ("quantity", .num (.fin 3))]]
      = .ok ([⟨.null, .str "Item", .fin (5 / 2), .fin 3⟩], .fin (15 / 2)) := by
    simp [computeTotal, normalizeAll, normalizeLine, JSVal.get, List.lookup, toNumber, toMoney,
      Except.map, bind, Except.bind, pure, Except.pure, toMoneyNum_fin, toMoneyNum_nan, qtyOf,
      JSNum.orElse, JSNum.truthy, JSNum.max, JSNum.one, JSNum.zero, JSNum.mul, JSNum.add,
      productIDOf, JSVal.orElse, JSVal.truthy, round2_five_halves]
    norm_num [round2_fifteen_halves]
  ⟨h, total_nonneg_of_prices _ _ _ h (by
    intro it hit p n hg hn
    simp only [List.mem_singleton] at hit
    subst hit
    simp [JSVal.get, List.lookup] at hg
    subst hg
    simp [toNumber] at hn
    subst hn
    norm_num [JSNum.negative])⟩

/-- C4, as stated, fails: the price `-5` is normalised to `-5`, which is
below zero, and the price `"Infinity"` is normalised to `Infinity`, which is
not a multiple of `0.01`. -/
theorem price_normalised_counterexample :
    normalizeLine (.obj [("price", .num (.fin (-5)))])
      = .ok (⟨.null, .str "Item", .fin (-5), .fin 1⟩, .fin (-5)) ∧
    ¬ (JSNum.fin (-5)).nonneg ∧
    normalizeLine (.obj [("price", .str "Infinity")])
      = .ok (⟨.null, .str "Item", .pinf, .fin 1⟩, .pinf) ∧
    ¬ JSNum.pinf.isCents := by
  refine ⟨?_, ?_, ?_, ?_⟩
  · simp [normalizeLine, JSVal.get, List.lookup, toNumber, toMoney,
      Except.map, bind, Except.bind, pure, Except.pure, toMoneyNum_fin, toMoneyNum_nan, qtyOf,
      JSNum.orElse, JSNum.truthy, JSNum.max, JSNum.one, JSNum.zero, JSNum.mul,
      productIDOf, JSVal.orElse, JSVal.truthy, round2_neg_five]
  · simp [JSNum.nonneg]
  · simp [normalizeLine, JSVal.get, List.lookup, toNumber, toMoney, stringToNumber,
      readNumeric, readUnsignedDecimal, isStrWhiteSpace,
      Except.map, bind, Except.bind, pure, Except.pure, toMoneyNum_pinf, toMoneyNum_nan, qtyOf,
      JSNum.orElse, JSNum.truthy, JSNum.max, JSNum.one, JSNum.zero, JSNum.mul, JSNum.infOfSign,
      productIDOf, JSVal.orElse, JSVal.truthy]
  · simp [JSNum.isCents]

/-- C4, amended: in every line that the callback returns, the price is an
integer multiple of `0.01` unless the raw price converts to `Infinity` or
`-Infinity` (it then stays that infinity), and the price is not below zero
whenever the raw price does not convert to a number below zero. -/
theorem price_normalised (it : JSVal) (line : Line) (lt : JSNum)
    (h : normalizeLine it = .ok (line, lt)) :
    ∃ p n, it.get "price" = .ok p ∧ toNumber p = .ok n ∧ toMoney p = .ok line.price ∧
      (n ≠ .pinf → n ≠ .ninf → line.price.isCents) ∧
      (n = .pinf → line.price = .pinf) ∧ (n = .ninf → line.price = .ninf) ∧
      (¬ n.negative → line.price.nonneg) := by
  obtain ⟨p, q, d, nm, pn, qn, dn, g1, -, -, -, g5, -, -, rfl, -⟩ :=
    normalizeLine_inv it line lt h
  refine ⟨p, pn, g1, g5, by simp [toMoney, g5, Except.map], ?_, ?_, ?_, ?_⟩
  · exact toMoneyNum_isCents pn
  · rintro rfl; rfl
  · rintro rfl; rfl
  · exact toMoneyNum_nonneg pn

/-- C4, amended, witness: a line whose price is the string `"abc"`. -/
theorem price_normalised_witness :
    normalizeLine (.obj [("price", .str "abc")])
      = .ok (⟨.null, .str "Item", .fin 0, .fin 1⟩, .fin 0) ∧
    ∃ p n, (JSVal.obj [("price", .str "abc")]).get "price" = .ok p ∧ toNumber p = .ok n ∧
      toMoney p = .ok (JSNum.fin 0) ∧
      (n ≠ .pinf → n ≠ .ninf → (JSNum.fin 0).isCents) ∧
      (n = .pinf → JSNum.fin 0 = .pinf) ∧ (n = .ninf → JSNum.fin 0 = .ninf) ∧
      (¬ n.negative → (JSNum.fin 0).nonneg) :=
  have h : normalizeLine (.obj [("price", .str "abc")])
      = .ok (⟨.null, .str "Item", .fin 0, .fin 1⟩, .fin 0) := by
    simp [normalizeLine, JSVal.get, List.lookup, toNumber, toMoney, stringToNumber,
      readNumeric, readUnsignedDecimal, isStrWhiteSpace, digitsValue,
      Except.map, bind, Except.bind, pure, Except.pure, toMoneyNum_fin, toMoneyNum_nan, qtyOf,
      JSNum.orElse, JSNum.truthy, JSNum.max, JSNum.one, JSNum.zero, JSNum.mul,
      productIDOf, JSVal.orElse, JSVal.truthy, round2_zero]
  ⟨h, price_normalised _ _ _ h⟩

/-- C5, as stated, fails: the quantity `2.5` is normalised to `2.5`, which
is not an integer. -/
theorem quantity_normalised_counterexample :
    normalizeLine (.obj [("quantity", .num (.fin (5 / 2)))])
      = .ok (⟨.null, .str "Item", .fin 0, .fin (5 / 2)⟩, .fin 0) ∧
    ¬ (JSNum.fin (5 / 2)).isInteger := by
  refine ⟨?_, not_isInteger_five_halves⟩
  simp [normalizeLine, JSVal.get, List.lookup, toNumber, toMoney,
    Except.map, bind, Except.bind, pure, Except.pure, toMoneyNum_fin, toMoneyNum_nan, qtyOf,
    JSNum.orElse, JSNum.truthy, JSNum.max, JSNum.one, JSNum.zero, JSNum.mul,
    productIDOf, JSVal.orElse, JSVal.truthy, round2_zero]
  norm_num

/-- C5, amended: in every line that the callback returns, the quantity is
`Math.max(1, Number(it.quantity) || 1)`, it is no less than `1` (never
`NaN`), and it is an integer exactly when the raw quantity converts to an
integer or to something that is not above `1` (`NaN` included). -/
theorem quantity_normalised (it : JSVal) (line : Line) (lt : JSNum)
    (h : normalizeLine it = .ok (line, lt)) :
    ∃ q n, it.get "quantity" = .ok q ∧ toNumber q = .ok n ∧
      line.quantity = JSNum.max .one (n.orElse .one) ∧
      line.quantity.geOne ∧
      (line.quantity.isInteger ↔ (n.isInteger ∨ ¬ n.gtOne)) := by
  obtain ⟨p, q, d, nm, pn, qn, dn, -, g2, -, -, -, g6, -, rfl, -⟩ :=
    normalizeLine_inv it line lt h
  exact ⟨q, qn, g2, g6, rfl, qtyOf_geOne qn, qtyOf_isInteger_iff qn⟩

/-- C5, amended, witness: a line whose quantity is `-3`. -/
theorem quantity_normalised_witness :
    normalizeLine (.obj [("quantity", .num (.fin (-3)))])
      = .ok (⟨.null, .str "Item", .fin 0, .fin 1⟩, .fin 0) ∧
    ∃ q n, (JSVal.obj [("quantity", .num (.fin (-3)))]).get "quantity" = .ok q ∧
      toNumber q = .ok n ∧
      JSNum.fin 1 = JSNum.max .one (n.orElse .one) ∧
      (JSNum.fin 1).geOne ∧
      ((JSNum.fin 1).isInteger ↔ (n.isInteger ∨ ¬ n.gtOne)) :=
  have h : normalizeLine (.obj [("quantity", .num (.fin (-3)))])
      = .ok (⟨.null, .str "Item", .fin 0, .fin 1⟩, .fin 0) := by
    simp [normalizeLine, JSVal.get, List.lookup, toNumber, toMoney,
      Except.map, bind, Except.bind, pure, Except.pure, toMoneyNum_fin, toMoneyNum_nan, qtyOf,
      JSNum.orElse, JSNum.truthy, JSNum.max, JSNum.one, JSNum.zero, JSNum.mul,
      productIDOf, JSVal.orElse, JSVal.truthy, round2_zero]
    norm_num
  ⟨h, quantity_normalised _ _ _ h⟩

/-- C6, as stated, fails: on the element `null` the callback throws a
`TypeError` when it reads `it.price`. -/
theorem normalizeLine_null_counterexample :
    normalizeLine .null = .error .typeError := by
  rfl

/-- C6, amended: on every element other than `null` (and `undefined`) whose
members `price`, `quantity` and `productID` hold no object that hides
`toString` with a member of its own, the callback completes and returns a
line with a quantity of at least `1`. Elements that are not objects are
among them. -/
theorem normalizeLine_completes (it : JSVal) (hnull : it ≠ .null)
    (hundef : it ≠ .undefined)
    (hconv : ∀ k ∈ ["price", "quantity", "productID"], ∀ v, it.get k = .ok v →
      throwsToString v = false) :
    ∃ line lt, normalizeLine it = .ok (line, lt) ∧ line.quantity.geOne := by
  have hget : ∀ k, ∃ v, it.get k = .ok v := by
    intro k
    cases it <;> simp [JSVal.get] at hnull hundef ⊢
  obtain ⟨p, h1⟩ := hget "price"
  obtain ⟨q, h2⟩ := hget "quantity"
  obtain ⟨d, h3⟩ := hget "productID"
  obtain ⟨nm, h4⟩ := hget "name"
  obtain ⟨pn, h5⟩ := toNumber_ok_of_not_throws p (hconv "price" (by simp) p h1)
  obtain ⟨qn, h6⟩ := toNumber_ok_of_not_throws q (hconv "quantity" (by simp) q h2)
  obtain ⟨dn, h7⟩ := toNumber_ok_of_not_throws d (hconv "productID" (by simp) d h3)
  exact ⟨_, _, normalizeLine_ok it p q d nm pn qn dn h1 h2 h3 h4 h5 h6 h7, qtyOf_geOne qn⟩

/-- C6, amended, witness: an element that is a string, not an object. -/
theorem normalizeLine_completes_witness :
    ∃ line lt, normalizeLine (.str "two pens") = .ok (line, lt) ∧ line.quantity.geOne :=
  normalizeLine_completes (.str "two pens") (by simp) (by simp)
    (by
      intro k _ v hv
      simp [JSVal.get] at hv
      subst hv
      rfl)

/-- C7: in every line that the callback returns, the price is `0` when the
raw price is missing, is `null` or converts to `NaN`, and the quantity is
`1` when the raw quantity is missing, is `null`, or converts to `NaN`, to
zero or to a number below zero. -/
theorem normalizer_defaults (it : JSVal) (line : Line) (lt : JSNum)
    (h : normalizeLine it = .ok (line, lt)) :
    (∀ p, it.get "price" = .ok p →
      (p = .undefined ∨ p = .null ∨ toNumber p = .ok .nan) → line.price = .fin 0) ∧
    (∀ q, it.get "quantity" = .ok q →
      (q = .undefined ∨ q = .null ∨ toNumber q = .ok .nan ∨ toNumber q = .ok (.fin 0) ∨
        ∃ n, toNumber q = .ok n ∧ n.negative) → line.quantity = .fin 1) := by
  obtain ⟨p, q, d, nm, pn, qn, dn, g1, g2, -, -, g5, g6, -, rfl, -⟩ :=
    normalizeLine_inv it line lt h
  constructor
  · intro p' hp' hcase
    rw [g1] at hp'
    cases hp'
    have hpn : pn = .nan ∨ pn = .fin 0 := by
      rcases hcase with rfl | rfl | hc
      · simp [toNumber] at g5; exact Or.inl g5.symm
      · simp [toNumber, JSNum.zero] at g5; exact Or.inr g5.symm
      · rw [g5] at hc; cases hc; exact Or.inl rfl
    rcases hpn with rfl | rfl
    · simp [toMoneyNum_nan, round2_zero]
    · simp [toMoneyNum_fin, round2_zero]
  · intro q' hq' hcase
    rw [g2] at hq'
    cases hq'
    have hqn : qn = .nan ∨ qn = .fin 0 ∨ qn.negative := by
      rcases hcase with rfl | rfl | hc | hc | ⟨n, hc, hneg⟩
      · simp [toNumber] at g6; exact Or.inl g6.symm
      · simp [toNumber, JSNum.zero] at g6; exact Or.inr (Or.inl g6.symm)
      · rw [g6] at hc; cases hc; exact Or.inl rfl
      · rw [g6] at hc; cases hc; exact Or.inr (Or.inl rfl)
      · rw [g6] at hc; cases hc; exact Or.inr (Or.inr hneg)
    rcases hqn with rfl | rfl | hneg
    · simp [qtyOf, JSNum.orElse, JSNum.truthy, JSNum.max, JSNum.one]
    · simp [qtyOf, JSNum.orElse, JSNum.truthy, JSNum.max, JSNum.one]
    · cases qn with
      | nan => simp [JSNum.negative] at hneg
      | pinf => simp [JSNum.negative] at hneg
      | ninf => simp [qtyOf, JSNum.orElse, JSNum.truthy, JSNum.max, JSNum.one]
      | fin x =>
        simp only [JSNum.negative] at hneg
        have hx : x ≠ 0 := ne_of_lt hneg
        have hx1 : ¬ (1 ≤ x) := by linarith
        simp [qtyOf, JSNum.orElse, JSNum.truthy, JSNum.max, JSNum.one, hx, hx1]

/-- C7, witness: a line whose price is `null` and whose quantity is `-2`. -/
theorem normalizer_defaults_witness :
    normalizeLine (.obj [("price", .null), ("quantity", .num (.fin (-2)))])
      = .ok (⟨.null, .str "Item", .fin 0, .fin 1⟩, .fin 0) ∧
    (∀ p, (JSVal.obj [("price", .null), ("quantity", .num (.fin (-2)))]).get "price" = .ok p →
      (p = .undefined ∨ p = .null ∨ toNumber p = .ok .nan) → JSNum.fin 0 = .fin 0) ∧
    (∀ q, (JSVal.obj [("price", .null), ("quantity", .num (.fin (-2)))]).get "quantity" = .ok q →
      (q = .undefined ∨ q = .null ∨ toNumber q = .ok .nan ∨ toNumber q = .ok (.fin 0) ∨
        ∃ n, toNumber q = .ok n ∧ n.negative) → JSNum.fin 1 = .fin 1) :=
  have h : normalizeLine (.obj [("price", .null), ("quantity", .num (.fin (-2)))])
      = .ok (⟨.null, .str "Item", .fin 0, .fin 1⟩, .fin 0) := by
    simp [normalizeLine, JSVal.get, List.lookup, toNumber, toMoney,
      Except.map, bind, Except.bind, pure, Except.pure, toMoneyNum_fin, toMoneyNum_nan, qtyOf,
      JSNum.orElse, JSNum.truthy, JSNum.max, JSNum.one, JSNum.zero, JSNum.mul,
      productIDOf, JSVal.orElse, JSVal.truthy, round2_zero]
    norm_num
  ⟨h, normalizer_defaults _ _ _ h⟩

/-! ## The handler: helper facts -/

theorem get_ok_of_not_nullish (v : JSVal) (h1 : v ≠ .null) (h2 : v ≠ .undefined)
    (k : String) : ∃ x, v.get k = .ok x := by
  cases v <;> simp [JSVal.get] at h1 h2 ⊢

theorem nonEmptyArray_eq_none_iff (items : JSVal) :
    nonEmptyArray items = none ↔ ((∀ xs, items ≠ .arr xs) ∨ items = .arr []) := by
  cases items with
  | arr xs => cases xs <;> simp [nonEmptyArray]
  | _ => simp [nonEmptyArray]

/-- The `try` block answers only with `404` or `201`. -/
theorem placeOrderTry_status (userID addressID paymentID trackingNumber : JSVal)
    (items : List JSVal) (w : World) (r : Response) (w' : World)
    (h : placeOrderTry userID addressID paymentID trackingNumber items w = (.ok r, w')) :
    r.status = 404 ∨ r.status = 201 := by
  unfold placeOrderTry at h
  repeat' split at h
  all_goals simp only [Prod.mk.injEq, Except.ok.injEq, reduceCtorEq, false_and] at h
  all_goals first
    | (obtain ⟨rfl, -⟩ := h; simp)

theorem insertItem_fault (w : World) (oid : Nat) (it : Line)
    (h : w.faults w.log.length = true) :
    w.insertItem oid it = (.error .storeError, w.record (.insertItem oid it)) := by
  simp [World.insertItem, World.failsNext, h]

theorem insertItem_no_fault (w : World) (oid : Nat) (it : Line)
    (h : w.faults w.log.length = false) :
    w.insertItem oid it =
      (.ok (),
        { w.record (.insertItem oid it) with
          tables := { w.tables with orderItems := w.tables.orderItems ++
            [{ itemID := w.nextItemID, orderID := oid, productID := it.productID,
               name := it.name, price := it.price, quantity := it.quantity }] }
          nextItemID := w.nextItemID + 1 }) := by
  simp [World.insertItem, World.failsNext, h]

/-- The item loop touches neither the saved contents, nor the fault
schedule, nor the tables `orders` and `addresses`. -/
theorem insertItems_frame (oid : Nat) (lines : List Line) (w : World) :
    (insertItems oid lines w).2.saved = w.saved ∧
    (insertItems oid lines w).2.faults = w.faults ∧
    (insertItems oid lines w).2.tables.orders = w.tables.orders ∧
    (insertItems oid lines w).2.tables.addresses = w.tables.addresses ∧
    (insertItems oid lines w).2.nextOrderID = w.nextOrderID := by
  induction lines generalizing w with
  | nil => simp [insertItems]
  | cons it rest ih =>
    by_cases hf : w.faults w.log.length = true
    · simp [insertItems, insertItem_fault w oid it hf, World.record]
    · simp only [Bool.not_eq_true] at hf
      simp only [insertItems, insertItem_no_fault w oid it hf]
      have := ih ({ w.record (.insertItem oid it) with
          tables := { w.tables with orderItems := w.tables.orderItems ++
            [{ itemID := w.nextItemID, orderID := oid, productID := it.productID,
               name := it.name, price := it.price, quantity := it.quantity }] }
          nextItemID := w.nextItemID + 1 })
      simpa [World.record] using this

/-- With no fault scheduled for any of its calls the item loop completes,
having issued one insert per line, in order, each with the given `orderID`. -/
theorem insertItems_no_fault (oid : Nat) (lines : List Line) (w : World)
    (h : ∀ i, i < lines.length → w.faults (w.log.length + i) = false) :
    (insertItems oid lines w).1 = .ok () ∧
    (insertItems oid lines w).2.log = w.log ++ lines.map (Op.insertItem oid) := by
  induction lines generalizing w with
  | nil => simp [insertItems]
  | cons it rest ih =>
    have hf : w.faults w.log.length = false := by simpa using h 0 (by simp)
    simp only [insertItems, insertItem_no_fault w oid it hf]
    have := ih ({ w.record (.insertItem oid it) with
          tables := { w.tables with orderItems := w.tables.orderItems ++
            [{ itemID := w.nextItemID, orderID := oid, productID := it.productID,
               name := it.name, price := it.price, quantity := it.quantity }] }
          nextItemID := w.nextItemID + 1 })
      (by
        intro i hi
        have := h (i + 1) (by simpa using hi)
        simpa [World.record, Nat.add_assoc, Nat.add_comm 1 i] using this)
    simpa [World.record] using this

/-- When the insert of line `i` is the first call of the item loop that
fails, the loop raises after the inserts of the lines up to line `i`. -/
theorem insertItems_fault (oid : Nat) (lines : List Line) (w : World) (i : Nat)
    (hi : i < lines.length) (hf : w.faults (w.log.length + i) = true)
    (hfirst : ∀ j, j < i → w.faults (w.log.length + j) = false) :
    (insertItems oid lines w).1 = .error .storeError ∧
    (insertItems oid lines w).2.log = w.log ++ (lines.take (i + 1)).map (Op.insertItem oid) := by
  induction lines generalizing w i with
  | nil => simp at hi
  | cons it rest ih =>
    cases i with
    | zero =>
      have hf0 : w.faults w.log.length = true := by simpa using hf
      simp [insertItems, insertItem_fault w oid it hf0, World.record]
    | succ i =>
      have hf0 : w.faults w.log.length = false := by simpa using hfirst 0 (by simp)
      simp only [insertItems, insertItem_no_fault w oid it hf0]
      have := ih ({ w.record (.insertItem oid it) with
          tables := { w.tables with orderItems := w.tables.orderItems ++
            [{ itemID := w.nextItemID, orderID := oid, productID := it.productID,
               name := it.name, price := it.price, quantity := it.quantity }] }
          nextItemID := w.nextItemID + 1 }) i (by simpa using hi)
        (by simpa [World.record, Nat.add_assoc, Nat.add_comm 1 i] using hf)
        (by
          intro j hj
          have := hfirst (j + 1) (by omega)
          simpa [World.record, Nat.add_assoc, Nat.add_comm 1 j] using this)
      simpa [World.record] using this

/-- A completed item loop has issued one insert per line, in order. -/
theorem insertItems_ok_log (oid : Nat) (lines : List Line) (w w' : World)
    (h : insertItems oid lines w = (.ok (), w')) :
    w'.log = w.log ++ lines.map (Op.insertItem oid) := by
  induction lines generalizing w with
  | nil =>
    simp only [insertItems, Prod.mk.injEq, true_and] at h
    simp [← h]
  | cons it rest ih =>
    by_cases hf : w.faults w.log.length = true
    · simp [insertItems, insertItem_fault w oid it hf] at h
    · simp only [Bool.not_eq_true] at hf
      simp only [insertItems, insertItem_no_fault w oid it hf] at h
      have := ih _ h
      simpa [World.record] using this

/-- The lines of a completed normalisation are, in order, the lines the
callback returns on the elements. -/
theorem normalizeAll_forall₂ (items : List JSVal) (start : JSNum) (lines : List Line)
    (total : JSNum) (h : normalizeAll items start = .ok (lines, total)) :
    List.Forall₂ (fun it l => ∃ lt, normalizeLine it = .ok (l, lt)) items lines := by
  induction items generalizing start lines total with
  | nil =>
    simp only [normalizeAll, Except.ok.injEq, Prod.mk.injEq] at h
    rw [← h.1]; exact List.Forall₂.nil
  | cons it rest ih =>
    unfold normalizeAll at h
    cases h1 : normalizeLine it with
    | error e => simp [h1] at h
    | ok r =>
      obtain ⟨line, lt⟩ := r
      simp only [h1] at h
      cases h2 : normalizeAll rest (start.add lt) with
      | error e => simp [h2] at h
      | ok r2 =>
        obtain ⟨ls, t⟩ := r2
        simp only [h2, Except.ok.injEq, Prod.mk.injEq] at h
        rw [← h.1]
        exact List.Forall₂.cons ⟨lt, h1⟩ (ih _ ls t h2)

theorem computeTotal_forall₂ (items : List JSVal) (lines : List Line) (total : JSNum)
    (h : computeTotal items = .ok (lines, total)) :
    List.Forall₂ (fun it l => ∃ lt, normalizeLine it = .ok (l, lt)) items lines := by
  unfold computeTotal at h
  cases h1 : normalizeAll items .zero with
  | error e => simp [h1] at h
  | ok r =>
    obtain ⟨ls, t⟩ := r
    simp only [h1, Except.ok.injEq, Prod.mk.injEq] at h
    rw [← h.1]
    exact normalizeAll_forall₂ items .zero ls t h1

theorem placeOrder_valid (req : Request) (w : World)
    (addressID paymentID trackingNumber itemsV : JSVal) (items : List JSVal)
    (h1 : req.body.get "addressID" = .ok addressID)
    (h2 : req.body.get "paymentID" = .ok paymentID)
    (h3 : req.body.get "trackingNumber" = .ok trackingNumber)
    (h4 : req.body.get "items" = .ok itemsV)
    (hu : req.userID.truthy = true) (ha : addressID.truthy = true)
    (hi : nonEmptyArray itemsV = some items) :
    placeOrder req w =
      match w.getConnection with
      | (.error _, w1) => (none, w1)
      | (.ok (), w1) =>
        match placeOrderTry req.userID addressID (withDefault paymentID .null)
            (withDefault trackingNumber .null) items w1 with
        | (.ok response, w2) => (some response, w2.release)
        | (.error _, w2) =>
          match w2.rollback with
          | (.error _, w3) => (none, w3.release)
          | (.ok (), w3) => (some ⟨500, .message "Error placing order"⟩, w3.release) := by
  simp [placeOrder, h1, h2, h3, h4, hu, ha, hi]

/-- A response with status `201` comes from the branch of the `try` block
that has run the address query, `beginTransaction`, the order insert, the
item loop and `commit`, in this order. -/
theorem placeOrderTry_201 (userID addressID paymentID trackingNumber : JSVal)
    (items : List JSVal) (w : World) (r : Response) (w' : World)
    (h : placeOrderTry userID addressID paymentID trackingNumber items w = (.ok r, w'))
    (hr : r.status = 201) :
    ∃ lines total, computeTotal items = .ok (lines, total) ∧
      r.body = .placed "Order placed successfully" w.nextOrderID total ∧
      w'.log = w.log ++ [.selectAddress addressID userID, .beginTransaction,
          .insertOrder userID addressID paymentID total trackingNumber] ++
        lines.map (Op.insertItem w.nextOrderID) ++ [.commit] := by
  unfold placeOrderTry at h
  by_cases f1 : w.failsNext = true
  · simp [World.selectAddress, f1] at h
  · simp only [World.selectAddress, f1, Bool.false_eq_true, if_false] at h
    split at h
    · simp only [Prod.mk.injEq, Except.ok.injEq] at h
      rw [← h.1] at hr
      simp at hr
    · cases hc : computeTotal items with
      | error e => simp [hc] at h
      | ok lt =>
        obtain ⟨lines, total⟩ := lt
        simp only [hc] at h
        by_cases f2 : (w.record (.selectAddress addressID userID)).failsNext = true
        · simp [World.beginTransaction, f2] at h
        · simp only [World.beginTransaction, f2, Bool.false_eq_true, if_false] at h
          by_cases f3 : ({ (w.record (.selectAddress addressID userID)).record
              .beginTransaction with
              saved := some (w.record (.selectAddress addressID userID)).tables
              : World }).failsNext = true
          · simp [World.insertOrder, f3] at h
          · simp only [World.insertOrder, f3, Bool.false_eq_true, if_false] at h
            split at h
            · simp at h
            · rename_i w4 hitems
              have hlog := insertItems_ok_log _ _ _ _ hitems
              by_cases f4 : w4.failsNext = true
              · simp [World.commit, f4] at h
              · simp only [World.commit, f4, Bool.false_eq_true, if_false, Prod.mk.injEq,
                  Except.ok.injEq] at h
                refine ⟨lines, total, rfl, ?_, ?_⟩
                · rw [← h.1]
                  simp [World.record]
                · rw [← h.2]
                  simp [World.record, hlog]

/-- The `try` block when the address query finds a row, the normalisation
completes, and the call at position `k` of the call sequence, between
`beginTransaction` and `commit`, is the first one to fail: the block raises
right after that call, with the contents saved at `beginTransaction` (or,
when it is `beginTransaction` that fails, the tables themselves) still those
it started from. -/
theorem placeOrderTry_fault (userID addressID paymentID trackingNumber : JSVal)
    (items : List JSVal) (w : World) (lines : List Line) (total : JSNum) (k : Nat)
    (hsaved : w.saved = none)
    (hsel : w.faults w.log.length = false)
    (hfound : (w.tables.addresses.filter fun r =>
      World.sqlEq (.num (.fin r.addressID)) addressID && World.sqlEq r.userID userID) ≠ [])
    (hnorm : computeTotal items = .ok (lines, total))
    (hk1 : w.log.length + 1 ≤ k) (hk2 : k ≤ w.log.length + 3 + lines.length)
    (hfail : w.faults k = true)
    (hfirst : ∀ j, w.log.length + 1 ≤ j → j < k → w.faults j = false) :
    (placeOrderTry userID addressID paymentID trackingNumber items w).1
        = .error .storeError ∧
    (placeOrderTry userID addressID paymentID trackingNumber items w).2.log.length = k + 1 ∧
    (∃ ops, (placeOrderTry userID addressID paymentID trackingNumber items w).2.log
        = w.log ++ ops) ∧
    (placeOrderTry userID addressID paymentID trackingNumber items w).2.faults = w.faults ∧
    (placeOrderTry userID addressID paymentID trackingNumber items w).2.saved.getD
        (placeOrderTry userID addressID paymentID trackingNumber items w).2.tables
      = w.tables := by
  have hlen : ∀ rows : List AddressRow, rows ≠ [] → ¬ (rows.length = 0) := by
    intro rows h h0; exact h (List.length_eq_zero.mp h0)
  have hne := hlen _ hfound
  unfold placeOrderTry
  simp only [World.selectAddress, World.failsNext, hsel, Bool.false_eq_true, if_false, hne,
    hnorm]
  by_cases c1 : k = w.log.length + 1
  · subst c1
    simp [World.beginTransaction, World.failsNext, World.record, hfail, hsaved]
  · have f1 : w.faults (w.log.length + 1) = false := hfirst _ (by omega) (by omega)
    by_cases c2 : k = w.log.length + 2
    · subst c2
      simp [World.beginTransaction, World.insertOrder, World.failsNext, World.record, f1, hfail]
    · have f2 : w.faults (w.log.length + 2) = false := hfirst _ (by omega) (by omega)
      simp only [World.beginTransaction, World.insertOrder, World.failsNext, World.record,
        List.length_append, List.length_singleton, f1, f2, Nat.add_assoc, Nat.reduceAdd,
        Bool.false_eq_true, if_false]
      have key : ∀ w3 : World,
          w3.log = w.log ++ [Op.selectAddress addressID userID] ++ [Op.beginTransaction] ++
            [Op.insertOrder userID addressID paymentID total trackingNumber] →
          w3.saved = some w.tables → w3.faults = w.faults →
          ∀ body : ResponseBody,
          let out : Except Exn Response × World :=
            match insertItems w.nextOrderID lines w3 with
            | (Except.error e, w2) => (Except.error e, w2)
            | (Except.ok PUnit.unit, w4) =>
              match w4.commit with
              | (Except.error e, w2) => (Except.error e, w2)
              | (Except.ok PUnit.unit, w5) => (Except.ok { status := 201, body := body }, w5)
          out.1 = Except.error Exn.storeError ∧ out.2.log.length = k + 1 ∧
            (∃ ops, out.2.log = w.log ++ ops) ∧ out.2.faults = w.faults ∧
            out.2.saved.getD out.2.tables = w.tables := by
        intro w3 hlog3 hsaved3 hfaults3 body
        have hlen3 : w3.log.length = w.log.length + 3 := by simp [hlog3]
        obtain ⟨fr1, fr2, -, -, -⟩ := insertItems_frame w.nextOrderID lines w3
        by_cases c3 : k < w.log.length + 3 + lines.length
        · obtain ⟨e1, e2⟩ := insertItems_fault w.nextOrderID lines w3 (k - (w.log.length + 3))
            (by omega)
            (by rw [hfaults3, hlen3]; rw [show w.log.length + 3 + (k - (w.log.length + 3)) = k by omega]; exact hfail)
            (by
              intro j hj
              rw [hfaults3, hlen3]
              exact hfirst _ (by omega) (by omega))
          cases hI : insertItems w.nextOrderID lines w3 with
          | mk r w4 =>
            rw [hI] at e1 e2 fr1 fr2
            simp only at e1 e2 fr1 fr2
            subst e1
            simp only []
            refine ⟨trivial, ?_, ?_, ?_, ?_⟩
            · rw [e2]
              simp only [List.length_append, List.length_map, List.length_take, hlen3]
              omega
            · exact ⟨[Op.selectAddress addressID userID] ++ [Op.beginTransaction] ++
                [Op.insertOrder userID addressID paymentID total trackingNumber] ++
                List.map (Op.insertItem w.nextOrderID)
                  (List.take (k - (w.log.length + 3) + 1) lines),
                by rw [e2, hlog3]; simp only [List.append_assoc]⟩
            · rw [fr2, hfaults3]
            · rw [fr1, hsaved3]; rfl
        · have hk : k = w.log.length + 3 + lines.length := by omega
          obtain ⟨e1, e2⟩ := insertItems_no_fault w.nextOrderID lines w3
            (by
              intro i hi
              rw [hfaults3, hlen3]
              exact hfirst _ (by omega) (by omega))
          cases hI : insertItems w.nextOrderID lines w3 with
          | mk r w4 =>
            rw [hI] at e1 e2 fr1 fr2
            simp only at e1 e2 fr1 fr2
            subst e1
            have hlen4 : w4.log.length = k := by
              rw [e2]
              simp only [List.length_append, List.length_map, hlen3]
              omega
            have hf4 : w4.faults w4.log.length = true := by
              rw [fr2, hfaults3, hlen4]; exact hfail
            simp only [World.commit, World.failsNext, hf4, if_true, World.record]
            refine ⟨trivial, ?_, ?_, ?_, ?_⟩
            · simp [hlen4]
            · exact ⟨[Op.selectAddress addressID userID] ++ [Op.beginTransaction] ++
                [Op.insertOrder userID addressID paymentID total trackingNumber] ++
                List.map (Op.insertItem w.nextOrderID) lines ++ [Op.commit],
                by rw [e2, hlog3]; simp only [List.append_assoc]⟩
            · rw [fr2, hfaults3]
            · simp only [fr1, hsaved3]; rfl
      exact key
        { tables :=
            { addresses := w.tables.addresses,
              orders := w.tables.orders ++
                [{ orderID := w.nextOrderID, userID := userID, addressID := addressID,
                   paymentID := paymentID, total := total, status := "Order Placed",
                   createdAt := w.now, trackingNumber := trackingNumber }],
              orderItems := w.tables.orderItems },
          saved := some w.tables, nextOrderID := w.nextOrderID + 1,
          nextItemID := w.nextItemID, nextAddressID := w.nextAddressID, now := w.now,
          log := w.log ++ [Op.selectAddress addressID userID] ++ [Op.beginTransaction] ++
            [Op.insertOrder userID addressID paymentID total trackingNumber],
          faults := w.faults } rfl rfl rfl _


theorem forall₂_length_eq {α β : Type} (R : α → β → Prop) (xs : List α) (ys : List β)
    (h : List.Forall₂ R xs ys) : xs.length = ys.length := by
  induction h with
  | nil => rfl
  | cons _ _ ih => simp [ih]

theorem computeTotal_sample :
    computeTotal [.obj [("price", .num (.fin (5 / 2))), ("quantity", .num (.fin 3))]]
      = .ok ([⟨.null, .str "Item", .fin (5 / 2), .fin 3⟩], .fin (15 / 2)) := by
  simp [computeTotal, normalizeAll, normalizeLine, JSVal.get, List.lookup, toNumber, toMoney,
    Except.map, bind, Except.bind, pure, Except.pure, toMoneyNum_fin, toMoneyNum_nan, qtyOf,
    JSNum.orElse, JSNum.truthy, JSNum.max, JSNum.one, JSNum.zero, JSNum.mul, JSNum.add,
    productIDOf, JSVal.orElse, JSVal.truthy, round2_five_halves]
  norm_num [round2_fifteen_halves]

/-! ## Claims about the handler -/

/-- C8: on a request with a parsed body, `placeOrder` answers with status
`400` exactly when the authenticated `userID` is falsy, or `addressID` is
falsy, or `items` is not an array or is the empty array; and in each of
these cases the handler leaves the state as it found it: no call on the pool
or on a connection is made, so no connection is obtained, no query is issued
and no transaction is opened. -/
theorem placeOrder_invalid_iff (req : Request) (w : World)
    (hnull : req.body ≠ .null) (hundef : req.body ≠ .undefined) :
    ∃ addressID items,
      req.body.get "addressID" = .ok addressID ∧ req.body.get "items" = .ok items ∧
      (((placeOrder req w).1.map fun r => r.status) = some 400 ↔
        (req.userID.truthy = false ∨ addressID.truthy = false ∨
          ((∀ xs, items ≠ .arr xs) ∨ items = .arr []))) ∧
      ((req.userID.truthy = false ∨ addressID.truthy = false ∨
          ((∀ xs, items ≠ .arr xs) ∨ items = .arr [])) →
        (placeOrder req w).2 = w ∧ (placeOrder req w).2.log = w.log) := by
  obtain ⟨addressID, h1⟩ := get_ok_of_not_nullish req.body hnull hundef "addressID"
  obtain ⟨paymentID, h2⟩ := get_ok_of_not_nullish req.body hnull hundef "paymentID"
  obtain ⟨trackingNumber, h3⟩ := get_ok_of_not_nullish req.body hnull hundef "trackingNumber"
  obtain ⟨items, h4⟩ := get_ok_of_not_nullish req.body hnull hundef "items"
  refine ⟨addressID, items, h1, h4, ?_⟩
  rw [← nonEmptyArray_eq_none_iff]
  unfold placeOrder
  simp only [h1, h2, h3, h4]
  by_cases hu : req.userID.truthy = true
  · by_cases ha : addressID.truthy = true
    · cases hi : nonEmptyArray items with
      | none => simp [hu, ha]
      | some its =>
        simp only [hu, ha, Bool.not_true, Bool.false_eq_true, if_false, reduceCtorEq,
          or_self, false_implies, and_true, iff_false]
        cases hc : w.getConnection with
        | mk rc w1 =>
          cases rc with
          | error e => simp
          | ok u =>
            simp only []
            cases ht : placeOrderTry req.userID addressID (withDefault paymentID .null)
                (withDefault trackingNumber .null) its w1 with
            | mk rt w2 =>
              cases rt with
              | ok resp =>
                have := placeOrderTry_status _ _ _ _ _ _ _ _ ht
                simp only [Option.map_some', Option.some.injEq]
                rcases this with h | h <;> rw [h] <;> decide
              | error e =>
                simp only []
                cases hr : w2.rollback with
                | mk rr w3 =>
                  cases rr with
                  | error e => simp
                  | ok u => simp
    · simp [hu, ha]
  · simp [hu]

/-- C1: on a request that passes validation and the address check, with the
normalisation completed, when the call at position `k` of the handler's call
sequence is the first to fail and lies between `beginTransaction` and
`commit` (the order insert and every item insert included), the handler
calls `rollback` and then `release`, and the committed contents of the
tables are those from before the call. When `rollback` completes, the
handler answers with status `500` and the tables read as before the call,
with no transaction open: no row of the failed attempt survives. -/
theorem placeOrder_rollback (req : Request) (w : World)
    (addressID paymentID trackingNumber itemsV : JSVal) (items : List JSVal)
    (lines : List Line) (total : JSNum) (k : Nat)
    (h1 : req.body.get "addressID" = .ok addressID)
    (h2 : req.body.get "paymentID" = .ok paymentID)
    (h3 : req.body.get "trackingNumber" = .ok trackingNumber)
    (h4 : req.body.get "items" = .ok itemsV)
    (hu : req.userID.truthy = true) (ha : addressID.truthy = true)
    (hi : nonEmptyArray itemsV = some items)
    (hconn : w.faults w.log.length = false)
    (hsel : w.faults (w.log.length + 1) = false)
    (hfound : ∃ r ∈ w.tables.addresses,
      (World.sqlEq (.num (.fin r.addressID)) addressID &&
        World.sqlEq r.userID req.userID) = true)
    (hnorm : computeTotal items = .ok (lines, total))
    (hk1 : w.log.length + 2 ≤ k) (hk2 : k ≤ w.log.length + 4 + items.length)
    (hfail : w.faults k = true)
    (hfirst : ∀ j, w.log.length + 2 ≤ j → j < k → w.faults j = false) :
    (∃ ops, (placeOrder req w).2.log = w.log ++ ops ++ [.rollback, .release]) ∧
    (placeOrder req w).2.committed = w.tables ∧
    (w.faults (k + 1) = false →
      (placeOrder req w).1 = some ⟨500, .message "Error placing order"⟩ ∧
      (placeOrder req w).2.tables = w.tables ∧
      (placeOrder req w).2.saved = none) := by
  have hlen : lines.length = items.length :=
    (forall₂_length_eq _ _ _ (computeTotal_forall₂ items lines total hnorm)).symm
  have hfilter : (w.tables.addresses.filter fun r =>
      World.sqlEq (.num (.fin r.addressID)) addressID && World.sqlEq r.userID req.userID)
      ≠ [] := by
    obtain ⟨r, hr, hp⟩ := hfound
    exact List.ne_nil_of_mem (List.mem_filter.mpr ⟨hr, hp⟩)
  rw [placeOrder_valid req w addressID paymentID trackingNumber itemsV items h1 h2 h3 h4 hu ha hi]
  simp only [World.getConnection, World.failsNext, hconn, Bool.false_eq_true, if_false]
  obtain ⟨e1, e2, ⟨ops, e3⟩, e4, e5⟩ :=
    placeOrderTry_fault req.userID addressID (withDefault paymentID .null)
      (withDefault trackingNumber .null) items
      { w.record .getConnection with saved := none } lines total k rfl
      (by simpa [World.record] using hsel)
      (by simpa [World.record] using hfilter)
      hnorm
      (by simp only [World.record, List.length_append, List.length_singleton]; omega)
      (by simp only [World.record, List.length_append, List.length_singleton]; omega)
      (by simpa [World.record] using hfail)
      (by
        intro j hj1 hj2
        simp only [World.record, List.length_append, List.length_singleton] at hj1
        exact hfirst j (by omega) hj2)
  cases ht : placeOrderTry req.userID addressID (withDefault paymentID .null)
      (withDefault trackingNumber .null) items
      { w.record .getConnection with saved := none } with
  | mk rt w2 =>
    rw [ht] at e1 e2 e3 e4 e5
    simp only at e1 e2 e3 e4 e5
    subst e1
    have hidx : w2.faults w2.log.length = w.faults (k + 1) := by rw [e4, e2]; rfl
    by_cases hrb : w.faults (k + 1) = false
    · have hf2 : w2.faults w2.log.length = false := by rw [hidx]; exact hrb
      simp only [World.rollback, World.failsNext, hf2, Bool.false_eq_true, if_false,
        World.release, World.record, World.committed]
      refine ⟨⟨[Op.getConnection] ++ ops, ?_⟩, ?_, fun _ => ⟨trivial, ?_, trivial⟩⟩
      · rw [e3]; simp [World.record]
      · exact e5
      · exact e5
    · have hf2 : w2.faults w2.log.length = true := by
        rw [hidx]; simpa using hrb
      simp only [World.rollback, World.failsNext, hf2, if_true,
        World.release, World.record, World.committed]
      refine ⟨⟨[Op.getConnection] ++ ops, ?_⟩, ?_, fun h => absurd h hrb⟩
      · rw [e3]; simp [World.record]
      · exact e5

/-- C1, witness: a failure injected after the order insert and before the
first item insert, that is at the first item insert, call number `4` of the
sequence `getConnection`, address query, `beginTransaction`, order insert,
item insert; the rollback is call number `5`. -/
theorem placeOrder_rollback_witness :
    (placeOrder sampleRequest (sampleWorld fun n => n == 4)).2.log =
      [.getConnection, .selectAddress (.num (.fin 7)) (.str "u1"), .beginTransaction,
        .insertOrder (.str "u1") (.num (.fin 7)) .null (.fin (15 / 2)) .null,
        .insertItem 1 ⟨.null, .str "Item", .fin (5 / 2), .fin 3⟩, .rollback, .release] ∧
    (∃ ops, (placeOrder sampleRequest (sampleWorld fun n => n == 4)).2.log
      = (sampleWorld fun n => n == 4).log ++ ops ++ [.rollback, .release]) ∧
    (placeOrder sampleRequest (sampleWorld fun n => n == 4)).2.committed
      = (sampleWorld fun n => n == 4).tables ∧
    (placeOrder sampleRequest (sampleWorld fun n => n == 4)).1
      = some ⟨500, .message "Error placing order"⟩ ∧
    (placeOrder sampleRequest (sampleWorld fun n => n == 4)).2.tables
      = (sampleWorld fun n => n == 4).tables ∧
    (placeOrder sampleRequest (sampleWorld fun n => n == 4)).2.saved = none :=
  have h := placeOrder_rollback sampleRequest (sampleWorld fun n => n == 4)
    (.num (.fin 7)) .undefined .undefined
    (.arr [.obj [("price", .num (.fin (5 / 2))), ("quantity", .num (.fin 3))]])
    [.obj [("price", .num (.fin (5 / 2))), ("quantity", .num (.fin 3))]]
    [⟨.null, .str "Item", .fin (5 / 2), .fin 3⟩] (.fin (15 / 2)) 4
    (by simp [sampleRequest, JSVal.get, List.lookup])
    (by simp [sampleRequest, JSVal.get, List.lookup])
    (by simp [sampleRequest, JSVal.get, List.lookup])
    (by simp [sampleRequest, JSVal.get, List.lookup])
    (by simp [sampleRequest, JSVal.truthy])
    (by simp [JSVal.truthy, JSNum.truthy])
    (by simp [nonEmptyArray])
    (by simp [sampleWorld])
    (by simp [sampleWorld])
    (by simp [sampleWorld, sampleAddress, sampleRequest, World.sqlEq])
    computeTotal_sample
    (by simp [sampleWorld])
    (by simp [sampleWorld])
    (by simp [sampleWorld])
    (by
      intro j hj1 hj2
      simp only [sampleWorld, List.length_nil] at hj1 ⊢
      simp only [beq_eq_false_iff_ne, ne_eq]
      omega)
  ⟨by simp [placeOrder, sampleRequest, sampleWorld, sampleAddress, JSVal.get, List.lookup,
      JSVal.truthy, JSNum.truthy, nonEmptyArray, withDefault, World.getConnection,
      World.failsNext, World.record, placeOrderTry, World.selectAddress, World.sqlEq,
      computeTotal_sample, World.beginTransaction, World.insertOrder, insertItems,
      World.insertItem, World.commit, World.rollback, World.release],
    h.1, h.2.1, h.2.2 (by simp [sampleWorld])⟩

/-- C8, witness: the request with an empty cart is answered with
`400 Cart is empty`. -/
theorem placeOrder_invalid_iff_witness :
    (placeOrder emptyCartRequest (sampleWorld fun _ => false)).1
      = some ⟨400, .message "Cart is empty"⟩ ∧
    ∃ addressID items,
      emptyCartRequest.body.get "addressID" = .ok addressID ∧
      emptyCartRequest.body.get "items" = .ok items ∧
      (((placeOrder emptyCartRequest (sampleWorld fun _ => false)).1.map fun r => r.status)
          = some 400 ↔
        (emptyCartRequest.userID.truthy = false ∨ addressID.truthy = false ∨
          ((∀ xs, items ≠ .arr xs) ∨ items = .arr []))) ∧
      ((emptyCartRequest.userID.truthy = false ∨ addressID.truthy = false ∨
          ((∀ xs, items ≠ .arr xs) ∨ items = .arr [])) →
        (placeOrder emptyCartRequest (sampleWorld fun _ => false)).2
            = sampleWorld (fun _ => false) ∧
          (placeOrder emptyCartRequest (sampleWorld fun _ => false)).2.log
            = (sampleWorld fun _ => false).log) :=
  ⟨by simp [placeOrder, emptyCartRequest, JSVal.get, List.lookup, JSVal.truthy, JSNum.truthy,
      nonEmptyArray],
   placeOrder_invalid_iff emptyCartRequest (sampleWorld fun _ => false)
    (by simp [emptyCartRequest]) (by simp [emptyCartRequest])⟩

/-- C9: on a valid request whose `addressID` matches no address row that has
both that `addressID` and the caller's `userID`, when the connection is
obtained and the address query completes, `placeOrder` answers with status
`404`; the calls it makes are `getConnection`, the address query and
`release` (twice), so `beginTransaction` is never called and no `INSERT` is
issued, and the tables are left as they were. -/
theorem placeOrder_address_not_found (req : Request) (w : World)
    (addressID paymentID trackingNumber itemsV : JSVal) (items : List JSVal)
    (h1 : req.body.get "addressID" = .ok addressID)
    (h2 : req.body.get "paymentID" = .ok paymentID)
    (h3 : req.body.get "trackingNumber" = .ok trackingNumber)
    (h4 : req.body.get "items" = .ok itemsV)
    (hu : req.userID.truthy = true) (ha : addressID.truthy = true)
    (hi : nonEmptyArray itemsV = some items)
    (hconn : w.faults w.log.length = false)
    (hsel : w.faults (w.log.length + 1) = false)
    (hnone : ∀ r ∈ w.tables.addresses,
      ¬ ((World.sqlEq (.num (.fin r.addressID)) addressID &&
          World.sqlEq r.userID req.userID) = true)) :
    (placeOrder req w).1 = some ⟨404, .message "Address not found for this user"⟩ ∧
    (placeOrder req w).2.log =
      w.log ++ [.getConnection, .selectAddress addressID req.userID, .release, .release] ∧
    (placeOrder req w).2.tables = w.tables ∧
    (placeOrder req w).2.saved = none ∧
    (placeOrder req w).2.nextOrderID = w.nextOrderID ∧
    (placeOrder req w).2.nextItemID = w.nextItemID := by
  have hfilter : (w.tables.addresses.filter fun r =>
      World.sqlEq (.num (.fin r.addressID)) addressID && World.sqlEq r.userID req.userID)
      = [] := List.filter_eq_nil_iff.mpr hnone
  rw [placeOrder_valid req w addressID paymentID trackingNumber itemsV items h1 h2 h3 h4 hu ha hi]
  simp [World.getConnection, World.failsNext, hconn, placeOrderTry, World.selectAddress,
    World.record, hsel, hfilter, World.release]

/-- C9, witness: `u2` orders to the address `7`, which belongs to `u1`. -/
theorem placeOrder_address_not_found_witness :
    (placeOrder strangerRequest (sampleWorld fun _ => false)).1
      = some ⟨404, .message "Address not found for this user"⟩ ∧
    (placeOrder strangerRequest (sampleWorld fun _ => false)).2.log =
      (sampleWorld fun _ => false).log ++
        [.getConnection, .selectAddress (.num (.fin 7)) strangerRequest.userID,
          .release, .release] ∧
    (placeOrder strangerRequest (sampleWorld fun _ => false)).2.tables
      = (sampleWorld fun _ => false).tables ∧
    (placeOrder strangerRequest (sampleWorld fun _ => false)).2.saved = none ∧
    (placeOrder strangerRequest (sampleWorld fun _ => false)).2.nextOrderID
      = (sampleWorld fun _ => false).nextOrderID ∧
    (placeOrder strangerRequest (sampleWorld fun _ => false)).2.nextItemID
      = (sampleWorld fun _ => false).nextItemID :=
  placeOrder_address_not_found strangerRequest (sampleWorld fun _ => false)
    (.num (.fin 7)) .undefined .undefined
    (.arr [.obj [("price", .num (.fin (5 / 2))), ("quantity", .num (.fin 3))]])
    [.obj [("price", .num (.fin (5 / 2))), ("quantity", .num (.fin 3))]]
    (by simp [strangerRequest, JSVal.get, List.lookup])
    (by simp [strangerRequest, JSVal.get, List.lookup])
    (by simp [strangerRequest, JSVal.get, List.lookup])
    (by simp [strangerRequest, JSVal.get, List.lookup])
    (by simp [strangerRequest, JSVal.truthy])
    (by simp [JSVal.truthy, JSNum.truthy])
    (by simp [nonEmptyArray])
    (by simp [sampleWorld])
    (by simp [sampleWorld])
    (by simp [sampleWorld, sampleAddress, strangerRequest, World.sqlEq])

/-- C10: whenever `placeOrder` answers with status `201`, the items of the
request were normalised to `lines`, one line per item and in the order of
the items, and the calls the handler made are `getConnection`, the address
query, `beginTransaction`, one `INSERT` into `orders`, then one `INSERT` into
`order_items` per normalised line, the k-th carrying the k-th line and the
`orderID` that the order insert generated, then `commit` and `release`. No
item insert comes before the order insert and every item insert carries that
one `orderID`, which is also the `orderID` of the response. -/
theorem placeOrder_success_trace (req : Request) (w : World) (resp : Response)
    (h : (placeOrder req w).1 = some resp) (h201 : resp.status = 201) :
    ∃ addressID paymentID trackingNumber itemsV items lines total,
      req.body.get "addressID" = .ok addressID ∧
      req.body.get "paymentID" = .ok paymentID ∧
      req.body.get "trackingNumber" = .ok trackingNumber ∧
      req.body.get "items" = .ok itemsV ∧
      nonEmptyArray itemsV = some items ∧
      computeTotal items = .ok (lines, total) ∧
      List.Forall₂ (fun it l => ∃ lt, normalizeLine it = .ok (l, lt)) items lines ∧
      lines.length = items.length ∧
      resp.body = .placed "Order placed successfully" w.nextOrderID total ∧
      (placeOrder req w).2.log =
        w.log ++ [.getConnection, .selectAddress addressID req.userID, .beginTransaction,
          .insertOrder req.userID addressID (withDefault paymentID .null) total
            (withDefault trackingNumber .null)] ++
        lines.map (Op.insertItem w.nextOrderID) ++ [.commit, .release] := by
  cases h1 : req.body.get "addressID" with
  | error e => simp [placeOrder, h1] at h
  | ok addressID =>
  cases h2 : req.body.get "paymentID" with
  | error e => simp [placeOrder, h1, h2] at h
  | ok paymentID =>
  cases h3 : req.body.get "trackingNumber" with
  | error e => simp [placeOrder, h1, h2, h3] at h
  | ok trackingNumber =>
  cases h4 : req.body.get "items" with
  | error e => simp [placeOrder, h1, h2, h3, h4] at h
  | ok itemsV =>
  by_cases hu : req.userID.truthy = true
  swap
  · simp [placeOrder, h1, h2, h3, h4, hu] at h
    rw [← h] at h201
    simp at h201
  by_cases ha : addressID.truthy = true
  swap
  · simp [placeOrder, h1, h2, h3, h4, hu, ha] at h
    rw [← h] at h201
    simp at h201
  cases hi : nonEmptyArray itemsV with
  | none =>
    simp [placeOrder, h1, h2, h3, h4, hu, ha, hi] at h
    rw [← h] at h201
    simp at h201
  | some items =>
    rw [placeOrder_valid req w addressID paymentID trackingNumber itemsV items h1 h2 h3 h4
      hu ha hi] at h ⊢
    by_cases hc : w.faults w.log.length = true
    · simp [World.getConnection, World.failsNext, hc] at h
    · simp only [Bool.not_eq_true] at hc
      simp only [World.getConnection, World.failsNext, hc, Bool.false_eq_true, if_false]
        at h ⊢
      cases ht : placeOrderTry req.userID addressID (withDefault paymentID .null)
          (withDefault trackingNumber .null) items
          { w.record .getConnection with saved := none } with
      | mk rt w2 =>
        simp only [ht] at h ⊢
        cases rt with
        | error e =>
          simp only at h
          cases hr : w2.rollback with
          | mk rr w3 =>
            simp only [hr] at h
            cases rr with
            | error e => simp at h
            | ok u =>
              simp only [Option.some.injEq] at h
              rw [← h] at h201
              simp at h201
        | ok r =>
          simp only [Option.some.injEq] at h
          subst h
          obtain ⟨lines, total, hn, hb, hl⟩ := placeOrderTry_201 _ _ _ _ _ _ _ _ ht h201
          have hf := computeTotal_forall₂ items lines total hn
          refine ⟨addressID, paymentID, trackingNumber, itemsV, items, lines, total,
            rfl, rfl, rfl, rfl, hi, hn, hf, (forall₂_length_eq _ _ _ hf).symm, ?_, ?_⟩
          · simpa [World.record] using hb
          · simp [World.release, World.record, hl]

/-- C10, witness: the sample request on a store where no call fails. -/
theorem placeOrder_success_trace_witness :
    (placeOrder sampleRequest (sampleWorld fun _ => false)).1
      = some ⟨201, .placed "Order placed successfully" 1 (.fin (15 / 2))⟩ ∧
    ∃ addressID paymentID trackingNumber itemsV items lines total,
      sampleRequest.body.get "addressID" = .ok addressID ∧
      sampleRequest.body.get "paymentID" = .ok paymentID ∧
      sampleRequest.body.get "trackingNumber" = .ok trackingNumber ∧
      sampleRequest.body.get "items" = .ok itemsV ∧
      nonEmptyArray itemsV = some items ∧
      computeTotal items = .ok (lines, total) ∧
      List.Forall₂ (fun it l => ∃ lt, normalizeLine it = .ok (l, lt)) items lines ∧
      lines.length = items.length ∧
      (Response.mk 201 (.placed "Order placed successfully" 1 (.fin (15 / 2)))).body
        = .placed "Order placed successfully" (sampleWorld fun _ => false).nextOrderID total ∧
      (placeOrder sampleRequest (sampleWorld fun _ => false)).2.log =
        (sampleWorld fun _ => false).log ++
          [.getConnection, .selectAddress addressID sampleRequest.userID, .beginTransaction,
            .insertOrder sampleRequest.userID addressID (withDefault paymentID .null) total
              (withDefault trackingNumber .null)] ++
          lines.map (Op.insertItem (sampleWorld fun _ => false).nextOrderID) ++
          [.commit, .release] :=
  have h : (placeOrder sampleRequest (sampleWorld fun _ => false)).1
      = some ⟨201, .placed "Order placed successfully" 1 (.fin (15 / 2))⟩ := by
    simp [placeOrder, sampleRequest, sampleWorld, sampleAddress, JSVal.get, List.lookup,
      JSVal.truthy, JSNum.truthy, nonEmptyArray, withDefault, World.getConnection,
      World.failsNext, World.record, placeOrderTry, World.selectAddress, World.sqlEq,
      computeTotal_sample, World.beginTransaction, World.insertOrder, insertItems,
      World.insertItem, World.commit, World.release]
  ⟨h, placeOrder_success_trace sampleRequest (sampleWorld fun _ => false) _ h rfl⟩

/-! ## Claims about the persisted order and the read path -/

theorem round2_worked_price : JSNum.round2 29.99 = 29.99 := by
  simp [JSNum.round2]; norm_num

theorem round2_worked_line : JSNum.round2 59.98 = 59.98 := by
  simp [JSNum.round2]; norm_num

theorem round2_ten : JSNum.round2 10 = 10 := by
  simp [JSNum.round2]; norm_num

theorem round2_worked_total : JSNum.round2 69.98 = 69.98 := by
  simp [JSNum.round2]; norm_num

theorem computeTotal_worked :
    computeTotal workedItems
      = .ok ([⟨.null, .str "Item", .fin 29.99, .fin 2⟩, ⟨.null, .str "Item", .fin 10, .fin 1⟩],
          .fin 69.98) := by
  have e1 : (29.99 : ℚ) * 2 = 59.98 := by norm_num
  have e2 : (59.98 : ℚ) + 10 = 69.98 := by norm_num
  have e3 : (29.99 : ℚ) ≠ 0 := by norm_num
  have e4 : (59.98 : ℚ) ≠ 0 := by norm_num
  simp [workedItems, computeTotal, normalizeAll, normalizeLine, JSVal.get, List.lookup,
    toNumber, toMoney, Except.map, bind, Except.bind, pure, Except.pure, toMoneyNum_fin,
    toMoneyNum_nan, qtyOf, JSNum.orElse, JSNum.truthy, JSNum.max, JSNum.one, JSNum.zero,
    JSNum.mul, JSNum.add, productIDOf, JSVal.orElse, JSVal.truthy, round2_worked_price,
    round2_worked_line, round2_ten, round2_worked_total, e1, e2, e3, e4]

/-- C13: the worked example. For the items `29.99 x 2` and `10.00 x 1` the
line totals are `59.98` and `10.00`, the computed total is `69.98`, and
`placeOrder`, for an address that the caller owns and a store where no call
fails, answers `201` with the total `69.98`. -/
theorem worked_example :
    specLineTotals workedItems = .ok [.fin 59.98, .fin 10] ∧
    computeTotal workedItems
      = .ok ([⟨.null, .str "Item", .fin 29.99, .fin 2⟩, ⟨.null, .str "Item", .fin 10, .fin 1⟩],
          .fin 69.98) ∧
    (placeOrder workedRequest (sampleWorld fun _ => false)).1
      = some ⟨201, .placed "Order placed successfully" 1 (.fin 69.98)⟩ := by
  have e1 : (29.99 : ℚ) * 2 = 59.98 := by norm_num
  have e3 : (29.99 : ℚ) ≠ 0 := by norm_num
  have e4 : (59.98 : ℚ) ≠ 0 := by norm_num
  refine ⟨?_, computeTotal_worked, ?_⟩
  · simp [workedItems, specLineTotals, specLineTotal, JSVal.get, List.lookup,
      toNumber, toMoney, Except.map, bind, Except.bind, pure, Except.pure, toMoneyNum_fin,
      JSNum.orElse, JSNum.truthy, JSNum.max, JSNum.one, JSNum.mul, round2_worked_price,
      round2_worked_line, round2_ten, e1, e3, e4]
  · have hne : nonEmptyArray (.arr workedItems) = some workedItems := rfl
    simp [placeOrder, workedRequest, sampleWorld, sampleAddress, JSVal.get, List.lookup,
      JSVal.truthy, JSNum.truthy, hne, withDefault, World.getConnection,
      World.failsNext, World.record, placeOrderTry, World.selectAddress, World.sqlEq,
      computeTotal_worked, World.beginTransaction, World.insertOrder, insertItems,
      World.insertItem, World.commit, World.release]

/-- The rows that a completed item loop has added, and what it has left
alone. -/
theorem insertItems_ok_tables (oid : Nat) (lines : List Line) (w w' : World)
    (h : insertItems oid lines w = (.ok (), w')) :
    w'.tables.orderItems = w.tables.orderItems ++ itemRows oid w.nextItemID lines ∧
    w'.tables.orders = w.tables.orders ∧ w'.tables.addresses = w.tables.addresses ∧
    w'.saved = w.saved ∧ w'.faults = w.faults := by
  induction lines generalizing w with
  | nil =>
    simp only [insertItems, Prod.mk.injEq, true_and] at h
    simp [← h, itemRows]
  | cons it rest ih =>
    by_cases hf : w.faults w.log.length = true
    · simp [insertItems, insertItem_fault w oid it hf] at h
    · simp only [Bool.not_eq_true] at hf
      simp only [insertItems, insertItem_no_fault w oid it hf] at h
      have := ih _ h
      simpa [World.record, itemRows] using this

/-- The state that the `try` block leaves when it answers `201`: the order
row, the item rows of the normalised lines, nothing else changed, and no
transaction open. -/
theorem placeOrderTry_201_state (userID addressID paymentID trackingNumber : JSVal)
    (items : List JSVal) (w : World) (r : Response) (w' : World)
    (h : placeOrderTry userID addressID paymentID trackingNumber items w = (.ok r, w'))
    (hr : r.status = 201) :
    ∃ lines total, computeTotal items = .ok (lines, total) ∧
      r = ⟨201, .placed "Order placed successfully" w.nextOrderID total⟩ ∧
      w'.tables.orders = w.tables.orders ++
        [{ orderID := w.nextOrderID, userID := userID, addressID := addressID,
           paymentID := paymentID, total := total, status := "Order Placed",
           createdAt := w.now, trackingNumber := trackingNumber }] ∧
      w'.tables.orderItems = w.tables.orderItems ++ itemRows w.nextOrderID w.nextItemID lines ∧
      w'.tables.addresses = w.tables.addresses ∧
      w'.saved = none ∧ w'.faults = w.faults ∧
      (w.tables.addresses.filter fun a =>
        World.sqlEq (.num (.fin a.addressID)) addressID && World.sqlEq a.userID userID) ≠ [] := by
  unfold placeOrderTry at h
  by_cases f1 : w.failsNext = true
  · simp [World.selectAddress, f1] at h
  · simp only [World.selectAddress, f1, Bool.false_eq_true, if_false] at h
    split at h
    · simp only [Prod.mk.injEq, Except.ok.injEq] at h
      rw [← h.1] at hr
      simp at hr
    · rename_i hrows
      cases hc : computeTotal items with
      | error e => simp [hc] at h
      | ok lt =>
        obtain ⟨lines, total⟩ := lt
        simp only [hc] at h
        by_cases f2 : (w.record (.selectAddress addressID userID)).failsNext = true
        · simp [World.beginTransaction, f2] at h
        · simp only [World.beginTransaction, f2, Bool.false_eq_true, if_false] at h
          by_cases f3 : ({ (w.record (.selectAddress addressID userID)).record
              .beginTransaction with
              saved := some (w.record (.selectAddress addressID userID)).tables
              : World }).failsNext = true
          · simp [World.insertOrder, f3] at h
          · simp only [World.insertOrder, f3, Bool.false_eq_true, if_false] at h
            split at h
            · simp at h
            · rename_i w4 hitems
              obtain ⟨t1, t2, t3, t4, t5⟩ := insertItems_ok_tables _ _ _ _ hitems
              by_cases f4 : w4.failsNext = true
              · simp [World.commit, f4] at h
              · simp only [World.commit, f4, Bool.false_eq_true, if_false, Prod.mk.injEq,
                  Except.ok.injEq] at h
                refine ⟨lines, total, rfl, ?_, ?_, ?_, ?_, ?_, ?_, ?_⟩
                · rw [← h.1]; simp [World.record]
                · rw [← h.2]; simpa [World.record] using t2
                · rw [← h.2]; simpa [World.record] using t1
                · rw [← h.2]; simpa [World.record] using t3
                · rw [← h.2]
                · rw [← h.2]; simpa [World.record] using t5
                · intro hnil
                  apply hrows
                  simp [hnil]

/-- What a run of `placeOrder` that answers `201` has read, computed and
written. -/
theorem placeOrder_201_inv (req : Request) (w : World) (resp : Response)
    (h : (placeOrder req w).1 = some resp) (h201 : resp.status = 201) :
    ∃ addressID paymentID trackingNumber itemsV items lines total,
      req.body.get "addressID" = .ok addressID ∧
      req.body.get "paymentID" = .ok paymentID ∧
      req.body.get "trackingNumber" = .ok trackingNumber ∧
      req.body.get "items" = .ok itemsV ∧
      req.userID.truthy = true ∧ addressID.truthy = true ∧
      nonEmptyArray itemsV = some items ∧
      computeTotal items = .ok (lines, total) ∧
      resp = ⟨201, .placed "Order placed successfully" w.nextOrderID total⟩ ∧
      (placeOrder req w).2.tables.orders = w.tables.orders ++
        [{ orderID := w.nextOrderID, userID := req.userID, addressID := addressID,
           paymentID := withDefault paymentID .null, total := total, status := "Order Placed",
           createdAt := w.now, trackingNumber := withDefault trackingNumber .null }] ∧
      (placeOrder req w).2.tables.orderItems
        = w.tables.orderItems ++ itemRows w.nextOrderID w.nextItemID lines ∧
      (placeOrder req w).2.tables.addresses = w.tables.addresses ∧
      (placeOrder req w).2.saved = none ∧
      (placeOrder req w).2.faults = w.faults ∧
      (w.tables.addresses.filter fun a =>
        World.sqlEq (.num (.fin a.addressID)) addressID &&
          World.sqlEq a.userID req.userID) ≠ [] := by
  cases h1 : req.body.get "addressID" with
  | error e => simp [placeOrder, h1] at h
  | ok addressID =>
  cases h2 : req.body.get "paymentID" with
  | error e => simp [placeOrder, h1, h2] at h
  | ok paymentID =>
  cases h3 : req.body.get "trackingNumber" with
  | error e => simp [placeOrder, h1, h2, h3] at h
  | ok trackingNumber =>
  cases h4 : req.body.get "items" with
  | error e => simp [placeOrder, h1, h2, h3, h4] at h
  | ok itemsV =>
  by_cases hu : req.userID.truthy = true
  swap
  · simp [placeOrder, h1, h2, h3, h4, hu] at h
    rw [← h] at h201
    simp at h201
  by_cases ha : addressID.truthy = true
  swap
  · simp [placeOrder, h1, h2, h3, h4, hu, ha] at h
    rw [← h] at h201
    simp at h201
  cases hi : nonEmptyArray itemsV with
  | none =>
    simp [placeOrder, h1, h2, h3, h4, hu, ha, hi] at h
    rw [← h] at h201
    simp at h201
  | some items =>
    rw [placeOrder_valid req w addressID paymentID trackingNumber itemsV items h1 h2 h3 h4
      hu ha hi] at h ⊢
    by_cases hc : w.faults w.log.length = true
    · simp [World.getConnection, World.failsNext, hc] at h
    · simp only [Bool.not_eq_true] at hc
      simp only [World.getConnection, World.failsNext, hc, Bool.false_eq_true, if_false]
        at h ⊢
      cases ht : placeOrderTry req.userID addressID (withDefault paymentID .null)
          (withDefault trackingNumber .null) items
          { w.record .getConnection with saved := none } with
      | mk rt w2 =>
        simp only [ht] at h ⊢
        cases rt with
        | error e =>
          simp only at h
          cases hr : w2.rollback with
          | mk rr w3 =>
            simp only [hr] at h
            cases rr with
            | error e => simp at h
            | ok u =>
              simp only [Option.some.injEq] at h
              rw [← h] at h201
              simp at h201
        | ok r =>
          simp only [Option.some.injEq] at h
          subst h
          obtain ⟨lines, total, hn, hb, t1, t2, t3, t4, t5, t6⟩ :=
            placeOrderTry_201_state _ _ _ _ _ _ _ _ ht h201
          refine ⟨addressID, paymentID, trackingNumber, itemsV, items, lines, total,
            rfl, rfl, rfl, rfl, hu, ha, hi, hn, ?_, ?_, ?_, ?_, ?_, ?_, ?_⟩
          · simpa [World.record] using hb
          · simpa [World.release, World.record] using t1
          · simpa [World.release, World.record] using t2
          · simpa [World.release, World.record] using t3
          · simpa [World.release, World.record] using t4
          · simpa [World.release, World.record] using t5
          · simpa [World.record] using t6

/-- With the address found, the normalisation completed and no fault
scheduled for any of its calls, the `try` block answers `201`. -/
theorem placeOrderTry_no_fault (userID addressID paymentID trackingNumber : JSVal)
    (items : List JSVal) (w : World) (lines : List Line) (total : JSNum)
    (hfound : (w.tables.addresses.filter fun r =>
      World.sqlEq (.num (.fin r.addressID)) addressID && World.sqlEq r.userID userID) ≠ [])
    (hnorm : computeTotal items = .ok (lines, total))
    (hok : ∀ j, j < 4 + lines.length → w.faults (w.log.length + j) = false) :
    ∃ w', placeOrderTry userID addressID paymentID trackingNumber items w
      = (.ok ⟨201, .placed "Order placed successfully" w.nextOrderID total⟩, w') := by
  have hne : ¬ ((w.tables.addresses.filter fun r =>
      World.sqlEq (.num (.fin r.addressID)) addressID && World.sqlEq r.userID userID).length
      = 0) := fun h0 => hfound (List.length_eq_zero.mp h0)
  have f0 : w.faults w.log.length = false := by simpa using hok 0 (by omega)
  have f1 : w.faults (w.log.length + 1) = false := hok 1 (by omega)
  have f2 : w.faults (w.log.length + 2) = false := hok 2 (by omega)
  unfold placeOrderTry
  simp only [World.selectAddress, World.failsNext, f0, Bool.false_eq_true, if_false, hne,
    hnorm, World.beginTransaction, World.insertOrder, World.record,
    List.length_append, List.length_singleton, f1, f2, Nat.add_assoc, Nat.reduceAdd]
  have key : ∀ w3 : World,
      w3.log = w.log ++ [Op.selectAddress addressID userID] ++ [Op.beginTransaction] ++
        [Op.insertOrder userID addressID paymentID total trackingNumber] →
      w3.faults = w.faults →
      ∀ resp : Response,
      ∃ w', (match insertItems w.nextOrderID lines w3 with
          | (Except.error e, w2) => (Except.error e, w2)
          | (Except.ok PUnit.unit, w4) =>
            match w4.commit with
            | (Except.error e, w2) => (Except.error e, w2)
            | (Except.ok PUnit.unit, w5) => (Except.ok resp, w5))
        = ((Except.ok resp : Except Exn Response), w') := by
    intro w3 hlog3 hfaults3 resp
    have hlen3 : w3.log.length = w.log.length + 3 := by simp [hlog3]
    obtain ⟨e1, e2⟩ := insertItems_no_fault w.nextOrderID lines w3
      (by
        intro i hi
        rw [hfaults3, hlen3]
        have := hok (3 + i) (by omega)
        rwa [show w.log.length + (3 + i) = w.log.length + 3 + i by omega] at this)
    obtain ⟨-, fr2, -, -, -⟩ := insertItems_frame w.nextOrderID lines w3
    cases hI : insertItems w.nextOrderID lines w3 with
    | mk r w4 =>
      rw [hI] at e1 e2 fr2
      simp only at e1 e2 fr2
      subst e1
      have hf4 : w4.faults w4.log.length = false := by
        rw [fr2, hfaults3, e2]
        simp only [List.length_append, List.length_map, hlen3]
        have := hok (3 + lines.length) (by omega)
        rwa [show w.log.length + (3 + lines.length) = w.log.length + 3 + lines.length by omega]
          at this
      simp only [World.commit, World.failsNext, hf4, Bool.false_eq_true, if_false]
      exact ⟨_, rfl⟩
  exact key
    { tables :=
        { addresses := w.tables.addresses,
          orders := w.tables.orders ++
            [{ orderID := w.nextOrderID, userID := userID, addressID := addressID,
               paymentID := paymentID, total := total, status := "Order Placed",
               createdAt := w.now, trackingNumber := trackingNumber }],
          orderItems := w.tables.orderItems },
      saved := some w.tables, nextOrderID := w.nextOrderID + 1,
      nextItemID := w.nextItemID, nextAddressID := w.nextAddressID, now := w.now,
      log := w.log ++ [Op.selectAddress addressID userID] ++ [Op.beginTransaction] ++
        [Op.insertOrder userID addressID paymentID total trackingNumber],
      faults := w.faults } rfl rfl _

/-- A valid request whose address is found and whose items are normalised
without an exception is answered with `201` when none of the calls of the
run fails. -/
theorem placeOrder_no_fault (req : Request) (w : World)
    (addressID paymentID trackingNumber itemsV : JSVal) (items : List JSVal)
    (lines : List Line) (total : JSNum)
    (h1 : req.body.get "addressID" = .ok addressID)
    (h2 : req.body.get "paymentID" = .ok paymentID)
    (h3 : req.body.get "trackingNumber" = .ok trackingNumber)
    (h4 : req.body.get "items" = .ok itemsV)
    (hu : req.userID.truthy = true) (ha : addressID.truthy = true)
    (hi : nonEmptyArray itemsV = some items)
    (hfound : ∃ r ∈ w.tables.addresses,
      (World.sqlEq (.num (.fin r.addressID)) addressID &&
        World.sqlEq r.userID req.userID) = true)
    (hnorm : computeTotal items = .ok (lines, total))
    (hok : ∀ j, j < 5 + lines.length → w.faults (w.log.length + j) = false) :
    (placeOrder req w).1
      = some ⟨201, .placed "Order placed successfully" w.nextOrderID total⟩ := by
  have hfilter : (w.tables.addresses.filter fun r =>
      World.sqlEq (.num (.fin r.addressID)) addressID && World.sqlEq r.userID req.userID)
      ≠ [] := by
    obtain ⟨r, hr, hp⟩ := hfound
    exact List.ne_nil_of_mem (List.mem_filter.mpr ⟨hr, hp⟩)
  have f0 : w.faults w.log.length = false := by simpa using hok 0 (by omega)
  rw [placeOrder_valid req w addressID paymentID trackingNumber itemsV items h1 h2 h3 h4 hu ha hi]
  simp only [World.getConnection, World.failsNext, f0, Bool.false_eq_true, if_false]
  obtain ⟨w', hw'⟩ := placeOrderTry_no_fault req.userID addressID (withDefault paymentID .null)
    (withDefault trackingNumber .null) items
    { w.record .getConnection with saved := none } lines total
    (by simpa [World.record] using hfilter) hnorm
    (by
      intro j hj
      have := hok (1 + j) (by omega)
      simpa [World.record, Nat.add_assoc] using this)
  rw [hw']
  simp [World.record]

/-- C11: when a valid request names an address of the caller, its items are
normalised without an exception and none of the calls of the run fails,
`placeOrder` answers with status `201`, and the row it has added to `orders`
has the status `"Order Placed"`, the caller's `userID`, the `addressID` that
was checked, the computed total and the key that the store generated; the
response carries that key as `orderID` and the total of the row. The
transaction is committed. -/
theorem placeOrder_persists_order (req : Request) (w : World)
    (addressID paymentID trackingNumber itemsV : JSVal) (items : List JSVal)
    (lines : List Line) (total : JSNum)
    (h1 : req.body.get "addressID" = .ok addressID)
    (h2 : req.body.get "paymentID" = .ok paymentID)
    (h3 : req.body.get "trackingNumber" = .ok trackingNumber)
    (h4 : req.body.get "items" = .ok itemsV)
    (hu : req.userID.truthy = true) (ha : addressID.truthy = true)
    (hi : nonEmptyArray itemsV = some items)
    (hfound : ∃ r ∈ w.tables.addresses,
      (World.sqlEq (.num (.fin r.addressID)) addressID &&
        World.sqlEq r.userID req.userID) = true)
    (hnorm : computeTotal items = .ok (lines, total))
    (hok : ∀ j, j < 5 + lines.length → w.faults (w.log.length + j) = false) :
    ∃ row : OrderRow,
      (placeOrder req w).2.tables.orders = w.tables.orders ++ [row] ∧
      (placeOrder req w).2.saved = none ∧
      row.status = "Order Placed" ∧ row.userID = req.userID ∧ row.addressID = addressID ∧
      row.total = total ∧ row.orderID = w.nextOrderID ∧ row.createdAt = w.now ∧
      (placeOrder req w).1
        = some ⟨201, .placed "Order placed successfully" row.orderID row.total⟩ := by
  have h := placeOrder_no_fault req w addressID paymentID trackingNumber itemsV items lines
    total h1 h2 h3 h4 hu ha hi hfound hnorm hok
  obtain ⟨a', p', t', iv', its', lines', total', g1, g2, g3, g4, -, -, g7, g8, g9, g10, -, -,
    g13, -, -⟩ := placeOrder_201_inv req w _ h rfl
  rw [h1] at g1; cases g1
  rw [h4] at g4; cases g4
  rw [hi] at g7; cases g7
  rw [hnorm] at g8; cases g8
  exact ⟨_, g10, g13, rfl, rfl, rfl, rfl, rfl, rfl, h⟩

/-- C11, witness: the worked example on a store where no call fails. -/
theorem placeOrder_persists_order_witness :
    ∃ row : OrderRow,
      (placeOrder workedRequest (sampleWorld fun _ => false)).2.tables.orders
        = (sampleWorld fun _ => false).tables.orders ++ [row] ∧
      (placeOrder workedRequest (sampleWorld fun _ => false)).2.saved = none ∧
      row.status = "Order Placed" ∧ row.userID = workedRequest.userID ∧
      row.addressID = .num (.fin 7) ∧
      row.total = .fin 69.98 ∧ row.orderID = (sampleWorld fun _ => false).nextOrderID ∧
      row.createdAt = (sampleWorld fun _ => false).now ∧
      (placeOrder workedRequest (sampleWorld fun _ => false)).1
        = some ⟨201, .placed "Order placed successfully" row.orderID row.total⟩ :=
  placeOrder_persists_order workedRequest (sampleWorld fun _ => false)
    (.num (.fin 7)) .undefined .undefined (.arr workedItems) workedItems _ _
    (by simp [workedRequest, JSVal.get, List.lookup])
    (by simp [workedRequest, JSVal.get, List.lookup])
    (by simp [workedRequest, JSVal.get, List.lookup])
    (by simp [workedRequest, JSVal.get, List.lookup])
    (by simp [workedRequest, JSVal.truthy])
    (by simp [JSVal.truthy, JSNum.truthy])
    rfl
    (by simp [sampleWorld, sampleAddress, workedRequest, World.sqlEq])
    computeTotal_worked
    (by intro j _; rfl)

/-- Rounding to hundredths moves a number by at most half a hundredth. -/
theorem round2_error (q : ℚ) : |JSNum.round2 q - q| ≤ 1 / 200 := by
  unfold JSNum.round2
  split
  · have h1 := Int.floor_le (-q * 100 + 1 / 2)
    have h2 := Int.lt_floor_add_one (-q * 100 + 1 / 2)
    rw [abs_le]
    constructor <;> linarith
  · have h1 := Int.floor_le (q * 100 + 1 / 2)
    have h2 := Int.lt_floor_add_one (q * 100 + 1 / 2)
    rw [abs_le]
    constructor <;> linarith

/-- The value of `total` after the loop is its value before plus the line
totals `toMoney(price * quantity)` of the normalised lines. -/
theorem normalizeAll_total (items : List JSVal) (start : JSNum) (lines : List Line)
    (total : JSNum) (h : normalizeAll items start = .ok (lines, total)) :
    total = start.add (sumNums (lines.map fun l => toMoneyNum (l.price.mul l.quantity))) := by
  induction items generalizing start lines total with
  | nil =>
    simp only [normalizeAll, Except.ok.injEq, Prod.mk.injEq] at h
    rw [← h.1, ← h.2]
    simp [sumNums, jsAdd_zero_right]
  | cons it rest ih =>
    unfold normalizeAll at h
    cases h1 : normalizeLine it with
    | error e => simp [h1] at h
    | ok r =>
      obtain ⟨line, lt⟩ := r
      simp only [h1] at h
      cases h2 : normalizeAll rest (start.add lt) with
      | error e => simp [h2] at h
      | ok r2 =>
        obtain ⟨ls, t⟩ := r2
        simp only [h2, Except.ok.injEq, Prod.mk.injEq] at h
        obtain ⟨p, q, d, nm, pn, qn, dn, -, -, -, -, -, -, -, hline, hlt⟩ :=
          normalizeLine_inv it line lt h1
        rw [← h.1, ← h.2, ih _ ls t h2]
        simp only [List.map_cons, sumNums]
        rw [jsAdd_assoc, hlt, hline]

/-- For lines with a finite price and quantity, the sum of the amounts
`price * quantity` and the sum of the line totals are finite and differ by at
most half a hundredth per line. -/
theorem lines_sum_error (lines : List Line)
    (hfin : ∀ l ∈ lines, ∃ p q, l.price = .fin p ∧ l.quantity = .fin q) :
    ∃ s r : ℚ,
      sumNums (lines.map fun l => l.price.mul l.quantity) = .fin s ∧
      sumNums (lines.map fun l => toMoneyNum (l.price.mul l.quantity)) = .fin r ∧
      |r - s| ≤ (lines.length : ℚ) / 200 := by
  induction lines with
  | nil => exact ⟨0, 0, rfl, rfl, by simp⟩
  | cons l rest ih =>
    obtain ⟨s, r, hs, hr, hb⟩ := ih (fun l' hl' => hfin l' (List.mem_cons_of_mem _ hl'))
    obtain ⟨p, q, hp, hq⟩ := hfin l (List.mem_cons_self _ _)
    refine ⟨p * q + s, JSNum.round2 (p * q) + r, ?_, ?_, ?_⟩
    · simp only [List.map_cons, sumNums, hs, hp, hq]
      rfl
    · simp only [List.map_cons, sumNums, hr, hp, hq]
      show (toMoneyNum (JSNum.fin (p * q))).add (JSNum.fin r) = _
      rw [toMoneyNum_fin]
      rfl
    · have e := round2_error (p * q)
      rw [abs_le] at e hb ⊢
      simp only [List.length_cons]
      push_cast
      constructor <;> linarith [e.1, e.2, hb.1, hb.2]

theorem itemRows_length (oid : Nat) (lines : List Line) (id : Nat) :
    (itemRows oid id lines).length = lines.length := by
  induction lines generalizing id with
  | nil => rfl
  | cons l rest ih => simp [itemRows, ih]

theorem itemRows_amounts (oid : Nat) (lines : List Line) (id : Nat) :
    (itemRows oid id lines).map (fun r => r.price.mul r.quantity)
      = lines.map fun l => l.price.mul l.quantity := by
  induction lines generalizing id with
  | nil => rfl
  | cons l rest ih => simp [itemRows, ih]

theorem itemRows_mem (oid : Nat) (lines : List Line) (id : Nat) (l : Line) (hl : l ∈ lines) :
    ∃ r ∈ itemRows oid id lines,
      r.price = l.price ∧ r.quantity = l.quantity ∧ r.name = l.name ∧ r.orderID = oid := by
  induction lines generalizing id with
  | nil => simp at hl
  | cons x rest ih =>
    rcases List.mem_cons.mp hl with rfl | h
    · exact ⟨_, List.mem_cons_self _ _, rfl, rfl, rfl, rfl⟩
    · obtain ⟨r, hr, e⟩ := ih (id + 1) h
      exact ⟨r, List.mem_cons_of_mem _ hr, e⟩

theorem itemRows_orderID (oid : Nat) (lines : List Line) (id : Nat) :
    ∀ r ∈ itemRows oid id lines, r.orderID = oid := by
  induction lines generalizing id with
  | nil => simp [itemRows]
  | cons x rest ih =>
    intro r hr
    rcases List.mem_cons.mp hr with rfl | h
    · rfl
    · exact ih (id + 1) r h

/-- C12: in a run of `placeOrder` that answers `201` and persists item rows
with finite prices and quantities (exact decimals), the returned total and
the sum of `price * quantity` over the item rows that the run has added
differ by at most `0.005 * (n + 1)`, where `n` is the number of these rows,
one per line of the request. -/
theorem total_within_rounding (req : Request) (w : World) (resp : Response)
    (h : (placeOrder req w).1 = some resp) (h201 : resp.status = 201)
    (hfin : ∀ r ∈ (placeOrder req w).2.tables.orderItems.drop w.tables.orderItems.length,
      ∃ p q, r.price = .fin p ∧ r.quantity = .fin q) :
    ∃ (itemsV : JSVal) (items : List JSVal) (orderID : Nat) (t s : ℚ),
      req.body.get "items" = .ok itemsV ∧ nonEmptyArray itemsV = some items ∧
      ((placeOrder req w).2.tables.orderItems.drop w.tables.orderItems.length).length
        = items.length ∧
      resp.body = .placed "Order placed successfully" orderID (.fin t) ∧
      sumNums (((placeOrder req w).2.tables.orderItems.drop w.tables.orderItems.length).map
        fun r => r.price.mul r.quantity) = .fin s ∧
      |t - s| ≤ 0.005 * ((items.length : ℚ) + 1) := by
  obtain ⟨a, p, tn, itemsV, items, lines, total, -, -, -, g4, -, -, g7, g8, g9, -, g11, -,
    -, -, -⟩ := placeOrder_201_inv req w resp h h201
  have hdrop : (placeOrder req w).2.tables.orderItems.drop w.tables.orderItems.length
      = itemRows w.nextOrderID w.nextItemID lines := by
    rw [g11, List.drop_left]
  rw [hdrop] at hfin ⊢
  have hlen : lines.length = items.length :=
    (forall₂_length_eq _ _ _ (computeTotal_forall₂ items lines total g8)).symm
  have hlines : ∀ l ∈ lines, ∃ p q, l.price = .fin p ∧ l.quantity = .fin q := by
    intro l hl
    obtain ⟨r, hr, e1, e2, -, -⟩ := itemRows_mem w.nextOrderID lines w.nextItemID l hl
    obtain ⟨p, q, hp, hq⟩ := hfin r hr
    exact ⟨p, q, by rw [← e1, hp], by rw [← e2, hq]⟩
  obtain ⟨s, r, hs, hr, hb⟩ := lines_sum_error lines hlines
  have htotal : total = .fin (JSNum.round2 r) := by
    unfold computeTotal at g8
    cases hn : normalizeAll items .zero with
    | error e => simp [hn] at g8
    | ok res =>
      obtain ⟨ls, t0⟩ := res
      simp only [hn, Except.ok.injEq, Prod.mk.injEq] at g8
      have := normalizeAll_total items .zero ls t0 hn
      rw [g8.1, hr, jsAdd_zero_left] at this
      rw [← g8.2, this, toMoneyNum_fin]
  refine ⟨itemsV, items, w.nextOrderID, JSNum.round2 r, s, g4, g7, ?_, ?_, ?_, ?_⟩
  · rw [itemRows_length, hlen]
  · rw [g9, htotal]
  · rw [itemRows_amounts, hs]
  · have e := round2_error r
    rw [abs_le] at e hb ⊢
    rw [hlen] at hb
    constructor <;> linarith [e.1, e.2, hb.1, hb.2]

/-- C12, witness: the worked example; the two rows `29.99 x 2` and
`10.00 x 1` sum to the returned total, `69.98`. -/
theorem total_within_rounding_witness :
    ∃ (itemsV : JSVal) (items : List JSVal) (orderID : Nat) (t s : ℚ),
      workedRequest.body.get "items" = .ok itemsV ∧ nonEmptyArray itemsV = some items ∧
      ((placeOrder workedRequest (sampleWorld fun _ => false)).2.tables.orderItems.drop
        (sampleWorld fun _ => false).tables.orderItems.length).length = items.length ∧
      (Response.mk 201 (.placed "Order placed successfully" 1 (.fin 69.98))).body
        = .placed "Order placed successfully" orderID (.fin t) ∧
      sumNums (((placeOrder workedRequest (sampleWorld fun _ => false)).2.tables.orderItems.drop
        (sampleWorld fun _ => false).tables.orderItems.length).map
        fun r => r.price.mul r.quantity) = .fin s ∧
      |t - s| ≤ 0.005 * ((items.length : ℚ) + 1) :=
  have hne : nonEmptyArray (.arr workedItems) = some workedItems := rfl
  have hrows : (placeOrder workedRequest (sampleWorld fun _ => false)).2.tables.orderItems
      = [⟨1, 1, .null, .str "Item", .fin 29.99, .fin 2⟩,
         ⟨2, 1, .null, .str "Item", .fin 10, .fin 1⟩] := by
    simp [placeOrder, workedRequest, sampleWorld, sampleAddress, JSVal.get, List.lookup,
      JSVal.truthy, JSNum.truthy, hne, withDefault, World.getConnection,
      World.failsNext, World.record, placeOrderTry, World.selectAddress, World.sqlEq,
      computeTotal_worked, World.beginTransaction, World.insertOrder, insertItems,
      World.insertItem, World.commit, World.release]
  total_within_rounding workedRequest (sampleWorld fun _ => false) _
    (by
      have hne : nonEmptyArray (.arr workedItems) = some workedItems := rfl
      simp [placeOrder, workedRequest, sampleWorld, sampleAddress, JSVal.get, List.lookup,
        JSVal.truthy, JSNum.truthy, hne, withDefault, World.getConnection,
        World.failsNext, World.record, placeOrderTry, World.selectAddress, World.sqlEq,
        computeTotal_worked, World.beginTransaction, World.insertOrder, insertItems,
        World.insertItem, World.commit, World.release])
    rfl
    (by
      rw [hrows]
      intro r hr
      simp only [sampleWorld, List.length_nil, List.drop_zero, List.mem_cons,
        List.mem_singleton, List.not_mem_nil, or_false] at hr
      rcases hr with rfl | rfl
      · exact ⟨_, _, rfl, rfl⟩
      · exact ⟨_, _, rfl, rfl⟩)

/-! ### The read path -/

theorem mapHas_eq_isSome (m : List (Nat × List OrderItemRow)) (k : Nat) :
    mapHas m k = (mapGet m k).isSome := by
  induction m with
  | nil => rfl
  | cons e rest ih =>
    by_cases he : e.1 = k
    · simp [mapHas, mapGet, he]
    · simp only [mapHas, List.any_cons] at ih ⊢
      simp [mapGet, he, ih]

theorem mapGet_append_new (m : List (Nat × List OrderItemRow)) (k k' : Nat)
    (v : List OrderItemRow) (h : mapGet m k = none) :
    mapGet (m ++ [(k, v)]) k' = if k = k' then some v else mapGet m k' := by
  induction m with
  | nil => simp [mapGet]
  | cons e rest ih =>
    by_cases he : e.1 = k
    · simp [mapGet, he] at h
    · have hrest : mapGet rest k = none := by simpa [mapGet, he] using h
      by_cases he' : e.1 = k'
      · have hkk : ¬ k = k' := fun hk => he (he'.trans hk.symm)
        simp [mapGet, he', hkk]
      · simp [mapGet, he', ih hrest]

theorem mapPush_cons (a : Nat) (v : List OrderItemRow)
    (rest : List (Nat × List OrderItemRow)) (k : Nat) (it : OrderItemRow) :
    mapPush ((a, v) :: rest) k it
      = (if a = k then (a, v ++ [it]) else (a, v)) :: mapPush rest k it := by
  by_cases h : a = k <;> simp [mapPush, h]

theorem mapGet_mapPush (m : List (Nat × List OrderItemRow)) (k k' : Nat)
    (it : OrderItemRow) :
    mapGet (mapPush m k it) k'
      = (mapGet m k').map fun v => if k = k' then v ++ [it] else v := by
  induction m with
  | nil => rfl
  | cons e rest ih =>
    obtain ⟨a, v⟩ := e
    rw [mapPush_cons]
    by_cases he : a = k
    · subst he
      by_cases he' : a = k'
      · subst he'
        simp [mapGet]
      · simp [mapGet, he', ih]
    · by_cases he' : a = k'
      · subst he'
        have hk : ¬ k = a := fun h => he h.symm
        simp [mapGet, he, hk]
      · simp [mapGet, he, he', ih]

/-- After the grouping loop, the array stored under `k` is the array that
was stored there before followed by the item rows with the `orderID` `k`, in
their order. -/
theorem groupItems_get (items : List OrderItemRow) (m : List (Nat × List OrderItemRow))
    (k : Nat) :
    (mapGet (groupItems items m) k).getD []
      = (mapGet m k).getD [] ++ items.filter fun it => it.orderID == k := by
  induction items generalizing m with
  | nil => simp [groupItems]
  | cons it rest ih =>
    simp only [groupItems]
    rw [ih, mapGet_mapPush]
    by_cases hh : mapHas m it.orderID = true
    · simp only [hh, Bool.not_true, Bool.false_eq_true, if_false]
      have hsome : (mapGet m it.orderID).isSome = true := by rw [← mapHas_eq_isSome]; exact hh
      by_cases hk : it.orderID = k
      · subst hk
        obtain ⟨v, hv⟩ := Option.isSome_iff_exists.mp hsome
        simp [hv, List.filter_cons]
      · cases hg : mapGet m k <;> simp [hk, List.filter_cons]
    · simp only [Bool.not_eq_true] at hh
      have hnone : mapGet m it.orderID = none := by
        have := mapHas_eq_isSome m it.orderID
        rw [hh] at this
        cases hg : mapGet m it.orderID with
        | none => rfl
        | some v => rw [hg] at this; simp at this
      simp only [hh, Bool.not_false, if_true, mapSet, Bool.false_eq_true, if_false]
      rw [mapGet_append_new m it.orderID k [] hnone]
      by_cases hk : it.orderID = k
      · subst hk
        simp [hnone, List.filter_cons]
      · simp only [hk, if_false]
        cases hg : mapGet m k <;> simp [hk, List.filter_cons]

/-- The result that the handler assembles with its `Map` is the reference
result. -/
theorem assembleOrders_eq (orders : List OrderRow) (items : List OrderItemRow) :
    assembleOrders orders items = specOrdersWithItems orders items := by
  unfold assembleOrders specOrdersWithItems
  apply List.map_congr_left
  intro o _
  have := groupItems_get items [] o.orderID
  simp only [mapGet, Option.getD_none, List.nil_append] at this
  rw [this]

theorem insertNewestFirst_length (o : OrderRow) (l : List OrderRow) :
    (World.insertNewestFirst o l).length = l.length + 1 := by
  induction l with
  | nil => rfl
  | cons x xs ih =>
    unfold World.insertNewestFirst
    split <;> simp [ih]

theorem sortNewestFirst_length (l : List OrderRow) :
    (World.sortNewestFirst l).length = l.length := by
  induction l with
  | nil => rfl
  | cons x xs ih => simp [World.sortNewestFirst, insertNewestFirst_length, ih]

/-- What the read path answers when its calls complete. -/
theorem getOrdersForUser_no_fault (userID : String) (w : World)
    (hconn : w.faults w.log.length = false)
    (hsel : w.faults (w.log.length + 1) = false)
    (hitems : (w.tables.orders.filter fun r => World.sqlEq r.userID (.str userID)) ≠ [] →
      w.faults (w.log.length + 2) = false) :
    (getOrdersForUser userID w).1
      = some ⟨200, .orders (specOrdersWithItems
          (World.sortNewestFirst
            (w.tables.orders.filter fun r => World.sqlEq r.userID (.str userID)))
          (w.tables.orderItems.filter fun r =>
            ((World.sortNewestFirst
              (w.tables.orders.filter fun r => World.sqlEq r.userID (.str userID))).map
                fun o => o.orderID).contains r.orderID))⟩ ∧
    ((w.tables.orders.filter fun r => World.sqlEq r.userID (.str userID)) = [] →
      (getOrdersForUser userID w).2.log
        = w.log ++ [.getConnection, .selectOrders (.str userID), .release, .release]) := by
  by_cases hnil : (w.tables.orders.filter fun r => World.sqlEq r.userID (.str userID)) = []
  · simp [getOrdersForUser, getOrdersTry, World.getConnection, World.failsNext, hconn,
      World.selectOrders, World.record, hsel, hnil, World.sortNewestFirst, World.release,
      specOrdersWithItems]
  · have hlen : ¬ ((World.sortNewestFirst
        (w.tables.orders.filter fun r => World.sqlEq r.userID (.str userID))).length = 0) := by
      rw [sortNewestFirst_length]
      exact fun h0 => hnil (List.length_eq_zero.mp h0)
    have f2 := hitems hnil
    simp only [getOrdersForUser, getOrdersTry, World.getConnection, World.failsNext, hconn,
      World.selectOrders, World.selectItems, World.record, List.length_append,
      List.length_singleton, hsel, hlen, f2, Nat.add_assoc, Nat.reduceAdd,
      Bool.false_eq_true, if_false, assembleOrders_eq]
    exact ⟨trivial, fun h => absurd h hnil⟩

/-- C15: the result that the handler assembles from the order rows and the
item rows, whatever these lists are, is the order rows in their sequence,
each with the item rows that carry its `orderID`, in the order of the item
rows (none for an order without item rows). When the calls of the handler
complete, it answers `200` with this result for the rows that its two
queries return; for a user with no orders this is the empty list, sent as a
normal response after the first query alone. -/
theorem getOrdersForUser_eq_reference (userID : String) (w : World)
    (hconn : w.faults w.log.length = false)
    (hsel : w.faults (w.log.length + 1) = false)
    (hitems : (w.tables.orders.filter fun r => World.sqlEq r.userID (.str userID)) ≠ [] →
      w.faults (w.log.length + 2) = false) :
    (∀ orders items, assembleOrders orders items
      = orders.map fun o => (o, items.filter fun it => it.orderID == o.orderID)) ∧
    (getOrdersForUser userID w).1
      = some ⟨200, .orders (specOrdersWithItems
          (World.sortNewestFirst
            (w.tables.orders.filter fun r => World.sqlEq r.userID (.str userID)))
          (w.tables.orderItems.filter fun r =>
            ((World.sortNewestFirst
              (w.tables.orders.filter fun r => World.sqlEq r.userID (.str userID))).map
                fun o => o.orderID).contains r.orderID))⟩ ∧
    ((w.tables.orders.filter fun r => World.sqlEq r.userID (.str userID)) = [] →
      (getOrdersForUser userID w).1 = some ⟨200, .orders []⟩ ∧
      (getOrdersForUser userID w).2.log
        = w.log ++ [.getConnection, .selectOrders (.str userID), .release, .release]) := by
  obtain ⟨e1, e2⟩ := getOrdersForUser_no_fault userID w hconn hsel hitems
  refine ⟨fun orders items => assembleOrders_eq orders items, e1, fun hnil => ⟨?_, e2 hnil⟩⟩
  rw [e1, hnil]
  rfl

/-- C15, witness: a user with no orders gets the empty list with status
`200`. -/
theorem getOrdersForUser_eq_reference_witness :
    (getOrdersForUser "u1" (sampleWorld fun _ => false)).1 = some ⟨200, .orders []⟩ ∧
    (getOrdersForUser "u1" (sampleWorld fun _ => false)).2.log
      = (sampleWorld fun _ => false).log ++
        [.getConnection, .selectOrders (.str "u1"), .release, .release] :=
  (getOrdersForUser_eq_reference "u1" (sampleWorld fun _ => false) rfl rfl
    (fun _ => rfl)).2.2 rfl

theorem itemRows_forall₂ (oid : Nat) (lines : List Line) (id : Nat) :
    List.Forall₂ (fun (l : Line) (r : OrderItemRow) =>
      r.orderID = oid ∧ r.productID = l.productID ∧ r.name = l.name ∧ r.price = l.price ∧
        r.quantity = l.quantity) lines (itemRows oid id lines) := by
  induction lines generalizing id with
  | nil => exact List.Forall₂.nil
  | cons l rest ih => exact List.Forall₂.cons ⟨rfl, rfl, rfl, rfl, rfl⟩ (ih (id + 1))

theorem filter_itemRows_self (oid : Nat) (lines : List Line) (id : Nat) :
    (itemRows oid id lines).filter (fun r => r.orderID == oid) = itemRows oid id lines := by
  apply List.filter_eq_self.mpr
  intro r hr
  simp [itemRows_orderID oid lines id r hr]

/-- C14: write then read. When `placeOrder` answers `201` for a caller who
had no order before, and the keys of the item rows in the store are below
the next order key, a following `getOrdersForUser` for that user whose calls
complete answers `200` with exactly one order: its `orderID` and total are
those of the `placeOrder` response, and its items are the rows of the
normalised lines, one per line of the request and in their order, each with
the name, price and quantity of its line. -/
theorem placeOrder_getOrders_round_trip (req : Request) (w : World) (resp : Response)
    (userID : String)
    (h : (placeOrder req w).1 = some resp) (h201 : resp.status = 201)
    (hU : World.sqlEq req.userID (.str userID) = true)
    (hprior : ∀ o ∈ w.tables.orders, World.sqlEq o.userID (.str userID) = false)
    (hkeys : ∀ r ∈ w.tables.orderItems, r.orderID < w.nextOrderID)
    (hconn : (placeOrder req w).2.faults (placeOrder req w).2.log.length = false)
    (hsel : (placeOrder req w).2.faults ((placeOrder req w).2.log.length + 1) = false)
    (hitems : (placeOrder req w).2.faults ((placeOrder req w).2.log.length + 2) = false) :
    ∃ (itemsV : JSVal) (items : List JSVal) (lines : List Line) (orderID : Nat)
      (total : JSNum) (row : OrderRow) (rows : List OrderItemRow),
      req.body.get "items" = .ok itemsV ∧ nonEmptyArray itemsV = some items ∧
      List.Forall₂ (fun it l => ∃ lt, normalizeLine it = .ok (l, lt)) items lines ∧
      resp.body = .placed "Order placed successfully" orderID total ∧
      (getOrdersForUser userID (placeOrder req w).2).1 = some ⟨200, .orders [(row, rows)]⟩ ∧
      row.orderID = orderID ∧ row.total = total ∧
      List.Forall₂ (fun (l : Line) (r : OrderItemRow) =>
        r.orderID = orderID ∧ r.productID = l.productID ∧ r.name = l.name ∧
          r.price = l.price ∧ r.quantity = l.quantity) lines rows := by
  obtain ⟨a, p, tn, itemsV, items, lines, total, -, -, -, g4, -, -, g7, g8, g9, g10, g11, -,
    -, -, -⟩ := placeOrder_201_inv req w resp h h201
  have hords : ((placeOrder req w).2.tables.orders.filter fun r =>
      World.sqlEq r.userID (.str userID))
      = [{ orderID := w.nextOrderID, userID := req.userID, addressID := a,
           paymentID := withDefault p .null, total := total, status := "Order Placed",
           createdAt := w.now, trackingNumber := withDefault tn .null }] := by
    rw [g10, List.filter_append]
    have : (w.tables.orders.filter fun r => World.sqlEq r.userID (.str userID)) = [] :=
      List.filter_eq_nil_iff.mpr (fun o ho => by simp [hprior o ho])
    rw [this]
    simp [List.filter_cons, hU]
  have hrows : ((placeOrder req w).2.tables.orderItems.filter fun r =>
      [w.nextOrderID].contains r.orderID)
      = itemRows w.nextOrderID w.nextItemID lines := by
    rw [g11, List.filter_append]
    have h1 : (w.tables.orderItems.filter fun r => [w.nextOrderID].contains r.orderID) = [] :=
      List.filter_eq_nil_iff.mpr (fun r hr => by
        have := hkeys r hr
        simp
        omega)
    have h2 : ((itemRows w.nextOrderID w.nextItemID lines).filter fun r =>
        [w.nextOrderID].contains r.orderID) = itemRows w.nextOrderID w.nextItemID lines := by
      apply List.filter_eq_self.mpr
      intro r hr
      simp [itemRows_orderID _ _ _ r hr]
    rw [h1, h2, List.nil_append]
  obtain ⟨e1, -⟩ := getOrdersForUser_no_fault userID (placeOrder req w).2 hconn hsel
    (fun _ => hitems)
  refine ⟨itemsV, items, lines, w.nextOrderID, total,
    { orderID := w.nextOrderID, userID := req.userID, addressID := a,
      paymentID := withDefault p .null, total := total, status := "Order Placed",
      createdAt := w.now, trackingNumber := withDefault tn .null },
    itemRows w.nextOrderID w.nextItemID lines, g4, g7, computeTotal_forall₂ items lines total g8, by rw [g9], ?_, rfl, rfl,
    itemRows_forall₂ _ _ _⟩
  rw [e1, hords]
  simp only [World.sortNewestFirst, World.insertNewestFirst, List.map_cons, List.map_nil,
    hrows, specOrdersWithItems, filter_itemRows_self]

theorem placeOrder_worked :
    placeOrder workedRequest (sampleWorld fun _ => false)
      = (some ⟨201, .placed "Order placed successfully" 1 (.fin 69.98)⟩, workedWorld) := by
  have hne : nonEmptyArray (.arr workedItems) = some workedItems := rfl
  simp [placeOrder, workedRequest, sampleWorld, JSVal.get, List.lookup,
    JSVal.truthy, JSNum.truthy, hne, withDefault, World.getConnection,
    World.failsNext, World.record, placeOrderTry, World.selectAddress, World.sqlEq,
    computeTotal_worked, World.beginTransaction, World.insertOrder, insertItems,
    World.insertItem, World.commit, World.release, workedWorld, workedOrderRow,
    workedItemRows, sampleAddress]

/-- C14, witness: the worked example. After it is placed, the read path
answers with one order, with the total `69.98` and the two item rows. -/
theorem placeOrder_getOrders_round_trip_witness :
    (getOrdersForUser "u1" (placeOrder workedRequest (sampleWorld fun _ => false)).2).1
      = some ⟨200, .orders [(workedOrderRow, workedItemRows)]⟩ ∧
    ∃ (itemsV : JSVal) (items : List JSVal) (lines : List Line) (orderID : Nat)
      (total : JSNum) (row : OrderRow) (rows : List OrderItemRow),
      workedRequest.body.get "items" = .ok itemsV ∧ nonEmptyArray itemsV = some items ∧
      List.Forall₂ (fun it l => ∃ lt, normalizeLine it = .ok (l, lt)) items lines ∧
      (Response.mk 201 (.placed "Order placed successfully" 1 (.fin 69.98))).body
        = .placed "Order placed successfully" orderID total ∧
      (getOrdersForUser "u1" (placeOrder workedRequest (sampleWorld fun _ => false)).2).1
        = some ⟨200, .orders [(row, rows)]⟩ ∧
      row.orderID = orderID ∧ row.total = total ∧
      List.Forall₂ (fun (l : Line) (r : OrderItemRow) =>
        r.orderID = orderID ∧ r.productID = l.productID ∧ r.name = l.name ∧
          r.price = l.price ∧ r.quantity = l.quantity) lines rows :=
  ⟨by
    rw [placeOrder_worked]
    simp [getOrdersForUser, getOrdersTry, workedWorld, World.getConnection, World.failsNext,
      World.record, World.selectOrders, World.selectItems, World.sqlEq, workedOrderRow,
      World.sortNewestFirst, World.insertNewestFirst, assembleOrders_eq, specOrdersWithItems,
      workedItemRows, World.release],
   placeOrder_getOrders_round_trip workedRequest (sampleWorld fun _ => false) _ "u1"
    (by rw [placeOrder_worked]) rfl
    (by simp [workedRequest, World.sqlEq])
    (by intro o ho; simp [sampleWorld] at ho)
    (by intro r hr; simp [sampleWorld] at hr)
    (by rw [placeOrder_worked]; rfl)
    (by rw [placeOrder_worked]; rfl)
    (by rw [placeOrder_worked]; rfl)⟩

/-! ## Claims about the address route -/

theorem addressFields_two :
    addressFields (addressBody (.num (.fin 2))) = .ok (addressBodyFields (.num (.fin 2))) := by
  simp [addressFields, addressBody, addressBodyFields, JSVal.get, List.lookup, bind,
    Except.bind, pure, Except.pure, withDefault]

theorem addressFields_one :
    addressFields (addressBody (.num (.fin 1))) = .ok (addressBodyFields (.num (.fin 1))) := by
  simp [addressFields, addressBody, addressBodyFields, JSVal.get, List.lookup, bind,
    Except.bind, pure, Except.pure, withDefault]

theorem atMostOnePrimary_singleton (r : AddressRow) : atMostOnePrimary [r] := by
  intro u
  unfold primaryCount
  exact (List.length_filter_le _ _).trans (by simp)

/-- C16, at the failing input: the user `u1` has one address, which is
primary; a request of `u1` with `is_primary: 2` is answered with `201`
without the clearing `UPDATE` being issued (`Number(2) === 1` is false), and
the row it inserts is primary (`2` is truthy), so that `u1` has two primary
addresses afterwards. -/
theorem addAddress_two_primaries :
    atMostOnePrimary (sampleWorld fun _ => false).tables.addresses ∧
    (addAddress ⟨.str "u1", addressBody (.num (.fin 2))⟩ (sampleWorld fun _ => false)).1
      = some ⟨201, .created 8⟩ ∧
    (addAddress ⟨.str "u1", addressBody (.num (.fin 2))⟩ (sampleWorld fun _ => false)).2.log
      = [.getConnection, .beginTransaction,
         .insertAddress (.str "u1") (.str "Ada") (.str "NZ") (.str "2 Side St") .null
           (.str "Nelson") (.str "NSN") (.str "7010") (.str "555") 1,
         .commit, .release] ∧
    primaryCount
      (addAddress ⟨.str "u1", addressBody (.num (.fin 2))⟩
        (sampleWorld fun _ => false)).2.tables.addresses (.str "u1") = 2 ∧
    ¬ atMostOnePrimary
      (addAddress ⟨.str "u1", addressBody (.num (.fin 2))⟩
        (sampleWorld fun _ => false)).2.tables.addresses := by
  have hcount : primaryCount
      (addAddress ⟨.str "u1", addressBody (.num (.fin 2))⟩
        (sampleWorld fun _ => false)).2.tables.addresses (.str "u1") = 2 := by
    simp [addAddress, addressFields_two, addressAccepted, addressBodyFields, JSVal.truthy,
      JSNum.truthy, World.getConnection, World.failsNext, World.record, sampleWorld,
      addAddressTry, World.beginTransaction, toNumber, World.insertAddress, World.commit,
      World.release, primaryCount, sampleAddress, World.sqlEq, List.filter_cons]
  refine ⟨atMostOnePrimary_singleton _, ?_, ?_, hcount, ?_⟩
  · simp [addAddress, addressFields_two, addressAccepted, addressBodyFields, JSVal.truthy,
      JSNum.truthy, World.getConnection, World.failsNext, World.record, sampleWorld,
      addAddressTry, World.beginTransaction, toNumber, World.insertAddress, World.commit,
      World.release]
  · simp [addAddress, addressFields_two, addressAccepted, addressBodyFields, JSVal.truthy,
      JSNum.truthy, World.getConnection, World.failsNext, World.record, sampleWorld,
      addAddressTry, World.beginTransaction, toNumber, World.insertAddress, World.commit,
      World.release]
  · intro hinv
    have := hinv (.str "u1")
    rw [hcount] at this
    omega

theorem stringToNumber_empty : stringToNumber "" = .zero := by
  simp [stringToNumber]

/-- A value that converts to `1` is truthy. -/
theorem truthy_of_toNumber_one (v : JSVal) (h : toNumber v = .ok (.fin 1)) :
    v.truthy = true := by
  cases v with
  | undefined => simp [toNumber] at h
  | null => simp [toNumber, JSNum.zero] at h
  | bool b => cases b <;> simp [toNumber, JSNum.zero, JSVal.truthy] at h ⊢
  | num x =>
    simp only [toNumber, Except.ok.injEq] at h
    subst h
    simp [JSVal.truthy, JSNum.truthy]
  | str s =>
    simp only [JSVal.truthy, decide_eq_true_eq]
    rintro rfl
    simp [toNumber, stringToNumber_empty, JSNum.zero] at h
  | arr xs => rfl
  | obj kvs => rfl

theorem addAddress_accepted (req : Request) (w : World) (f : AddressFields)
    (hf : addressFields req.body = .ok f) (hacc : addressAccepted req.userID f = true) :
    addAddress req w =
      match w.getConnection with
      | (.error _, w1) => (none, w1)
      | (.ok (), w1) =>
        match addAddressTry req.userID f w1 with
        | (.ok response, w2) => (some response, w2.release)
        | (.error _, w2) =>
          match w2.rollback with
          | (.error _, w3) => (none, w3.release)
          | (.ok (), w3) => (some ⟨500, .message "Server error"⟩, w3.release) := by
  simp [addAddress, hf, hacc]

/-- After the clearing `UPDATE` no row of the user is primary. -/
theorem clear_rows_not_primary (rows : List AddressRow) (u : JSVal) :
    ∀ r ∈ rows.map (fun r => if World.sqlEq r.userID u then { r with isPrimary := 0 } else r),
      World.sqlEq r.userID u = true → r.isPrimary = 0 := by
  intro r hr hu
  obtain ⟨r0, -, rfl⟩ := List.mem_map.mp hr
  by_cases h0 : World.sqlEq r0.userID u = true
  · simp [h0]
  · simp only [h0, Bool.false_eq_true, if_false] at hu

/-- C17: an accepted request whose `is_primary` converts to `1`, on a store
where none of the calls of the run fails. The handler calls
`beginTransaction`, the clearing `UPDATE` for the caller, the `INSERT`,
`commit` and `release`, in this order, and answers `201` with the generated
key. Afterwards the table holds the old rows, those of the caller with
`is_primary = 0`, followed by the new row, which is primary: the new row is
the caller's one and only primary address. -/
theorem addAddress_primary_postcondition (req : Request) (w : World) (f : AddressFields)
    (hf : addressFields req.body = .ok f) (hacc : addressAccepted req.userID f = true)
    (hnum : toNumber f.isPrimary = .ok (.fin 1))
    (hok : ∀ j, j < 5 → w.faults (w.log.length + j) = false) :
    (addAddress req w).1 = some ⟨201, .created w.nextAddressID⟩ ∧
    (addAddress req w).2.log = w.log ++
      [.getConnection, .beginTransaction, .clearPrimary req.userID,
       .insertAddress req.userID f.fullName f.country f.address f.unit f.city f.state
         f.zipCode f.phoneNum 1, .commit, .release] ∧
    (addAddress req w).2.saved = none ∧
    (addAddress req w).2.tables.addresses =
      (w.tables.addresses.map fun r =>
        if World.sqlEq r.userID req.userID then { r with isPrimary := 0 } else r) ++
      [{ addressID := w.nextAddressID, userID := req.userID, fullName := f.fullName,
         country := f.country, address := f.address, unit := f.unit, city := f.city,
         state := f.state, zipCode := f.zipCode, phoneNum := f.phoneNum, isPrimary := 1,
         createdAt := w.now }] ∧
    (∀ r ∈ (w.tables.addresses.map fun r =>
        if World.sqlEq r.userID req.userID then { r with isPrimary := 0 } else r),
      World.sqlEq r.userID req.userID = true → r.isPrimary = 0) ∧
    (World.sqlEq req.userID req.userID = true →
      primaryCount (addAddress req w).2.tables.addresses req.userID = 1) := by
  have f0 : w.faults w.log.length = false := by simpa using hok 0 (by omega)
  have f1 : w.faults (w.log.length + 1) = false := hok 1 (by omega)
  have f2 : w.faults (w.log.length + 2) = false := hok 2 (by omega)
  have f3 : w.faults (w.log.length + 3) = false := hok 3 (by omega)
  have f4 : w.faults (w.log.length + 4) = false := hok 4 (by omega)
  have htr := truthy_of_toNumber_one f.isPrimary hnum
  have hclear := clear_rows_not_primary w.tables.addresses req.userID
  have hrun : addAddress req w =
      (some ⟨201, .created w.nextAddressID⟩,
        { tables :=
            { addresses :=
                (w.tables.addresses.map fun r =>
                  if World.sqlEq r.userID req.userID then { r with isPrimary := 0 } else r) ++
                [{ addressID := w.nextAddressID, userID := req.userID, fullName := f.fullName,
                   country := f.country, address := f.address, unit := f.unit, city := f.city,
                   state := f.state, zipCode := f.zipCode, phoneNum := f.phoneNum,
                   isPrimary := 1, createdAt := w.now }],
              orders := w.tables.orders, orderItems := w.tables.orderItems },
          saved := none, nextOrderID := w.nextOrderID, nextItemID := w.nextItemID,
          nextAddressID := w.nextAddressID + 1, now := w.now,
          log := w.log ++
            [.getConnection, .beginTransaction, .clearPrimary req.userID,
             .insertAddress req.userID f.fullName f.country f.address f.unit f.city f.state
               f.zipCode f.phoneNum 1, .commit, .release],
          faults := w.faults }) := by
    rw [addAddress_accepted req w f hf hacc]
    simp [World.getConnection, World.failsNext, f0, World.record, addAddressTry,
      World.beginTransaction, f1, hnum, World.clearPrimary, f2, World.insertAddress, f3, htr,
      World.commit, f4, World.release]
  rw [hrun]
  refine ⟨rfl, rfl, rfl, rfl, hclear, ?_⟩
  intro hrefl
  simp only [primaryCount, List.filter_append]
  have hnone : ((w.tables.addresses.map fun r =>
      if World.sqlEq r.userID req.userID then { r with isPrimary := 0 } else r).filter
      fun r => World.sqlEq r.userID req.userID && r.isPrimary == 1) = [] := by
    apply List.filter_eq_nil_iff.mpr
    intro r hr
    by_cases hu : World.sqlEq r.userID req.userID = true
    · simp [hu, hclear r hr hu]
    · simp [hu]
  rw [hnone]
  simp [List.filter_cons, hrefl]

/-- C17, witness: `u1`, whose address `7` is primary, adds an address with
`is_primary: 1`. -/
theorem addAddress_primary_postcondition_witness :
    (addAddress ⟨.str "u1", addressBody (.num (.fin 1))⟩ (sampleWorld fun _ => false)).1
      = some ⟨201, .created 8⟩ ∧
    (addAddress ⟨.str "u1", addressBody (.num (.fin 1))⟩ (sampleWorld fun _ => false)).2.log =
      [.getConnection, .beginTransaction, .clearPrimary (.str "u1"),
       .insertAddress (.str "u1") (.str "Ada") (.str "NZ") (.str "2 Side St") .null
         (.str "Nelson") (.str "NSN") (.str "7010") (.str "555") 1, .commit, .release] ∧
    primaryCount
      (addAddress ⟨.str "u1", addressBody (.num (.fin 1))⟩
        (sampleWorld fun _ => false)).2.tables.addresses (.str "u1") = 1 :=
  have h := addAddress_primary_postcondition ⟨.str "u1", addressBody (.num (.fin 1))⟩
    (sampleWorld fun _ => false) (addressBodyFields (.num (.fin 1))) addressFields_one
    (by simp [addressAccepted, addressBodyFields, JSVal.truthy])
    (by simp [addressBodyFields, toNumber])
    (by intro j _; rfl)
  ⟨h.1, h.2.1, h.2.2.2.2.2 (by simp [World.sqlEq])⟩

/-- C18: an accepted request whose `is_primary` converts to `1`, with the
connection obtained, when the call at position `k` is the first to fail and
is `beginTransaction`, the clearing `UPDATE`, the `INSERT` or `commit` (for
the `INSERT` and for `commit` the `UPDATE` has run). The handler calls
`rollback` and then `release`, and the committed contents of the tables are
those from before the call; when `rollback` completes, the handler answers
`500` and the address rows, with their `is_primary` flags, read as before
the call. -/
theorem addAddress_rollback (req : Request) (w : World) (f : AddressFields) (k : Nat)
    (hf : addressFields req.body = .ok f) (hacc : addressAccepted req.userID f = true)
    (hnum : toNumber f.isPrimary = .ok (.fin 1))
    (hconn : w.faults w.log.length = false)
    (hk1 : w.log.length + 1 ≤ k) (hk2 : k ≤ w.log.length + 4)
    (hfail : w.faults k = true)
    (hfirst : ∀ j, w.log.length + 1 ≤ j → j < k → w.faults j = false) :
    (∃ ops, (addAddress req w).2.log = w.log ++ ops ++ [.rollback, .release]) ∧
    (k = w.log.length + 3 ∨ k = w.log.length + 4 →
      Op.clearPrimary req.userID ∈ (addAddress req w).2.log) ∧
    (addAddress req w).2.committed = w.tables ∧
    (w.faults (k + 1) = false →
      (addAddress req w).1 = some ⟨500, .message "Server error"⟩ ∧
      (addAddress req w).2.tables = w.tables ∧
      (addAddress req w).2.saved = none) := by
  have htr := truthy_of_toNumber_one f.isPrimary hnum
  rw [addAddress_accepted req w f hf hacc]
  have hcases : k = w.log.length + 1 ∨ k = w.log.length + 2 ∨ k = w.log.length + 3 ∨
      k = w.log.length + 4 := by omega
  rcases hcases with rfl | rfl | rfl | rfl
  · by_cases hrb : w.faults (w.log.length + 1 + 1) = false
    · have hrb' : w.faults (w.log.length + 2) = false := hrb
      simp [World.getConnection, World.failsNext, hconn, World.record, addAddressTry,
        World.beginTransaction, hfail, World.rollback, hrb', World.release, World.committed]
      exact ⟨[_, _], rfl⟩
    · have hrb' : w.faults (w.log.length + 2) = true := by simpa using hrb
      simp [World.getConnection, World.failsNext, hconn, World.record, addAddressTry,
        World.beginTransaction, hfail, World.rollback, hrb', World.release, World.committed]
      exact ⟨[_, _], rfl⟩
  · have f1 : w.faults (w.log.length + 1) = false := hfirst _ (by omega) (by omega)
    by_cases hrb : w.faults (w.log.length + 2 + 1) = false
    · have hrb' : w.faults (w.log.length + 3) = false := hrb
      simp [World.getConnection, World.failsNext, hconn, World.record, addAddressTry,
        World.beginTransaction, f1, hnum, World.clearPrimary, hfail, World.rollback, hrb',
        World.release, World.committed]
      exact ⟨[_, _, _], rfl⟩
    · have hrb' : w.faults (w.log.length + 3) = true := by simpa using hrb
      simp [World.getConnection, World.failsNext, hconn, World.record, addAddressTry,
        World.beginTransaction, f1, hnum, World.clearPrimary, hfail, World.rollback, hrb',
        World.release, World.committed]
      exact ⟨[_, _, _], rfl⟩
  · have f1 : w.faults (w.log.length + 1) = false := hfirst _ (by omega) (by omega)
    have f2 : w.faults (w.log.length + 2) = false := hfirst _ (by omega) (by omega)
    by_cases hrb : w.faults (w.log.length + 3 + 1) = false
    · have hrb' : w.faults (w.log.length + 4) = false := hrb
      simp [World.getConnection, World.failsNext, hconn, World.record, addAddressTry,
        World.beginTransaction, f1, hnum, World.clearPrimary, f2, World.insertAddress, hfail,
        htr, World.rollback, hrb', World.release, World.committed]
      exact ⟨[_, _, _, _], rfl⟩
    · have hrb' : w.faults (w.log.length + 4) = true := by simpa using hrb
      simp [World.getConnection, World.failsNext, hconn, World.record, addAddressTry,
        World.beginTransaction, f1, hnum, World.clearPrimary, f2, World.insertAddress, hfail,
        htr, World.rollback, hrb', World.release, World.committed]
      exact ⟨[_, _, _, _], rfl⟩
  · have f1 : w.faults (w.log.length + 1) = false := hfirst _ (by omega) (by omega)
    have f2 : w.faults (w.log.length + 2) = false := hfirst _ (by omega) (by omega)
    have f3 : w.faults (w.log.length + 3) = false := hfirst _ (by omega) (by omega)
    by_cases hrb : w.faults (w.log.length + 4 + 1) = false
    · have hrb' : w.faults (w.log.length + 5) = false := hrb
      simp [World.getConnection, World.failsNext, hconn, World.record, addAddressTry,
        World.beginTransaction, f1, hnum, World.clearPrimary, f2, World.insertAddress, f3,
        htr, World.commit, hfail, World.rollback, hrb', World.release, World.committed]
      exact ⟨[_, _, _, _, _], rfl⟩
    · have hrb' : w.faults (w.log.length + 5) = true := by simpa using hrb
      simp [World.getConnection, World.failsNext, hconn, World.record, addAddressTry,
        World.beginTransaction, f1, hnum, World.clearPrimary, f2, World.insertAddress, f3,
        htr, World.commit, hfail, World.rollback, hrb', World.release, World.committed]
      exact ⟨[_, _, _, _, _], rfl⟩

/-- C18, witness: `u1`, whose address `7` is primary, adds an address with
`is_primary: 1` and the `INSERT`, call number `3`, fails after the clearing
`UPDATE`, call number `2`; the address `7` is primary again afterwards. -/
theorem addAddress_rollback_witness :
    (addAddress ⟨.str "u1", addressBody (.num (.fin 1))⟩ (sampleWorld fun n => n == 3)).2.log =
      [.getConnection, .beginTransaction, .clearPrimary (.str "u1"),
       .insertAddress (.str "u1") (.str "Ada") (.str "NZ") (.str "2 Side St") .null
         (.str "Nelson") (.str "NSN") (.str "7010") (.str "555") 1, .rollback, .release] ∧
    Op.clearPrimary (.str "u1") ∈
      (addAddress ⟨.str "u1", addressBody (.num (.fin 1))⟩ (sampleWorld fun n => n == 3)).2.log ∧
    (addAddress ⟨.str "u1", addressBody (.num (.fin 1))⟩ (sampleWorld fun n => n == 3)).1
      = some ⟨500, .message "Server error"⟩ ∧
    (addAddress ⟨.str "u1", addressBody (.num (.fin 1))⟩ (sampleWorld fun n => n == 3)).2.tables
      = (sampleWorld fun n => n == 3).tables ∧
    primaryCount
      (addAddress ⟨.str "u1", addressBody (.num (.fin 1))⟩
        (sampleWorld fun n => n == 3)).2.tables.addresses (.str "u1") = 1 :=
  have h := addAddress_rollback ⟨.str "u1", addressBody (.num (.fin 1))⟩
    (sampleWorld fun n => n == 3) (addressBodyFields (.num (.fin 1))) 3 addressFields_one
    (by simp [addressAccepted, addressBodyFields, JSVal.truthy])
    (by simp [addressBodyFields, toNumber])
    rfl (by simp [sampleWorld]) (by simp [sampleWorld]) rfl
    (by
      intro j hj1 hj2
      simp only [sampleWorld, List.length_nil] at hj1 ⊢
      simp only [beq_eq_false_iff_ne, ne_eq]
      omega)
  have h3 := h.2.2.2 rfl
  ⟨by simp [addAddress, addressFields_one, addressAccepted, addressBodyFields, JSVal.truthy,
      JSNum.truthy, World.getConnection, World.failsNext, World.record, sampleWorld,
      addAddressTry, World.beginTransaction, toNumber, World.clearPrimary, World.insertAddress,
      World.rollback, World.release],
    h.2.1 (Or.inl rfl), h3.1, h3.2.1, by
      rw [h3.2.1]
      simp [primaryCount, sampleWorld, sampleAddress, World.sqlEq]⟩

/-! ## Claims about requests that overlap -/

/-- C20, at the failing schedule. The handler of the request of `u1` for the
address `7` runs to its first `await`; while it waits for the connection the
handler of a request of `u2` starts and overwrites the shared `userID`; the
handler of `u1` then resumes and issues its address query with the `userID`
`u2`. In a second schedule the handler of `u2` starts while that of `u1`
waits for `beginTransaction`, after its address query with `u1` has found
the address: the order insert of `u1` then carries the `userID` `u2`. -/
theorem placeOrder_userID_overwritten :
    (placeOrderStart ⟨.undefined⟩ sampleRequest).2.next
      = some (.connection (.num (.fin 7)) .null .null
          [.obj [("price", .num (.fin (5 / 2))), ("quantity", .num (.fin 3))]]) ∧
    (placeOrderStart (placeOrderStart ⟨.undefined⟩ sampleRequest).1 strangerRequest).1.userID
      = .str "u2" ∧
    (placeOrderResume
        (placeOrderStart (placeOrderStart ⟨.undefined⟩ sampleRequest).1 strangerRequest).1
        (.connection (.num (.fin 7)) .null .null
          [.obj [("price", .num (.fin (5 / 2))), ("quantity", .num (.fin 3))]])
        ⟨false, [], 0⟩).calls
      = [.selectAddress (.num (.fin 7)) (.str "u2")] ∧
    (placeOrderResume (placeOrderStart ⟨.undefined⟩ sampleRequest).1
        (.connection (.num (.fin 7)) .null .null
          [.obj [("price", .num (.fin (5 / 2))), ("quantity", .num (.fin 3))]])
        ⟨false, [], 0⟩).calls
      = [.selectAddress (.num (.fin 7)) (.str "u1")] ∧
    (placeOrderResume
        (placeOrderStart (placeOrderStart ⟨.undefined⟩ sampleRequest).1 strangerRequest).1
        (.begun (.num (.fin 7)) .null .null [⟨.null, .str "Item", .fin (5 / 2), .fin 3⟩]
          (.fin (15 / 2)))
        ⟨false, [], 0⟩).calls
      = [.insertOrder (.str "u2") (.num (.fin 7)) .null (.fin (15 / 2)) .null] ∧
    sampleRequest.userID = .str "u1" := by
  have hA : placeOrderStart ⟨.undefined⟩ sampleRequest
      = (⟨.str "u1"⟩, ⟨[.getConnection],
          some (.connection (.num (.fin 7)) .null .null
            [.obj [("price", .num (.fin (5 / 2))), ("quantity", .num (.fin 3))]]), none⟩) := by
    simp [placeOrderStart, sampleRequest, JSVal.get, List.lookup, JSVal.truthy, JSNum.truthy,
      nonEmptyArray, withDefault]
  have hB : (placeOrderStart ⟨.str "u1"⟩ strangerRequest).1 = ⟨.str "u2"⟩ := by
    simp [placeOrderStart, strangerRequest, JSVal.get, List.lookup, JSVal.truthy,
      JSNum.truthy, nonEmptyArray, withDefault]
  rw [hA]
  simp only [hB]
  simp [placeOrderResume, sampleRequest]

/-! ### The handler cut at its `await`s, run alone, is `placeOrder` -/

theorem runAlone_final (fuel : Nat) (g : Globals) (calls : List Op)
    (response : Option Response) (w : World) :
    runAlone fuel g ⟨calls, none, response⟩ w = (response, (performAll w calls).2) := by
  cases fuel <;> rfl

theorem runAlone_catch (fuel : Nat) (g : Globals) (w : World) :
    runAlone (fuel + 1) g catchStep w =
      match w.rollback with
      | (.error _, w3) => (none, w3.release)
      | (.ok (), w3) => (some ⟨500, .message "Error placing order"⟩, w3.release) := by
  simp only [runAlone, catchStep, performAll, World.perform]
  cases hr : w.rollback with
  | mk r w3 =>
    cases r with
    | error e =>
      simp [replyOf, Reply.failure, placeOrderResume, runAlone_final, performAll,
        World.perform]
    | ok u =>
      simp [replyOf, placeOrderResume, runAlone_final, performAll, World.perform]

theorem runAlone_items (lines : List Line) (fuel : Nat) (g : Globals) (w : World)
    (orderID : Nat) (total : JSNum) (hfuel : lines.length + 2 ≤ fuel) :
    runAlone fuel g (itemsStep orderID total lines) w =
      match insertItems orderID lines w with
      | (.error _, w4) =>
        (match w4.rollback with
        | (.error _, w3) => (none, w3.release)
        | (.ok (), w3) => (some ⟨500, .message "Error placing order"⟩, w3.release))
      | (.ok (), w4) =>
        match w4.commit with
        | (.error _, w5) =>
          (match w5.rollback with
          | (.error _, w3) => (none, w3.release)
          | (.ok (), w3) => (some ⟨500, .message "Error placing order"⟩, w3.release))
        | (.ok (), w5) =>
          (some ⟨201, .placed "Order placed successfully" orderID total⟩, w5.release) := by
  induction lines generalizing fuel w with
  | nil =>
    obtain ⟨fuel, rfl⟩ : ∃ f, fuel = f + 2 := ⟨fuel - 2, by simp at hfuel; omega⟩
    simp only [itemsStep, runAlone, performAll, World.perform, insertItems]
    cases hc : w.commit with
    | mk r w5 =>
      cases r with
      | error e =>
        simp only [replyOf, Reply.failure, placeOrderResume, if_true]
        exact runAlone_catch fuel g w5
      | ok u =>
        simp [replyOf, placeOrderResume, runAlone_final, performAll, World.perform]
  | cons l rest ih =>
    obtain ⟨fuel, rfl⟩ : ∃ f, fuel = f + 2 := ⟨fuel - 2, by simp at hfuel; omega⟩
    simp only [itemsStep, runAlone, performAll, World.perform, insertItems]
    cases hi : w.insertItem orderID l with
    | mk r w' =>
      cases r with
      | error e =>
        simp only [replyOf, Reply.failure, placeOrderResume, if_true]
        exact runAlone_catch fuel g w'
      | ok u =>
        simp only [replyOf, placeOrderResume, Bool.false_eq_true, if_false]
        exact ih (fuel + 1) w' (by simp at hfuel; omega)

theorem runAlone_suspended (fuel : Nat) (g : Globals) (calls : List Op) (s : Suspended)
    (response : Option Response) (w : World) :
    runAlone (fuel + 1) g ⟨calls, some s, response⟩ w
      = runAlone fuel g (placeOrderResume g s (performAll w calls).1)
          (performAll w calls).2 := rfl

/-- The handler cut at its `await`s and run with no other handler in
between does what `placeOrder` does: the same response and the same state of
the store, whatever the shared `userID` held before. -/
theorem runAlone_eq_placeOrder (req : Request) (w : World) (g : Globals) (fuel : Nat)
    (hfuel : ∀ itemsV items, req.body.get "items" = .ok itemsV →
      nonEmptyArray itemsV = some items → items.length + 6 ≤ fuel) :
    runAlone fuel (placeOrderStart g req).1 (placeOrderStart g req).2 w = placeOrder req w := by
  cases h1 : req.body.get "addressID" with
  | error e => simp [placeOrderStart, placeOrder, h1, runAlone_final, performAll]
  | ok addressID =>
  cases h2 : req.body.get "paymentID" with
  | error e => simp [placeOrderStart, placeOrder, h1, h2, runAlone_final, performAll]
  | ok paymentID =>
  cases h3 : req.body.get "trackingNumber" with
  | error e => simp [placeOrderStart, placeOrder, h1, h2, h3, runAlone_final, performAll]
  | ok trackingNumber =>
  cases h4 : req.body.get "items" with
  | error e => simp [placeOrderStart, placeOrder, h1, h2, h3, h4, runAlone_final, performAll]
  | ok itemsV =>
  by_cases hu : req.userID.truthy = true
  swap
  · simp [placeOrderStart, placeOrder, h1, h2, h3, h4, hu, runAlone_final, performAll]
  by_cases ha : addressID.truthy = true
  swap
  · simp [placeOrderStart, placeOrder, h1, h2, h3, h4, hu, ha, runAlone_final, performAll]
  cases hi : nonEmptyArray itemsV with
  | none =>
    simp [placeOrderStart, placeOrder, h1, h2, h3, h4, hu, ha, hi, runAlone_final, performAll]
  | some items =>
    have hf := hfuel itemsV items h4 hi
    obtain ⟨f, rfl⟩ : ∃ f, fuel = f + 4 := ⟨fuel - 4, by omega⟩
    have hf' : items.length + 2 ≤ f := by omega
    rw [placeOrder_valid req w addressID paymentID trackingNumber itemsV items h1 h2 h3 h4
      hu ha hi]
    simp only [placeOrderStart, h1, h2, h3, h4, hu, ha, hi, Bool.not_true,
      Bool.false_eq_true, if_false]
    rw [runAlone_suspended]
    simp only [performAll, World.perform]
    cases hc : w.getConnection with
    | mk r0 w1 =>
    cases r0 with
    | error e => simp [replyOf, Reply.failure, placeOrderResume, runAlone_final, performAll]
    | ok u0 =>
    simp only [replyOf, placeOrderResume, Bool.false_eq_true, if_false]
    rw [runAlone_suspended]
    simp only [performAll, World.perform]
    unfold placeOrderTry
    cases hs : w1.selectAddress addressID req.userID with
    | mk r1 w2 =>
    cases r1 with
    | error e =>
      simp only [replyOf, Reply.failure, placeOrderResume, if_true]
      exact runAlone_catch (f + 1) _ w2
    | ok rows =>
    simp only [replyOf, placeOrderResume, Bool.false_eq_true, if_false]
    by_cases hrows : rows.length = 0
    · simp [hrows, runAlone_final, performAll, World.perform]
    · simp only [hrows, if_false]
      cases hn : computeTotal items with
      | error e =>
        simp only []
        exact runAlone_catch (f + 1) _ w2
      | ok nt =>
      obtain ⟨normalized, total⟩ := nt
      have hlen : normalized.length = items.length :=
        (forall₂_length_eq _ _ _ (computeTotal_forall₂ items normalized total hn)).symm
      simp only []
      rw [runAlone_suspended]
      simp only [performAll, World.perform]
      cases hb : w2.beginTransaction with
      | mk r2 w3 =>
      cases r2 with
      | error e =>
        simp only [replyOf, Reply.failure, placeOrderResume, if_true]
        exact runAlone_catch f _ w3
      | ok u2 =>
      simp only [replyOf, placeOrderResume, Bool.false_eq_true, if_false]
      rw [runAlone_suspended]
      simp only [performAll, World.perform]
      cases ho : w3.insertOrder req.userID addressID (withDefault paymentID .null) total
          (withDefault trackingNumber .null) with
      | mk r3 w4 =>
      cases r3 with
      | error e =>
        simp only [replyOf, Reply.failure, placeOrderResume, if_true]
        obtain ⟨f', rfl⟩ : ∃ f', f = f' + 1 := ⟨f - 1, by omega⟩
        exact runAlone_catch f' _ w4
      | ok orderID =>
      simp only [replyOf, placeOrderResume, Bool.false_eq_true, if_false]
      rw [runAlone_items normalized f _ w4 orderID total (by omega)]
      cases hI : insertItems orderID normalized w4 with
      | mk r4 w5 =>
      cases r4 with
      | error e => rfl
      | ok u4 =>
        simp only []
        cases hcm : w5.commit with
        | mk r5 w6 =>
        cases r5 <;> rfl

/-! ## `toMoney` applied twice -/

theorem round2_of_cents (n : ℤ) : JSNum.round2 ((n : ℚ) / 100) = (n : ℚ) / 100 := by
  unfold JSNum.round2
  have hhalf : ⌊(1 / 2 : ℚ)⌋ = 0 := by
    rw [Int.floor_eq_iff]; norm_num
  split
  · have h : -((n : ℚ) / 100) * 100 + 1 / 2 = ((-n : ℤ) : ℚ) + 1 / 2 := by push_cast; ring
    rw [h, Int.floor_int_add, hhalf]; push_cast; ring
  · have h : (n : ℚ) / 100 * 100 + 1 / 2 = ((n : ℤ) : ℚ) + 1 / 2 := by ring
    rw [h, Int.floor_int_add, hhalf]; simp

theorem round2_round2 (q : ℚ) : JSNum.round2 (JSNum.round2 q) = JSNum.round2 q := by
  obtain ⟨n, hn⟩ := round2_isCents q
  rw [hn]; exact round2_of_cents n

theorem toMoneyNum_idem (x : JSNum) : toMoneyNum (toMoneyNum x) = toMoneyNum x := by
  cases x <;>
    simp [toMoneyNum_nan, toMoneyNum_pinf, toMoneyNum_ninf, toMoneyNum_fin, round2_round2]

/-- C26: the helper `toMoney` is idempotent. Applying it to its own result
gives that result again, for every value (a conversion that throws throws the
same both times) and for every number, `NaN` and the infinities included.
Hence `toMoney` leaves every normalised price, every line total and every
order total that the handler computes as it is. -/
theorem toMoney_idempotent :
    (∀ n : JSVal, ((toMoney n).bind fun m => toMoney (.num m)) = toMoney n) ∧
    (∀ x : JSNum, toMoneyNum (toMoneyNum x) = toMoneyNum x) ∧
    (∀ it : JSVal,
      (normalizeLine it).map (fun r => (toMoneyNum r.1.price, toMoneyNum r.2)) =
        (normalizeLine it).map (fun r => (r.1.price, r.2))) ∧
    (∀ items : List JSVal,
      (computeTotal items).map (fun r => toMoneyNum r.2) =
        (computeTotal items).map (fun r => r.2)) := by
  refine ⟨?_, toMoneyNum_idem, ?_, ?_⟩
  · intro n
    unfold toMoney
    cases h : toNumber n with
    | error e => rfl
    | ok x => simp [Except.map, Except.bind, toNumber, toMoneyNum_idem]
  · intro it
    cases h : normalizeLine it with
    | error e => rfl
    | ok r =>
      obtain ⟨line, lt⟩ := r
      obtain ⟨p, q, d, nm, pn, qn, dn, -, -, -, -, -, -, -, hl, ht⟩ := normalizeLine_inv it line lt h
      subst hl; subst ht
      simp [Except.map, toMoneyNum_idem]
  · intro items
    unfold computeTotal
    cases h : normalizeAll items .zero with
    | error e => rfl
    | ok r =>
      obtain ⟨lines, total⟩ := r
      simp [Except.map, toMoneyNum_idem]

/-! ## The member `userID` of the body -/

/-- C27: two requests with the same authenticated identity whose bodies agree
in every member other than `userID`. The handler gives the same response and
leaves the same state, with the same sequence of calls and the same rows, for
both; cut at its `await`s it takes the same first step for both, and the later
steps do not read the request. An order that is placed carries the
authenticated identity. -/
theorem placeOrder_ignores_body_userID (u b1 b2 : JSVal) (w : World) (g : Globals)
    (h : ∀ k : String, k ≠ "userID" → b1.get k = b2.get k) :
    placeOrder ⟨u, b1⟩ w = placeOrder ⟨u, b2⟩ w ∧
    placeOrderStart g ⟨u, b1⟩ = placeOrderStart g ⟨u, b2⟩ ∧
    (∀ resp, (placeOrder ⟨u, b1⟩ w).1 = some resp → resp.status = 201 →
      ∃ row, (placeOrder ⟨u, b2⟩ w).2.tables.orders = w.tables.orders ++ [row] ∧
        row.userID = u) := by
  have ha := h "addressID" (by decide)
  have hp := h "paymentID" (by decide)
  have ht := h "trackingNumber" (by decide)
  have hi := h "items" (by decide)
  have heq : placeOrder ⟨u, b1⟩ w = placeOrder ⟨u, b2⟩ w := by
    simp only [placeOrder, ha, hp, ht, hi]
  refine ⟨heq, ?_, ?_⟩
  · simp only [placeOrderStart, ha, hp, ht, hi]
  · intro resp hr h201
    rw [heq] at hr
    obtain ⟨addressID, paymentID, trackingNumber, itemsV, items, lines, total, -, -, -, -, -, -,
      -, -, -, ho, -⟩ := placeOrder_201_inv ⟨u, b2⟩ w resp hr h201
    exact ⟨_, ho, rfl⟩

theorem placeOrder_ignores_body_userID_witness :
    placeOrder ⟨.str "u1", .obj [("userID", .str "u2"), ("addressID", .num (.fin 7)),
        ("items", .arr workedItems)]⟩ workedWorld =
      placeOrder ⟨.str "u1", .obj [("userID", .str "u1"), ("addressID", .num (.fin 7)),
        ("items", .arr workedItems)]⟩ workedWorld :=
  (placeOrder_ignores_body_userID (.str "u1")
    (.obj [("userID", .str "u2"), ("addressID", .num (.fin 7)), ("items", .arr workedItems)])
    (.obj [("userID", .str "u1"), ("addressID", .num (.fin 7)), ("items", .arr workedItems)])
    workedWorld ⟨.null⟩
    (by
      intro k hk
      have hk2 : (k == "userID") = false := by simpa using hk
      simp only [JSVal.get, List.lookup, hk2])).1

/-! ## The calls of a run and the releases among them -/

theorem releaseCount_append (a b : List Op) :
    releaseCount (a ++ b) = releaseCount a + releaseCount b := by
  simp [releaseCount]

theorem getConnection_log (w : World) : w.getConnection.2.log = w.log ++ [.getConnection] := by
  unfold World.getConnection; split <;> rfl

theorem selectAddress_log (w : World) (a u : JSVal) :
    (w.selectAddress a u).2.log = w.log ++ [.selectAddress a u] := by
  unfold World.selectAddress; split <;> rfl

theorem beginTransaction_log (w : World) :
    w.beginTransaction.2.log = w.log ++ [.beginTransaction] := by
  unfold World.beginTransaction; split <;> rfl

theorem insertOrder_log (w : World) (u a p : JSVal) (total : JSNum) (t : JSVal) :
    (w.insertOrder u a p total t).2.log = w.log ++ [.insertOrder u a p total t] := by
  unfold World.insertOrder; simp only; split <;> rfl

theorem insertItem_log (w : World) (oid : Nat) (it : Line) :
    (w.insertItem oid it).2.log = w.log ++ [.insertItem oid it] := by
  unfold World.insertItem; simp only; split <;> rfl

theorem commit_log (w : World) : w.commit.2.log = w.log ++ [.commit] := by
  unfold World.commit; split <;> rfl

theorem rollback_log (w : World) : w.rollback.2.log = w.log ++ [.rollback] := by
  unfold World.rollback; split <;> rfl

theorem selectOrders_log (w : World) (u : JSVal) :
    (w.selectOrders u).2.log = w.log ++ [.selectOrders u] := by
  unfold World.selectOrders; split <;> rfl

theorem selectItems_log (w : World) (ids : List Nat) :
    (w.selectItems ids).2.log = w.log ++ [.selectItems ids] := by
  unfold World.selectItems; split <;> rfl

/-- The item loop calls nothing but `insertItem`. -/
theorem insertItems_log (oid : Nat) (lines : List Line) (w : World) :
    ∃ ops, (insertItems oid lines w).2.log = w.log ++ ops ∧ releaseCount ops = 0 := by
  induction lines generalizing w with
  | nil => exact ⟨[], by simp [insertItems], rfl⟩
  | cons it rest ih =>
    have l1 := insertItem_log w oid it
    cases h1 : w.insertItem oid it with
    | mk r1 w1 =>
    rw [h1] at l1
    simp only at l1
    cases r1 with
    | error e => exact ⟨[.insertItem oid it], by simp [insertItems, h1, l1], rfl⟩
    | ok u1 =>
      cases u1
      obtain ⟨ops, hl, hc⟩ := ih w1
      refine ⟨Op.insertItem oid it :: ops, ?_, ?_⟩
      · simp [insertItems, h1, hl, l1]
      · simpa [releaseCount, Op.isRelease] using hc

/-- The calls of the `try` block of `placeOrder`: `release` is among them
once on the address-not-found path and not at all on every other path. -/
theorem placeOrderTry_log (u a p t : JSVal) (items : List JSVal) (w : World) :
    ∃ ops, (placeOrderTry u a p t items w).2.log = w.log ++ ops ∧
      releaseCount ops =
        (match (placeOrderTry u a p t items w).1 with
          | .ok r => if r.status = 404 then 1 else 0
          | .error _ => 0) := by
  unfold placeOrderTry
  have l1 := selectAddress_log w a u
  cases h1 : w.selectAddress a u with
  | mk r1 w1 =>
  rw [h1] at l1
  simp only at l1
  cases r1 with
  | error e => exact ⟨[.selectAddress a u], l1, rfl⟩
  | ok rows =>
    simp only
    by_cases hlen : rows.length = 0
    · rw [if_pos hlen]
      exact ⟨[.selectAddress a u, .release], by simp [World.release, World.record, l1], rfl⟩
    · rw [if_neg hlen]
      cases hc : computeTotal items with
      | error e => exact ⟨[.selectAddress a u], l1, rfl⟩
      | ok r =>
        obtain ⟨lines, total⟩ := r
        simp only
        have l2 := beginTransaction_log w1
        cases h2 : w1.beginTransaction with
        | mk r2 w2 =>
        rw [h2] at l2
        simp only at l2
        cases r2 with
        | error e =>
          exact ⟨[.selectAddress a u, .beginTransaction], by simp [l2, l1], rfl⟩
        | ok u2 =>
          cases u2
          simp only
          have l3 := insertOrder_log w2 u a p total t
          cases h3 : w2.insertOrder u a p total t with
          | mk r3 w3 =>
          rw [h3] at l3
          simp only at l3
          cases r3 with
          | error e =>
            exact ⟨[.selectAddress a u, .beginTransaction, .insertOrder u a p total t],
              by simp [l3, l2, l1], rfl⟩
          | ok oid =>
            simp only
            obtain ⟨ops4, l4, c4⟩ := insertItems_log oid lines w3
            cases h4 : insertItems oid lines w3 with
            | mk r4 w4 =>
            rw [h4] at l4
            simp only at l4
            cases r4 with
            | error e =>
              refine ⟨.selectAddress a u :: .beginTransaction :: .insertOrder u a p total t :: ops4,
                by simp [l4, l3, l2, l1], ?_⟩
              simpa [releaseCount, Op.isRelease] using c4
            | ok u4 =>
              cases u4
              simp only
              have l5 := commit_log w4
              cases h5 : w4.commit with
              | mk r5 w5 =>
              rw [h5] at l5
              simp only at l5
              cases r5 with
              | error e =>
                refine ⟨.selectAddress a u :: .beginTransaction :: .insertOrder u a p total t ::
                  (ops4 ++ [.commit]), by simp [l5, l4, l3, l2, l1], ?_⟩
                simpa [releaseCount, Op.isRelease] using c4
              | ok u5 =>
                cases u5
                refine ⟨.selectAddress a u :: .beginTransaction :: .insertOrder u a p total t ::
                  (ops4 ++ [.commit]), by simp [l5, l4, l3, l2, l1], ?_⟩
                simpa [releaseCount, Op.isRelease] using c4

/-- The calls of a run of `placeOrder` that obtains a connection:
`getConnection`, the calls of the `try` and `catch` blocks, and the `release`
of the `finally` block. Among the calls in between `release` occurs once when
the response is `404` and not at all otherwise. -/
theorem placeOrder_valid_log (req : Request) (w : World)
    (addressID paymentID trackingNumber itemsV : JSVal) (items : List JSVal)
    (h1 : req.body.get "addressID" = .ok addressID)
    (h2 : req.body.get "paymentID" = .ok paymentID)
    (h3 : req.body.get "trackingNumber" = .ok trackingNumber)
    (h4 : req.body.get "items" = .ok itemsV)
    (hu : req.userID.truthy = true) (ha : addressID.truthy = true)
    (hi : nonEmptyArray itemsV = some items)
    (hf : w.faults w.log.length = false) :
    ∃ ops, (placeOrder req w).2.log = w.log ++ .getConnection :: (ops ++ [.release]) ∧
      releaseCount ops =
        if (placeOrder req w).1.map Response.status = some 404 then 1 else 0 := by
  rw [placeOrder_valid req w addressID paymentID trackingNumber itemsV items h1 h2 h3 h4 hu ha hi]
  simp only [World.getConnection, World.failsNext, hf, Bool.false_eq_true, if_false]
  generalize hw1 : ({ w.record .getConnection with saved := none } : World) = w1
  have lw1 : w1.log = w.log ++ [.getConnection] := by rw [← hw1]; rfl
  obtain ⟨ops, hl, hc⟩ := placeOrderTry_log req.userID addressID
    (withDefault paymentID .null) (withDefault trackingNumber .null) items w1
  cases hT : placeOrderTry req.userID addressID (withDefault paymentID .null)
    (withDefault trackingNumber .null) items w1 with
  | mk r w2 =>
  rw [hT] at hl hc
  simp only at hl hc
  cases r with
  | ok response =>
    simp only at hc ⊢
    refine ⟨ops, by simp [World.release, World.record, hl, lw1], ?_⟩
    rw [hc]
    simp
  | error e =>
    simp only at hc ⊢
    have hr : releaseCount [Op.rollback] = 0 := rfl
    by_cases hf2 : w2.faults w2.log.length = true
    · simp only [World.rollback, World.failsNext, hf2, if_true]
      refine ⟨ops ++ [.rollback], by simp [World.release, World.record, hl, lw1], ?_⟩
      simp [releaseCount_append, hc, hr]
    · simp only [Bool.not_eq_true] at hf2
      simp only [World.rollback, World.failsNext, hf2, Bool.false_eq_true, if_false]
      refine ⟨ops ++ [.rollback], by simp [World.release, World.record, hl, lw1], ?_⟩
      simp [releaseCount_append, hc, hr]

/-- The calls of a run of `getOrdersForUser` that obtains a connection. Among
the calls before the `release` of the `finally` block `release` occurs once
when the order query completes and finds no order, and not at all
otherwise. -/
theorem getOrdersForUser_log (userID : String) (w : World)
    (hf : w.faults w.log.length = false) :
    ∃ ops, (getOrdersForUser userID w).2.log = w.log ++ .getConnection :: (ops ++ [.release]) ∧
      ((w.faults (w.log.length + 1) = false ∧
          (w.tables.orders.filter fun r => World.sqlEq r.userID (.str userID)).length = 0) →
        releaseCount ops = 1) ∧
      (¬ (w.faults (w.log.length + 1) = false ∧
          (w.tables.orders.filter fun r => World.sqlEq r.userID (.str userID)).length = 0) →
        releaseCount ops = 0) := by
  unfold getOrdersForUser getOrdersTry
  simp only [World.getConnection, World.failsNext, hf, Bool.false_eq_true, if_false]
  by_cases hq : w.faults (w.log.length + 1) = true
  · simp only [World.selectOrders, World.failsNext, World.record, List.length_append,
      List.length_singleton, hq, if_true]
    refine ⟨[.selectOrders (.str userID)], by simp [World.release, World.record], ?_, ?_⟩
    · rintro ⟨h, -⟩; cases h
    · intro _; rfl
  · simp only [Bool.not_eq_true] at hq
    simp only [World.selectOrders, World.failsNext, World.record, List.length_append,
      List.length_singleton, hq, Bool.false_eq_true, if_false,
      sortNewestFirst_length]
    by_cases hlen : (w.tables.orders.filter fun r => World.sqlEq r.userID (.str userID)).length = 0
    · rw [if_pos hlen]
      refine ⟨[.selectOrders (.str userID), .release], by simp [World.release, World.record],
        ?_, ?_⟩
      · intro _; rfl
      · intro h; exact absurd ⟨trivial, hlen⟩ h
    · rw [if_neg hlen]
      refine ⟨[.selectOrders (.str userID), .selectItems
          ((World.sortNewestFirst (w.tables.orders.filter fun r =>
            World.sqlEq r.userID (.str userID))).map fun o => o.orderID)], ?_, ?_, ?_⟩
      · by_cases hq2 : w.faults (w.log.length + 1 + 1) = true
        · simp [World.selectItems, World.failsNext, World.record, hq2, World.release]
        · simp only [Bool.not_eq_true] at hq2
          simp [World.selectItems, World.failsNext, World.record, hq2, World.release]
      · rintro ⟨-, h⟩; exact absurd h hlen
      · intro _; rfl

/-- C21: a run of `placeOrder` that obtains a connection: the request passes
the three checks and `getConnection` succeeds. Whatever happens afterwards
(commit, no address found, a store call or `rollback` that fails, an
exception while the lines are normalised), the last call of the run is
`conn.release()`. -/
theorem placeOrder_releases (req : Request) (w : World)
    (addressID paymentID trackingNumber itemsV : JSVal) (items : List JSVal)
    (h1 : req.body.get "addressID" = .ok addressID)
    (h2 : req.body.get "paymentID" = .ok paymentID)
    (h3 : req.body.get "trackingNumber" = .ok trackingNumber)
    (h4 : req.body.get "items" = .ok itemsV)
    (hu : req.userID.truthy = true) (ha : addressID.truthy = true)
    (hi : nonEmptyArray itemsV = some items)
    (hconn : w.faults w.log.length = false) :
    ∃ ops, (placeOrder req w).2.log = w.log ++ .getConnection :: (ops ++ [.release]) := by
  obtain ⟨ops, hl, -⟩ := placeOrder_valid_log req w addressID paymentID trackingNumber itemsV
    items h1 h2 h3 h4 hu ha hi hconn
  exact ⟨ops, hl⟩

theorem placeOrder_releases_witness :
    ∃ ops, (placeOrder sampleRequest (sampleWorld fun n => decide (n = 3))).2.log =
      (sampleWorld fun n => decide (n = 3)).log ++ .getConnection :: (ops ++ [.release]) :=
  placeOrder_releases sampleRequest (sampleWorld fun n => decide (n = 3))
    (.num (.fin 7)) .undefined .undefined
    (.arr [.obj [("price", .num (.fin (5 / 2))), ("quantity", .num (.fin 3))]])
    [.obj [("price", .num (.fin (5 / 2))), ("quantity", .num (.fin 3))]]
    (by simp [sampleRequest, JSVal.get, List.lookup])
    (by simp [sampleRequest, JSVal.get, List.lookup])
    (by simp [sampleRequest, JSVal.get, List.lookup])
    (by simp [sampleRequest, JSVal.get, List.lookup])
    (by simp [sampleRequest, JSVal.truthy])
    (by simp [JSVal.truthy, JSNum.truthy])
    (by simp [nonEmptyArray])
    (by simp [sampleWorld])

/-- C28: the number of calls of `conn.release()` in a run that obtains a
connection. In `placeOrder` it is two when the response is `404`, which only
the address-not-found branch sends, and one on every other path. In
`getOrdersForUser` it is two when the order query completes and finds no
order, and one on every other path. -/
theorem release_count_per_path (req : Request) (userID : String) (w : World)
    (addressID paymentID trackingNumber itemsV : JSVal) (items : List JSVal)
    (h1 : req.body.get "addressID" = .ok addressID)
    (h2 : req.body.get "paymentID" = .ok paymentID)
    (h3 : req.body.get "trackingNumber" = .ok trackingNumber)
    (h4 : req.body.get "items" = .ok itemsV)
    (hu : req.userID.truthy = true) (ha : addressID.truthy = true)
    (hi : nonEmptyArray itemsV = some items)
    (hconn : w.faults w.log.length = false) :
    (∃ ops, (placeOrder req w).2.log = w.log ++ .getConnection :: ops ∧
      releaseCount ops =
        if (placeOrder req w).1.map Response.status = some 404 then 2 else 1) ∧
    (∃ ops, (getOrdersForUser userID w).2.log = w.log ++ .getConnection :: ops ∧
      ((w.faults (w.log.length + 1) = false ∧
          (w.tables.orders.filter fun r => World.sqlEq r.userID (.str userID)).length = 0) →
        releaseCount ops = 2) ∧
      (¬ (w.faults (w.log.length + 1) = false ∧
          (w.tables.orders.filter fun r => World.sqlEq r.userID (.str userID)).length = 0) →
        releaseCount ops = 1)) := by
  have hr : releaseCount [Op.release] = 1 := rfl
  constructor
  · obtain ⟨ops, hl, hc⟩ := placeOrder_valid_log req w addressID paymentID trackingNumber itemsV
      items h1 h2 h3 h4 hu ha hi hconn
    refine ⟨ops ++ [.release], hl, ?_⟩
    rw [releaseCount_append, hc, hr]
    split <;> rfl
  · obtain ⟨ops, hl, hc1, hc0⟩ := getOrdersForUser_log userID w hconn
    refine ⟨ops ++ [.release], hl, ?_, ?_⟩
    · intro h; rw [releaseCount_append, hc1 h, hr]
    · intro h; rw [releaseCount_append, hc0 h, hr]

theorem release_count_per_path_witness :
    (∃ ops, (placeOrder strangerRequest (sampleWorld fun _ => false)).2.log =
        (sampleWorld fun _ => false).log ++ .getConnection :: ops ∧
      releaseCount ops =
        if (placeOrder strangerRequest (sampleWorld fun _ => false)).1.map Response.status
            = some 404 then 2 else 1) ∧
    (∃ ops, (getOrdersForUser "u1" (sampleWorld fun _ => false)).2.log =
        (sampleWorld fun _ => false).log ++ .getConnection :: ops ∧
      (((sampleWorld fun _ => false).faults ((sampleWorld fun _ => false).log.length + 1) = false ∧
          ((sampleWorld fun _ => false).tables.orders.filter
            fun r => World.sqlEq r.userID (.str "u1")).length = 0) →
        releaseCount ops = 2) ∧
      (¬ ((sampleWorld fun _ => false).faults ((sampleWorld fun _ => false).log.length + 1) = false ∧
          ((sampleWorld fun _ => false).tables.orders.filter
            fun r => World.sqlEq r.userID (.str "u1")).length = 0) →
        releaseCount ops = 1)) :=
  release_count_per_path strangerRequest "u1" (sampleWorld fun _ => false)
    (.num (.fin 7)) .undefined .undefined
    (.arr [.obj [("price", .num (.fin (5 / 2))), ("quantity", .num (.fin 3))]])
    [.obj [("price", .num (.fin (5 / 2))), ("quantity", .num (.fin 3))]]
    (by simp [strangerRequest, JSVal.get, List.lookup])
    (by simp [strangerRequest, JSVal.get, List.lookup])
    (by simp [strangerRequest, JSVal.get, List.lookup])
    (by simp [strangerRequest, JSVal.get, List.lookup])
    (by simp [strangerRequest, JSVal.truthy])
    (by simp [JSVal.truthy, JSNum.truthy])
    (by simp [nonEmptyArray])
    (by simp [sampleWorld])

/-! ## Snapshot pricing -/

theorem productIDOf_eq_spec (x : JSNum) : productIDOf x = specProductID x := by
  cases x with
  | fin q =>
    by_cases hq : q = 0
    · simp [productIDOf, specProductID, JSNum.truthy, hq]
    · simp [productIDOf, specProductID, JSNum.truthy, hq]
  | _ => rfl

theorem specSnapshot_of_normalizeLine (it : JSVal) (line : Line) (lt : JSNum)
    (h : normalizeLine it = .ok (line, lt)) :
    specSnapshot it = .ok (line.productID, line.name, line.price) ∧
    ∃ p nm d dn, it.get "price" = .ok p ∧ toMoney p = .ok line.price ∧
      it.get "name" = .ok nm ∧ line.name = specItemName nm ∧
      it.get "productID" = .ok d ∧ toNumber d = .ok dn ∧
      line.productID = specProductID dn := by
  obtain ⟨p, q, d, nm, pn, qn, dn, g1, -, g3, g4, g5, -, g7, rfl, -⟩ :=
    normalizeLine_inv it line lt h
  refine ⟨?_, p, nm, d, dn, g1, ?_, g4, rfl, g3, g7, productIDOf_eq_spec dn⟩
  · simp [specSnapshot, g1, g3, g4, g5, g7, bind, Except.bind, toMoney, Except.map, pure,
      Except.pure, productIDOf_eq_spec, specItemName, JSVal.orElse]
  · simp [toMoney, g5, Except.map]

theorem itemRows_snapshot (items : List JSVal) (lines : List Line)
    (h : List.Forall₂ (fun it l => ∃ lt, normalizeLine it = .ok (l, lt)) items lines)
    (oid id : Nat) :
    List.Forall₂ (fun (it : JSVal) (r : OrderItemRow) =>
      specSnapshot it = .ok (r.productID, r.name, r.price) ∧
      ∃ p nm d dn, it.get "price" = .ok p ∧ toMoney p = .ok r.price ∧
        it.get "name" = .ok nm ∧ r.name = specItemName nm ∧
        it.get "productID" = .ok d ∧ toNumber d = .ok dn ∧
        r.productID = specProductID dn) items (itemRows oid id lines) := by
  induction h generalizing id with
  | nil => exact List.Forall₂.nil
  | cons hl _ ih =>
    obtain ⟨lt, hlt⟩ := hl
    exact List.Forall₂.cons (specSnapshot_of_normalizeLine _ _ lt hlt) (ih (id + 1))

theorem nonEmptyArray_eq_some (v : JSVal) (items : List JSVal)
    (h : nonEmptyArray v = some items) : v = .arr items := by
  cases v with
  | arr xs =>
    cases xs with
    | nil => simp [nonEmptyArray] at h
    | cons x xs => simp only [nonEmptyArray, Option.some.injEq] at h; rw [h]
  | _ => simp [nonEmptyArray] at h

/-- C22: a run of `placeOrder` that answers `201`. The rows it has added to
`order_items` correspond one to one, in order, to the lines of the request,
and in each row the price is `toMoney` of the line's price, the name is the
line's name, or `"Item"` when that is empty or missing, and the `productID`
is `Number(productID)` when that is a number other than zero and `null`
otherwise. These values are computed from the request line alone: the
function `specSnapshot` that gives them does not read the store. -/
theorem snapshot_pricing (req : Request) (w : World) (resp : Response)
    (h : (placeOrder req w).1 = some resp) (h201 : resp.status = 201) :
    ∃ items rows,
      req.body.get "items" = .ok (.arr items) ∧
      (placeOrder req w).2.tables.orderItems = w.tables.orderItems ++ rows ∧
      List.Forall₂ (fun (it : JSVal) (r : OrderItemRow) =>
        specSnapshot it = .ok (r.productID, r.name, r.price) ∧
        ∃ p nm d dn, it.get "price" = .ok p ∧ toMoney p = .ok r.price ∧
          it.get "name" = .ok nm ∧ r.name = specItemName nm ∧
          it.get "productID" = .ok d ∧ toNumber d = .ok dn ∧
          r.productID = specProductID dn) items rows ∧
      specItemName .undefined = .str "Item" ∧ specItemName (.str "") = .str "Item" ∧
      (∀ s : String, s ≠ "" → specItemName (.str s) = .str s) := by
  obtain ⟨addressID, paymentID, trackingNumber, itemsV, items, lines, total, -, -, -, h4, -, -,
    hi, hc, -, -, hitems, -⟩ := placeOrder_201_inv req w resp h h201
  have hv := nonEmptyArray_eq_some itemsV items hi
  subst hv
  have hall := computeTotal_forall₂ items lines total hc
  refine ⟨items, itemRows w.nextOrderID w.nextItemID lines, h4, hitems,
    itemRows_snapshot items lines hall _ _, ?_, ?_, ?_⟩
  · simp [specItemName, JSVal.truthy]
  · simp [specItemName, JSVal.truthy]
  · intro s hs
    simp [specItemName, JSVal.truthy, hs]

theorem snapshot_pricing_witness :
    ∃ items rows,
      workedRequest.body.get "items" = .ok (.arr items) ∧
      (placeOrder workedRequest (sampleWorld fun _ => false)).2.tables.orderItems
        = (sampleWorld fun _ => false).tables.orderItems ++ rows ∧
      List.Forall₂ (fun (it : JSVal) (r : OrderItemRow) =>
        specSnapshot it = .ok (r.productID, r.name, r.price) ∧
        ∃ p nm d dn, it.get "price" = .ok p ∧ toMoney p = .ok r.price ∧
          it.get "name" = .ok nm ∧ r.name = specItemName nm ∧
          it.get "productID" = .ok d ∧ toNumber d = .ok dn ∧
          r.productID = specProductID dn) items rows ∧
      specItemName .undefined = .str "Item" ∧ specItemName (.str "") = .str "Item" ∧
      (∀ s : String, s ≠ "" → specItemName (.str s) = .str s) :=
  snapshot_pricing workedRequest (sampleWorld fun _ => false)
    ⟨201, .placed "Order placed successfully" 1 (.fin 69.98)⟩
    (by rw [placeOrder_worked]) rfl

/-! ## The frame of `POST /api/addresses` -/

/-- What the `try` block of the address handler leaves: the address rows as
they were, or cleared for the caller when `Number(is_primary)` is `1`,
followed by at most one new row; the other tables as they were. -/
theorem addAddressTry_tables (u : JSVal) (f : AddressFields) (w1 : World) :
    ∃ kept added,
      (addAddressTry u f w1).2.tables = { w1.tables with addresses := kept ++ added } ∧
      added.length ≤ 1 ∧
      (kept = w1.tables.addresses ∨
        (toNumber f.isPrimary = .ok (.fin 1) ∧
          kept = w1.tables.addresses.map fun r =>
            if World.sqlEq r.userID u then { r with isPrimary := 0 } else r)) ∧
      (((addAddressTry u f w1).2.saved = w1.saved ∧ added = [] ∧
          kept = w1.tables.addresses) ∨
        (addAddressTry u f w1).2.saved = some w1.tables ∨
        (addAddressTry u f w1).2.saved = none) := by
  obtain ⟨newRow, hrow⟩ : ∃ row : AddressRow, row =
      { addressID := w1.nextAddressID, userID := u, fullName := f.fullName,
        country := f.country, address := f.address, unit := f.unit, city := f.city,
        state := f.state, zipCode := f.zipCode, phoneNum := f.phoneNum,
        isPrimary := if f.isPrimary.truthy then 1 else 0, createdAt := w1.now } := ⟨_, rfl⟩
  unfold addAddressTry
  by_cases hb : w1.faults w1.log.length = true
  · refine ⟨w1.tables.addresses, [], ?_, by simp, Or.inl rfl, Or.inl ?_⟩
    · simp [World.beginTransaction, World.failsNext, hb, World.record]
    · simp [World.beginTransaction, World.failsNext, hb, World.record]
  simp only [Bool.not_eq_true] at hb
  simp only [World.beginTransaction, World.failsNext, hb, Bool.false_eq_true, if_false]
  cases hn : toNumber f.isPrimary with
  | error e =>
    exact ⟨w1.tables.addresses, [], by simp [World.record], by simp, Or.inl rfl,
      Or.inr (Or.inl rfl)⟩
  | ok n =>
    simp only
    by_cases h1 : n = .fin 1
    · subst h1
      simp only [if_true]
      by_cases hc : w1.faults (w1.log.length + 1) = true
      · refine ⟨w1.tables.addresses, [], ?_, by simp, Or.inl rfl, Or.inr (Or.inl ?_)⟩
        · simp [World.clearPrimary, World.failsNext, hc, World.record]
        · simp [World.clearPrimary, World.failsNext, hc, World.record]
      simp only [Bool.not_eq_true] at hc
      simp only [World.clearPrimary, World.failsNext, World.record, List.length_append,
        List.length_singleton, hc, Bool.false_eq_true, if_false]
      by_cases hi : w1.faults (w1.log.length + 1 + 1) = true
      · refine ⟨_, [], ?_, by simp, Or.inr ⟨trivial, rfl⟩, Or.inr (Or.inl ?_)⟩
        · simp [World.insertAddress, World.failsNext, hi, World.record]
        · simp [World.insertAddress, World.failsNext, hi, World.record]
      simp only [Bool.not_eq_true] at hi
      simp only [World.insertAddress, World.failsNext, World.record, List.length_append,
        List.length_singleton, hi, Bool.false_eq_true, if_false]
      by_cases hm : w1.faults (w1.log.length + 1 + 1 + 1) = true
      · refine ⟨_, [newRow], ?_, by simp, Or.inr ⟨trivial, rfl⟩, Or.inr (Or.inl ?_)⟩
        · simp [World.commit, World.failsNext, hm, World.record, hrow]
        · simp [World.commit, World.failsNext, hm, World.record, hrow]
      · simp only [Bool.not_eq_true] at hm
        refine ⟨_, [newRow], ?_, by simp, Or.inr ⟨trivial, rfl⟩, Or.inr (Or.inr ?_)⟩
        · simp [World.commit, World.failsNext, hm, World.record, hrow]
        · simp [World.commit, World.failsNext, hm, World.record, hrow]
    · simp only [h1, if_false]
      by_cases hi : w1.faults (w1.log.length + 1) = true
      · refine ⟨w1.tables.addresses, [], ?_, by simp, Or.inl rfl, Or.inr (Or.inl ?_)⟩
        · simp [World.insertAddress, World.failsNext, hi, World.record]
        · simp [World.insertAddress, World.failsNext, hi, World.record]
      simp only [Bool.not_eq_true] at hi
      simp only [World.insertAddress, World.failsNext, World.record, List.length_append,
        List.length_singleton, hi, Bool.false_eq_true, if_false]
      by_cases hm : w1.faults (w1.log.length + 1 + 1) = true
      · refine ⟨w1.tables.addresses, [newRow], ?_, by simp, Or.inl rfl, Or.inr (Or.inl ?_)⟩
        · simp [World.commit, World.failsNext, hm, World.record, hrow]
        · simp [World.commit, World.failsNext, hm, World.record, hrow]
      · simp only [Bool.not_eq_true] at hm
        refine ⟨w1.tables.addresses, [newRow], ?_, by simp, Or.inl rfl, Or.inr (Or.inr ?_)⟩
        · simp [World.commit, World.failsNext, hm, World.record, hrow]
        · simp [World.commit, World.failsNext, hm, World.record, hrow]

theorem frame_rows (u : JSVal) (c : Prop) (old kept : List AddressRow)
    (hk : kept = old ∨
      (c ∧ kept = old.map fun r =>
        if World.sqlEq r.userID u then { r with isPrimary := 0 } else r)) :
    List.Forall₂ (fun (o n : AddressRow) =>
      (World.sqlEq o.userID u = false → n = o) ∧ (¬ c → n = o)) old kept := by
  rcases hk with rfl | ⟨hc, rfl⟩
  · induction kept with
    | nil => exact List.Forall₂.nil
    | cons r rest ih => exact List.Forall₂.cons ⟨fun _ => rfl, fun _ => rfl⟩ ih
  · induction old with
    | nil => exact List.Forall₂.nil
    | cons r rest ih =>
      refine List.Forall₂.cons ⟨?_, fun h => absurd hc h⟩ ih
      intro hne
      simp [hne]

/-- C25: an accepted request of the user `U` to `POST /api/addresses`, from
any state and with any of its calls failing. The handler leaves the address
table as the rows it had, in their order, followed by at most one new row;
every row that the clause `WHERE userID = U` does not select is as it was, and
when `Number(is_primary)` is not `1` every row is as it was. The tables
`orders` and `order_items` are as they were. -/
theorem addAddress_frame (req : Request) (w : World) (f : AddressFields)
    (hf : addressFields req.body = .ok f) (hacc : addressAccepted req.userID f = true) :
    ∃ kept added,
      (addAddress req w).2.tables = { w.tables with addresses := kept ++ added } ∧
      added.length ≤ 1 ∧
      List.Forall₂ (fun (old new : AddressRow) =>
        (World.sqlEq old.userID req.userID = false → new = old) ∧
        (¬ toNumber f.isPrimary = .ok (.fin 1) → new = old)) w.tables.addresses kept := by
  rw [addAddress_accepted req w f hf hacc]
  by_cases hg : w.faults w.log.length = true
  · refine ⟨w.tables.addresses, [], ?_, by simp, frame_rows _ _ _ _ (Or.inl rfl)⟩
    simp [World.getConnection, World.failsNext, hg, World.record]
  simp only [Bool.not_eq_true] at hg
  simp only [World.getConnection, World.failsNext, hg, Bool.false_eq_true, if_false]
  generalize hw1 : ({ w.record .getConnection with saved := none } : World) = w1
  have ht1 : w1.tables = w.tables := by rw [← hw1]; rfl
  have hs1 : w1.saved = none := by rw [← hw1]
  obtain ⟨kept, added, ht, hlen, hk, hs⟩ := addAddressTry_tables req.userID f w1
  rw [ht1] at ht hk hs
  cases hT : addAddressTry req.userID f w1 with
  | mk r w2 =>
  rw [hT] at ht hs
  simp only at ht hs
  cases r with
  | ok response =>
    exact ⟨kept, added, by simp [World.release, World.record, ht], hlen, frame_rows _ _ _ _ hk⟩
  | error e =>
    simp only
    by_cases hr : w2.faults w2.log.length = true
    · simp only [World.rollback, World.failsNext, hr, if_true]
      exact ⟨kept, added, by simp [World.release, World.record, ht], hlen,
        frame_rows _ _ _ _ hk⟩
    · simp only [Bool.not_eq_true] at hr
      simp only [World.rollback, World.failsNext, hr, Bool.false_eq_true, if_false]
      rcases hs with ⟨hsv, hadd, hkept⟩ | hsv | hsv
      · refine ⟨w.tables.addresses, [], ?_, by simp, frame_rows _ _ _ _ (Or.inl rfl)⟩
        rw [hs1] at hsv
        subst hadd; subst hkept
        simp [World.release, World.record, World.committed, hsv, ht]
      · refine ⟨w.tables.addresses, [], ?_, by simp, frame_rows _ _ _ _ (Or.inl rfl)⟩
        simp [World.release, World.record, World.committed, hsv]
      · refine ⟨kept, added, ?_, hlen, frame_rows _ _ _ _ hk⟩
        simp [World.release, World.record, World.committed, hsv, ht]

theorem addAddress_frame_witness :
    ∃ kept added,
      (addAddress ⟨.str "u2", addressBody (.num (.fin 1))⟩ (sampleWorld fun _ => false)).2.tables
        = { (sampleWorld fun _ => false).tables with addresses := kept ++ added } ∧
      added.length ≤ 1 ∧
      List.Forall₂ (fun (old new : AddressRow) =>
        (World.sqlEq old.userID (.str "u2") = false → new = old) ∧
        (¬ toNumber (addressBodyFields (.num (.fin 1))).isPrimary = .ok (.fin 1) → new = old))
        (sampleWorld fun _ => false).tables.addresses kept :=
  addAddress_frame ⟨.str "u2", addressBody (.num (.fin 1))⟩ (sampleWorld fun _ => false)
    (addressBodyFields (.num (.fin 1))) (addressFields_one) (by
      simp [addressAccepted, addressBodyFields, JSVal.truthy])

/-! ## The page `Checkout`: the address selected at first -/

theorem findPrimary_objects (xs : List JSVal)
    (h : ∀ a ∈ xs, ∃ kvs, a = .obj kvs) :
    Checkout.findPrimary xs =
      .ok ((xs.find? fun a => Checkout.strictEqOne (a.optGet "is_primary")).getD .undefined) := by
  induction xs with
  | nil => rfl
  | cons a rest ih =>
    obtain ⟨kvs, rfl⟩ := h a (List.mem_cons_self _ _)
    have ih := ih (fun b hb => h b (List.mem_cons_of_mem _ hb))
    by_cases hp : Checkout.strictEqOne ((kvs.lookup "is_primary").getD .undefined) = true
    · simp [Checkout.findPrimary, JSVal.get, JSVal.optGet, hp]
    · simp only [Bool.not_eq_true] at hp
      simp [Checkout.findPrimary, JSVal.get, JSVal.optGet, hp, ih]

/-- C23: the address list that `Checkout` loads, an array of address objects
each with an `addressID` that is neither `null` nor `undefined`. The page
selects the `addressID` of the first address with `is_primary === 1` when
there is one, otherwise the `addressID` of the first address, otherwise
`null`; and with `null` selected the page sends no order request. -/
theorem checkout_default_address (xs : List JSVal)
    (hrows : ∀ a ∈ xs, ∃ kvs v, a = .obj kvs ∧ kvs.lookup "addressID" = some v ∧
      v ≠ .null ∧ v ≠ .undefined) :
    Checkout.initialSelection (.arr xs) =
      (match xs.find? fun a => Checkout.strictEqOne (a.optGet "is_primary") with
        | some a => a.optGet "addressID"
        | none =>
          match xs.head? with
          | some a => a.optGet "addressID"
          | none => .null) ∧
    Checkout.orderBlocked .null = true := by
  refine ⟨?_, rfl⟩
  have hobj : ∀ a ∈ xs, ∃ kvs, a = .obj kvs := by
    intro a ha
    obtain ⟨kvs, v, h1, -⟩ := hrows a ha
    exact ⟨kvs, h1⟩
  have hid : ∀ a ∈ xs, ∀ d, (a.optGet "addressID").nullish d = a.optGet "addressID" := by
    intro a ha d
    obtain ⟨kvs, v, rfl, h2, h3, h4⟩ := hrows a ha
    simp only [JSVal.optGet, h2, Option.getD_some]
    cases v <;> first | rfl | exact absurd rfl h3 | exact absurd rfl h4
  simp only [Checkout.initialSelection, Checkout.orEmptyArray, findPrimary_objects xs hobj]
  cases hf : xs.find? fun a => Checkout.strictEqOne (a.optGet "is_primary") with
  | some a =>
    simp only [Option.getD_some]
    exact hid a (List.mem_of_find?_eq_some hf) _
  | none =>
    simp only [Option.getD_none]
    cases xs with
    | nil => rfl
    | cons x rest =>
      simp only [List.head?_cons, Checkout.firstOf]
      rw [hid x (List.mem_cons_self _ _)]
      rfl

theorem checkout_default_address_witness :
    Checkout.initialSelection (.arr
      [.obj [("addressID", .num (.fin 9)), ("is_primary", .num (.fin 0))],
       .obj [("addressID", .num (.fin 7)), ("is_primary", .num (.fin 1))]]) =
      (match [JSVal.obj [("addressID", .num (.fin 9)), ("is_primary", .num (.fin 0))],
          JSVal.obj [("addressID", .num (.fin 7)), ("is_primary", .num (.fin 1))]].find?
          fun a => Checkout.strictEqOne (a.optGet "is_primary") with
        | some a => a.optGet "addressID"
        | none =>
          match [JSVal.obj [("addressID", .num (.fin 9)), ("is_primary", .num (.fin 0))],
            JSVal.obj [("addressID", .num (.fin 7)), ("is_primary", .num (.fin 1))]].head? with
          | some a => a.optGet "addressID"
          | none => .null) ∧
    Checkout.orderBlocked .null = true :=
  checkout_default_address
    [.obj [("addressID", .num (.fin 9)), ("is_primary", .num (.fin 0))],
     .obj [("addressID", .num (.fin 7)), ("is_primary", .num (.fin 1))]]
    (by
      intro a ha
      simp only [List.mem_cons, List.mem_singleton, List.not_mem_nil, or_false] at ha
      rcases ha with rfl | rfl
      · exact ⟨_, .num (.fin 9), rfl, by simp [List.lookup], by simp, by simp⟩
      · exact ⟨_, .num (.fin 7), rfl, by simp [List.lookup], by simp, by simp⟩)

/-! ## The page `Checkout`: the subtotal and the server's total -/

theorem orElse_zero_fin (p : ℚ) : (JSNum.fin p).orElse .zero = .fin p := by
  by_cases hp : p = 0
  · subst hp; simp [JSNum.orElse, JSNum.truthy, JSNum.zero]
  · simp [JSNum.orElse, JSNum.truthy, hp]

theorem orElse_one_fin (q : ℚ) (hq : q ≠ 0) : (JSNum.fin q).orElse .one = .fin q := by
  simp [JSNum.orElse, JSNum.truthy, hq]

theorem qtyOf_pos_int (m : ℤ) (hm : 0 < m) : qtyOf (.fin (m : ℚ)) = .fin (m : ℚ) := by
  have h1 : (1 : ℚ) ≤ (m : ℚ) := by exact_mod_cast hm
  have h0 : (m : ℚ) ≠ 0 := by linarith
  rw [qtyOf, orElse_one_fin _ h0]
  simp [JSNum.max, JSNum.one, h1]

theorem get_ok_optGet (it : JSVal) (k : String) (v : JSVal) (h : it.get k = .ok v)
    (k2 : String) : it.get k2 = .ok (it.optGet k2) := by
  cases it <;> simp [JSVal.get] at h ⊢ <;> rfl

/-- One cart item of the class: the step of the page's sum, the payload
element, and the server's line for it. -/
theorem wellPriced_line (it : JSVal) (h : Checkout.wellPriced it) :
    ∃ (n m : ℤ) (x : JSVal) (line : Line), 0 ≤ n ∧ 0 < m ∧
      (∀ a : ℚ, Checkout.subTotalStep (.fin a) it = .ok (.fin (a + (n : ℚ) / 100 * m))) ∧
      Checkout.payloadItem it = .ok x ∧
      normalizeLine x = .ok (line, .fin ((n : ℚ) / 100 * m)) := by
  obtain ⟨pv, qv, idv, pidv, n, m, dn, h1, h2, hn, h3, h4, hm, h5, h6, h7⟩ := h
  have hm0 : (m : ℚ) ≠ 0 := by
    have : (0 : ℚ) < (m : ℚ) := by exact_mod_cast hm
    linarith
  have hname := get_ok_optGet it "price" pv h1 "name"
  have hcents : JSNum.round2 ((n : ℚ) / 100 * m) = (n : ℚ) / 100 * m := by
    have e : (n : ℚ) / 100 * m = ((n * m : ℤ) : ℚ) / 100 := by push_cast; ring
    rw [e]; exact round2_of_cents (n * m)
  have hx : ∀ (nm : List (String × JSVal)), (nm = [] ∨ ∃ v, nm = [("name", v)]) →
      normalizeLine (.obj ([("productID", idv.nullish (pidv.nullish .null))] ++ nm ++
        [("price", .num (.fin ((n : ℚ) / 100))), ("quantity", .num (.fin (m : ℚ)))])) =
      .ok ({ productID := productIDOf dn,
             name := (((nm.lookup "name").getD .undefined)).orElse (.str "Item"),
             price := .fin ((n : ℚ) / 100), quantity := .fin (m : ℚ) },
           .fin ((n : ℚ) / 100 * m)) := by
    intro nm hnm
    have := normalizeLine_ok
      (.obj ([("productID", idv.nullish (pidv.nullish .null))] ++ nm ++
        [("price", .num (.fin ((n : ℚ) / 100))), ("quantity", .num (.fin (m : ℚ)))]))
      (.num (.fin ((n : ℚ) / 100))) (.num (.fin (m : ℚ)))
      (idv.nullish (pidv.nullish .null)) ((nm.lookup "name").getD .undefined)
      (.fin ((n : ℚ) / 100)) (.fin (m : ℚ)) dn
      (by rcases hnm with rfl | ⟨v, rfl⟩ <;> simp [JSVal.get, List.lookup])
      (by rcases hnm with rfl | ⟨v, rfl⟩ <;> simp [JSVal.get, List.lookup])
      (by rcases hnm with rfl | ⟨v, rfl⟩ <;> simp [JSVal.get, List.lookup])
      (by rcases hnm with rfl | ⟨v, rfl⟩ <;> simp [JSVal.get, List.lookup])
      rfl rfl h7
    rw [this]
    simp [toMoneyNum_fin, round2_of_cents, qtyOf_pos_int m hm, JSNum.mul, hcents]
  refine ⟨n, m,
    .obj ([("productID", idv.nullish (pidv.nullish .null))] ++
      (match it.optGet "name" with
        | .undefined => []
        | v => [("name", v)]) ++
      [("price", .num (.fin ((n : ℚ) / 100))), ("quantity", .num (.fin (m : ℚ)))]),
    { productID := productIDOf dn,
      name := ((((match it.optGet "name" with
        | .undefined => []
        | v => [("name", v)]) : List (String × JSVal)).lookup "name").getD
          .undefined).orElse (.str "Item"),
      price := .fin ((n : ℚ) / 100), quantity := .fin (m : ℚ) },
    hn, hm, ?_, ?_, ?_⟩
  · intro a
    simp [Checkout.subTotalStep, h1, h2, h3, h4, bind, Except.bind, pure, Except.pure,
      orElse_zero_fin, orElse_one_fin _ hm0, JSNum.add, JSNum.mul]
  · simp only [Checkout.payloadItem, h1, h2, h3, h4, h5, h6, hname, bind, Except.bind, pure,
      Except.pure, orElse_zero_fin, orElse_one_fin _ hm0, Checkout.jsonNumber]
  · exact hx _ (by cases it.optGet "name" <;> simp)

/-- The sum of the page and the loop of the server run in step over a cart
of the class. -/
theorem subTotalFrom_eq_normalizeAll (cart : List JSVal)
    (hcart : ∀ it ∈ cart, Checkout.wellPriced it) (k : ℤ) (hk : 0 ≤ k) :
    ∃ (j : ℤ) (items : List JSVal) (lines : List Line), k ≤ j ∧
      Checkout.subTotalFrom cart (.fin ((k : ℚ) / 100)) = .ok (.fin ((j : ℚ) / 100)) ∧
      Checkout.payloadItems cart = .ok items ∧
      normalizeAll items (.fin ((k : ℚ) / 100)) = .ok (lines, .fin ((j : ℚ) / 100)) := by
  induction cart generalizing k with
  | nil => exact ⟨k, [], [], le_refl _, rfl, rfl, rfl⟩
  | cons it rest ih =>
    obtain ⟨n, m, x, line, hn, hm, hstep, hpay, hline⟩ :=
      wellPriced_line it (hcart it (List.mem_cons_self _ _))
    have hnm : 0 ≤ n * m := mul_nonneg hn (le_of_lt hm)
    have e : (k : ℚ) / 100 + (n : ℚ) / 100 * m = ((k + n * m : ℤ) : ℚ) / 100 := by
      push_cast; ring
    obtain ⟨j, items, lines, hj, h1, h2, h3⟩ :=
      ih (fun b hb => hcart b (List.mem_cons_of_mem _ hb)) (k + n * m) (by omega)
    refine ⟨j, x :: items, line :: lines, by omega, ?_, ?_, ?_⟩
    · simp only [Checkout.subTotalFrom, hstep, e, h1]
    · simp only [Checkout.payloadItems, hpay, h2]
    · simp only [normalizeAll, hline, JSNum.add, e, h3]

theorem round2_lt_of_tax (s : ℚ) (hs : 5 / 100 ≤ s) : s < JSNum.round2 (s + s * 0.12) := by
  have h := round2_error (s + s * 0.12)
  rw [abs_le] at h
  have h12 : (0.12 : ℚ) = 12 / 100 := by norm_num
  rw [h12] at h ⊢
  linarith [h.1]

/-- C24: a cart in which every price converts to a number that is not below
zero and has at most two fraction digits and every quantity to a positive
integer. The subtotal of the page, which is also the figure it shows, is the
total that the server computes for the payload the page sends. The total of
the page is the subtotal plus 12% of it, and what it hands on as "Total paid"
is that total rounded to hundredths; the total is not the server's total when
the subtotal is above zero, and the rounded figure is not when the subtotal is
at least `0.05`. -/
theorem checkout_subtotal_eq_server_total (cart : List JSVal)
    (hcart : ∀ it ∈ cart, Checkout.wellPriced it) :
    ∃ (s : ℚ) (items : List JSVal) (lines : List Line),
      Checkout.subTotal cart = .ok (.fin s) ∧
      (JSNum.fin s).toFixed2 = .fin s ∧
      Checkout.payloadItems cart = .ok items ∧
      computeTotal items = .ok (lines, .fin s) ∧
      Checkout.total (.fin s) = .fin (s + s * 0.12) ∧
      Checkout.totalPaid (.fin s) = .fin (JSNum.round2 (s + s * 0.12)) ∧
      (0 < s → Checkout.total (.fin s) ≠ .fin s) ∧
      (5 / 100 ≤ s → Checkout.totalPaid (.fin s) ≠ .fin s) := by
  obtain ⟨j, items, lines, hj, h1, h2, h3⟩ := subTotalFrom_eq_normalizeAll cart hcart 0 le_rfl
  have e0 : ((0 : ℤ) : ℚ) / 100 = 0 := by norm_num
  rw [e0] at h1 h3
  have ht : Checkout.total (.fin ((j : ℚ) / 100)) = .fin ((j : ℚ) / 100 + (j : ℚ) / 100 * 0.12) := by
    simp [Checkout.total, Checkout.tax, Checkout.taxRate, JSNum.mul, JSNum.add]
  refine ⟨(j : ℚ) / 100, items, lines, h1, ?_, h2, ?_, ht, ?_, ?_, ?_⟩
  · simp [JSNum.toFixed2, round2_of_cents]
  · simp [computeTotal, show JSNum.zero = .fin 0 from rfl, h3, toMoneyNum_fin, round2_of_cents]
  · simp [Checkout.totalPaid, ht, JSNum.toFixed2]
  · intro hs
    rw [ht]
    intro heq
    have h12 : (0.12 : ℚ) = 12 / 100 := by norm_num
    simp only [JSNum.fin.injEq, h12] at heq
    linarith
  · intro hs
    simp only [Checkout.totalPaid, ht, JSNum.toFixed2]
    intro heq
    simp only [JSNum.fin.injEq] at heq
    have := round2_lt_of_tax _ hs
    linarith

theorem wellPriced_freeCart : ∀ it ∈ freeCart, Checkout.wellPriced it := by
  intro it hit
  simp only [freeCart, List.mem_singleton] at hit
  subst hit
  refine ⟨.num (.fin 0), .num (.fin 1), .undefined, .undefined, 0, 1, .zero, ?_, ?_, le_rfl,
    ?_, ?_, by decide, ?_, ?_, rfl⟩
  · simp [JSVal.get, List.lookup]
  · simp [toNumber]
  · simp [JSVal.get, List.lookup]
  · simp [toNumber]
  · simp [JSVal.get, List.lookup]
  · simp [JSVal.get, List.lookup]

theorem wellPriced_pricedCart : ∀ it ∈ pricedCart, Checkout.wellPriced it := by
  intro it hit
  simp only [pricedCart, List.mem_singleton] at hit
  subst hit
  refine ⟨.num (.fin (2999 / 100)), .num (.fin 2), .num (.fin 3), .undefined, 2999, 2, .fin 3,
    ?_, ?_, by decide, ?_, ?_, by decide, ?_, ?_, rfl⟩
  · simp [JSVal.get, List.lookup]
  · simp [toNumber]
  · simp [JSVal.get, List.lookup]
  · simp [toNumber]
  · simp [JSVal.get, List.lookup]
  · simp [JSVal.get, List.lookup]

theorem checkout_subtotal_eq_server_total_witness :
    ∃ (s : ℚ) (items : List JSVal) (lines : List Line),
      Checkout.subTotal pricedCart = .ok (.fin s) ∧
      (JSNum.fin s).toFixed2 = .fin s ∧
      Checkout.payloadItems pricedCart = .ok items ∧
      computeTotal items = .ok (lines, .fin s) ∧
      Checkout.total (.fin s) = .fin (s + s * 0.12) ∧
      Checkout.totalPaid (.fin s) = .fin (JSNum.round2 (s + s * 0.12)) ∧
      (0 < s → Checkout.total (.fin s) ≠ .fin s) ∧
      (5 / 100 ≤ s → Checkout.totalPaid (.fin s) ≠ .fin s) :=
  checkout_subtotal_eq_server_total pricedCart wellPriced_pricedCart

/-- C24, the claim as worded fails: for the cart with one free item, which is
of the class, the page's total and the figure it hands on as "Total paid" are
both `0`, and `0` is the total that the server computes for the payload. -/
theorem checkout_total_paid_counterexample :
    (∀ it ∈ freeCart, Checkout.wellPriced it) ∧
    Checkout.subTotal freeCart = .ok (.fin 0) ∧
    Checkout.total (.fin 0) = .fin 0 ∧
    Checkout.totalPaid (.fin 0) = .fin 0 ∧
    Checkout.payloadItems freeCart =
      .ok [.obj [("productID", .null), ("price", .num (.fin 0)), ("quantity", .num (.fin 1))]] ∧
    computeTotal
        [.obj [("productID", .null), ("price", .num (.fin 0)), ("quantity", .num (.fin 1))]] =
      .ok ([⟨.null, .str "Item", .fin 0, .fin 1⟩], .fin 0) := by
  refine ⟨wellPriced_freeCart, ?_, ?_, ?_, ?_, ?_⟩
  · simp [Checkout.subTotal, Checkout.subTotalFrom, Checkout.subTotalStep, freeCart, JSVal.get,
      List.lookup, toNumber, bind, Except.bind, pure, Except.pure, JSNum.orElse, JSNum.truthy,
      JSNum.zero, JSNum.one, JSNum.add, JSNum.mul]
  · simp [Checkout.total, Checkout.tax, Checkout.taxRate, JSNum.mul, JSNum.add]
  · simp [Checkout.totalPaid, Checkout.total, Checkout.tax, Checkout.taxRate, JSNum.mul,
      JSNum.add, JSNum.toFixed2, round2_zero]
  · simp [Checkout.payloadItems, Checkout.payloadItem, freeCart, JSVal.get, List.lookup,
      toNumber, bind, Except.bind, pure, Except.pure, JSNum.orElse, JSNum.truthy, JSNum.zero,
      JSNum.one, JSVal.nullish, Checkout.jsonNumber]
  · simp [computeTotal, normalizeAll, normalizeLine, JSVal.get, List.lookup, toNumber, toMoney,
      Except.map, bind, Except.bind, pure, Except.pure, toMoneyNum_fin, toMoneyNum_nan, qtyOf,
      JSNum.orElse, JSNum.truthy, JSNum.max, JSNum.one, JSNum.zero, JSNum.mul, JSNum.add,
      productIDOf, JSVal.orElse, JSVal.truthy, round2_zero]

/-! ## The page `Cart`: the quantity clamp -/

theorem lookup_cons_ne (k k2 : String) (v : JSVal) (rest : Cart.Item) (h : k2 ≠ k) :
    List.lookup k2 ((k, v) :: rest) = List.lookup k2 rest := by
  have hb : (k2 == k) = false := by simpa using h
  simp only [List.lookup, hb]

theorem lookup_cons_eq (k : String) (v : JSVal) (rest : Cart.Item) :
    List.lookup k ((k, v) :: rest) = some v := by
  simp only [List.lookup, beq_self_eq_true]

theorem lookup_append_new (item : Cart.Item) (k : String) (v : JSVal)
    (h : JSVal.hasKey k item = false) : (item ++ [(k, v)]).lookup k = some v := by
  induction item with
  | nil => exact lookup_cons_eq k v []
  | cons e rest ih =>
    obtain ⟨k', v'⟩ := e
    simp only [JSVal.hasKey, Bool.or_eq_false_iff] at h
    have hk : k ≠ k' := by
      have := h.1
      simp only [beq_eq_false_iff_ne, ne_eq] at this
      exact fun e => this e.symm
    rw [List.cons_append, lookup_cons_ne k' k v' _ hk]
    exact ih h.2

theorem lookup_map_set (item : Cart.Item) (k : String) (v : JSVal)
    (h : JSVal.hasKey k item = true) :
    (item.map fun e => if e.1 == k then (k, v) else e).lookup k = some v := by
  induction item with
  | nil => simp [JSVal.hasKey] at h
  | cons e rest ih =>
    obtain ⟨k', v'⟩ := e
    by_cases hk : k' = k
    · subst hk
      have e1 : (if ((k', v').1 == k') = true then (k', v) else (k', v')) = (k', v) := by simp
      rw [List.map_cons, e1, lookup_cons_eq]
    · have hk3 : (k' == k) = false := by simpa using hk
      have e1 : (if ((k', v').1 == k) = true then (k, v) else (k', v')) = (k', v') := by
        simp [hk3]
      simp only [JSVal.hasKey, hk3, Bool.false_or] at h
      rw [List.map_cons, e1, lookup_cons_ne k' k v' _ (fun e => hk e.symm)]
      exact ih h

theorem lookup_map_set_other (item : Cart.Item) (k k2 : String) (v : JSVal) (hne : k2 ≠ k) :
    (item.map fun e => if e.1 == k then (k, v) else e).lookup k2 = item.lookup k2 := by
  induction item with
  | nil => rfl
  | cons e rest ih =>
    obtain ⟨k', v'⟩ := e
    by_cases hk : k' = k
    · subst hk
      have e1 : (if ((k', v').1 == k') = true then (k', v) else (k', v')) = (k', v) := by simp
      rw [List.map_cons, e1, lookup_cons_ne k' k2 v _ hne, lookup_cons_ne k' k2 v' _ hne]
      exact ih
    · have hk3 : (k' == k) = false := by simpa using hk
      have e1 : (if ((k', v').1 == k) = true then (k, v) else (k', v')) = (k', v') := by
        simp [hk3]
      rw [List.map_cons, e1]
      by_cases h2 : k2 = k'
      · subst h2; rw [lookup_cons_eq, lookup_cons_eq]
      · rw [lookup_cons_ne k' k2 v' _ h2, lookup_cons_ne k' k2 v' _ h2]
        exact ih

theorem lookup_append_other (item : Cart.Item) (k k2 : String) (v : JSVal) (hne : k2 ≠ k) :
    (item ++ [(k, v)]).lookup k2 = item.lookup k2 := by
  induction item with
  | nil => rw [List.nil_append, lookup_cons_ne k k2 v _ hne]
  | cons e rest ih =>
    obtain ⟨k', v'⟩ := e
    rw [List.cons_append]
    by_cases h2 : k2 = k'
    · subst h2; rw [lookup_cons_eq, lookup_cons_eq]
    · rw [lookup_cons_ne k' k2 v' _ h2, lookup_cons_ne k' k2 v' _ h2]
      exact ih

theorem member_setMember_self (item : Cart.Item) (k : String) (v : JSVal) :
    Cart.member (Cart.setMember item k v) k = v := by
  unfold Cart.member Cart.setMember
  by_cases h : JSVal.hasKey k item = true
  · rw [if_pos h, lookup_map_set item k v h]; rfl
  · rw [if_neg h]
    simp only [Bool.not_eq_true] at h
    rw [lookup_append_new item k v h]; rfl

theorem member_setMember_other (item : Cart.Item) (k k2 : String) (v : JSVal) (hne : k2 ≠ k) :
    Cart.member (Cart.setMember item k v) k2 = Cart.member item k2 := by
  unfold Cart.member Cart.setMember
  by_cases h : JSVal.hasKey k item = true
  · rw [if_pos h, lookup_map_set_other item k k2 v hne]
  · rw [if_neg h, lookup_append_other item k k2 v hne]

theorem max_one_min (s : JSNum) (n : ℤ) (hs : s.geOne) :
    ∃ q : ℚ, JSNum.max .one (JSNum.min s (.fin n)) = .fin q ∧ 1 ≤ q ∧ JSNum.le (.fin q) s := by
  cases s with
  | nan => exact absurd hs (by simp [JSNum.geOne])
  | ninf => exact absurd hs (by simp [JSNum.geOne])
  | pinf =>
    refine ⟨if (1 : ℚ) ≤ n then n else 1, by simp [JSNum.min, JSNum.max, JSNum.one], ?_, ?_⟩
    · split_ifs with h1
      · exact h1
      · exact le_refl _
    · simp [JSNum.le]
  | fin a =>
    simp only [JSNum.geOne] at hs
    refine ⟨if (1 : ℚ) ≤ (if a ≤ (n : ℚ) then a else n) then (if a ≤ (n : ℚ) then a else n)
      else 1, by simp [JSNum.min, JSNum.max, JSNum.one], ?_, ?_⟩
    · split_ifs <;> first | assumption | exact le_refl _
    · simp only [JSNum.le]
      split_ifs <;> linarith

/-- The callback of `handleQty` on one item. -/
theorem handleQtyItem_spec (toStr : JSVal → Except Exn String) (key : String) (next : ℤ)
    (it : Cart.Item) (hstr : ∀ v, ∃ s, toStr v = .ok s)
    (hstock : ∃ n, toNumber ((Cart.member it "stock").nullish (.num (.fin 9999))) = .ok n) :
    ∃ it' itKey stock,
      Cart.handleQtyItem toStr key (.fin next) it = .ok it' ∧
      Cart.itemKey toStr it = .ok itKey ∧
      toNumber ((Cart.member it "stock").nullish (.num (.fin 9999))) = .ok stock ∧
      (Cart.strictEqStr itKey key = false → it' = it) ∧
      (Cart.strictEqStr itKey key = true →
        Cart.member it' "qty" = .num (JSNum.max .one (JSNum.min stock (.fin next))) ∧
        (stock.geOne → ∃ q : ℚ, Cart.member it' "qty" = .num (.fin q) ∧ 1 ≤ q ∧
          JSNum.le (.fin q) stock)) := by
  obtain ⟨stock, hst⟩ := hstock
  have hkey : ∃ itKey, Cart.itemKey toStr it = .ok itKey := by
    have hmk : ∃ s, Cart.makeItemKey toStr it = .ok s := by
      unfold Cart.makeItemKey
      obtain ⟨s1, h1⟩ := hstr ((Cart.member it "id").nullish ((Cart.member it "productID").nullish
        ((Cart.member it "productId").nullish ((Cart.member it "productid").nullish
          (Cart.member it "productID")))))
      obtain ⟨s2, h2⟩ := hstr ((Cart.member it "optionName").nullish (.str "default"))
      obtain ⟨s3, h3⟩ := hstr ((Cart.member it "optionValue").nullish (.str "default"))
      exact ⟨s1 ++ "-" ++ s2 ++ "-" ++ s3, by
        simp [h1, h2, h3, bind, Except.bind, pure, Except.pure]⟩
    obtain ⟨s, hs⟩ := hmk
    unfold Cart.itemKey
    cases hk : Cart.member it "key" <;> simp [hs, Except.map]
  obtain ⟨itKey, hk⟩ := hkey
  by_cases heq : Cart.strictEqStr itKey key = true
  · refine ⟨Cart.setMember (Cart.setMember it "qty"
        (.num (JSNum.max .one (JSNum.min stock (.fin next))))) "key"
        ((Cart.member it "key").nullish itKey), itKey, stock, ?_, hk, hst, ?_, ?_⟩
    · simp [Cart.handleQtyItem, hk, heq, hst, bind, Except.bind, pure, Except.pure]
    · intro h; rw [heq] at h; cases h
    · intro _
      have hq : Cart.member (Cart.setMember (Cart.setMember it "qty"
          (.num (JSNum.max .one (JSNum.min stock (.fin next))))) "key"
          ((Cart.member it "key").nullish itKey)) "qty" =
          .num (JSNum.max .one (JSNum.min stock (.fin next))) := by
        rw [member_setMember_other _ "key" "qty" _ (by decide), member_setMember_self]
      refine ⟨hq, ?_⟩
      intro hge
      obtain ⟨q, h1, h2, h3⟩ := max_one_min stock next hge
      exact ⟨q, by rw [hq, h1], h2, h3⟩
  · simp only [Bool.not_eq_true] at heq
    refine ⟨it, itKey, stock, ?_, hk, hst, fun _ => rfl, ?_⟩
    · simp [Cart.handleQtyItem, hk, heq, bind, Except.bind, pure, Except.pure]
    · intro h; rw [heq] at h; cases h

/-- C29: `handleQty(key, next)` for an integer `next`, on a cart in which no
conversion throws. It returns a cart of the same length in which, position
by position, an item whose key is not `key` is the item it was, and an item
whose key is `key` has `qty = Math.max(1, Math.min(stock ?? 9999, next))`;
when the stock of such an item is at least one, the new `qty` is at least one
and at most the stock. -/
theorem handleQty_clamp (toStr : JSVal → Except Exn String) (key : String) (next : ℤ)
    (prev : List Cart.Item) (hstr : ∀ v, ∃ s, toStr v = .ok s)
    (hstock : ∀ it ∈ prev,
      ∃ n, toNumber ((Cart.member it "stock").nullish (.num (.fin 9999))) = .ok n) :
    ∃ updated,
      Cart.handleQty toStr key (.fin next) prev = .ok updated ∧
      updated.length = prev.length ∧
      List.Forall₂ (fun (it it' : Cart.Item) =>
        ∃ itKey stock,
          Cart.itemKey toStr it = .ok itKey ∧
          toNumber ((Cart.member it "stock").nullish (.num (.fin 9999))) = .ok stock ∧
          (Cart.strictEqStr itKey key = false → it' = it) ∧
          (Cart.strictEqStr itKey key = true →
            Cart.member it' "qty" = .num (JSNum.max .one (JSNum.min stock (.fin next))) ∧
            (stock.geOne → ∃ q : ℚ, Cart.member it' "qty" = .num (.fin q) ∧ 1 ≤ q ∧
              JSNum.le (.fin q) stock))) prev updated := by
  induction prev with
  | nil => exact ⟨[], rfl, rfl, List.Forall₂.nil⟩
  | cons it rest ih =>
    obtain ⟨it', itKey, stock, h1, h2, h3, h4, h5⟩ :=
      handleQtyItem_spec toStr key next it hstr (hstock it (List.mem_cons_self _ _))
    obtain ⟨rest', r1, r2, r3⟩ := ih (fun b hb => hstock b (List.mem_cons_of_mem _ hb))
    refine ⟨it' :: rest', ?_, by simp [r2], List.Forall₂.cons ⟨itKey, stock, h2, h3, h4, h5⟩ r3⟩
    simp only [Cart.handleQty, h1, r1]

theorem handleQty_clamp_witness :
    ∃ updated,
      Cart.handleQty sampleToStr "7-default-default" (.fin ((9 : ℤ) : ℚ)) sampleCart
        = .ok updated ∧
      updated.length = sampleCart.length ∧
      List.Forall₂ (fun (it it' : Cart.Item) =>
        ∃ itKey stock,
          Cart.itemKey sampleToStr it = .ok itKey ∧
          toNumber ((Cart.member it "stock").nullish (.num (.fin 9999))) = .ok stock ∧
          (Cart.strictEqStr itKey "7-default-default" = false → it' = it) ∧
          (Cart.strictEqStr itKey "7-default-default" = true →
            Cart.member it' "qty" =
              .num (JSNum.max .one (JSNum.min stock (.fin ((9 : ℤ) : ℚ)))) ∧
            (stock.geOne → ∃ q : ℚ, Cart.member it' "qty" = .num (.fin q) ∧ 1 ≤ q ∧
              JSNum.le (.fin q) stock))) sampleCart updated :=
  handleQty_clamp sampleToStr "7-default-default" 9 sampleCart
    (by intro v; cases v <;> exact ⟨_, rfl⟩)
    (by
      intro it hit
      simp only [sampleCart, List.mem_singleton] at hit
      subst hit
      exact ⟨.fin 5, rfl⟩)

/-! ## The page `AllProducts`: pagination -/

theorem totalPages_ge_one (n : Nat) : 1 ≤ AllProducts.totalPages n := le_max_left _ _

theorem length_le_totalPages (n : Nat) : (n : ℤ) ≤ AllProducts.totalPages n * 24 := by
  have h1 : ((n : ℚ) / 24) ≤ (⌈(n : ℚ) / 24⌉ : ℚ) := Int.le_ceil _
  have h2 : ⌈(n : ℚ) / 24⌉ ≤ AllProducts.totalPages n := by
    unfold AllProducts.totalPages AllProducts.perPage
    push_cast
    exact le_max_right _ _
  have h3 : (⌈(n : ℚ) / 24⌉ : ℚ) ≤ (AllProducts.totalPages n : ℚ) := by exact_mod_cast h2
  have h4 : (n : ℚ) ≤ (AllProducts.totalPages n : ℚ) * 24 := by linarith
  exact_mod_cast h4

theorem pageSafe_range (page : ℤ) (n : Nat) :
    1 ≤ AllProducts.pageSafe page n ∧ AllProducts.pageSafe page n ≤ AllProducts.totalPages n := by
  unfold AllProducts.pageSafe
  exact ⟨le_min (le_max_left _ _) (totalPages_ge_one n), min_le_right _ _⟩

theorem pageSafe_of_mem (p : ℤ) (n : Nat) (h1 : 1 ≤ p) (h2 : p ≤ AllProducts.totalPages n) :
    AllProducts.pageSafe p n = p := by
  unfold AllProducts.pageSafe
  rw [max_eq_right h1, min_eq_left h2]

/-- A slice between two indices that are not below zero. -/
theorem slice_nat {α : Type} (xs : List α) (a b : Nat) :
    AllProducts.slice xs (a : ℤ) ((a : ℤ) + (b : ℤ)) = (xs.drop a).take b := by
  unfold AllProducts.slice
  have ha : ¬ ((a : ℤ) < 0) := by omega
  have hb : ¬ ((a : ℤ) + (b : ℤ) < 0) := by omega
  simp only [ha, hb, if_false]
  by_cases hlen : a ≤ xs.length
  · have e1 : (min (a : ℤ) (xs.length : ℤ)).toNat = a := by omega
    rw [e1]
    rw [List.take_eq_take]
    simp only [List.length_drop]
    omega
  · have e1 : xs.length ≤ (min (a : ℤ) (xs.length : ℤ)).toNat := by omega
    rw [List.drop_eq_nil_of_le e1, List.drop_eq_nil_of_le (by omega)]
    simp

/-- The page `i + 1` of a list, for a page number in range. -/
theorem pageItems_eq {α : Type} (filtered : List α) (i : Nat)
    (h : ((i : ℤ) + 1) ≤ AllProducts.totalPages filtered.length) :
    AllProducts.pageItems filtered ((i : ℤ) + 1) = (filtered.drop (i * 24)).take 24 := by
  unfold AllProducts.pageItems
  rw [pageSafe_of_mem _ _ (by omega) h]
  have e1 : ((i : ℤ) + 1 - 1) * AllProducts.perPage = ((i * 24 : Nat) : ℤ) := by
    unfold AllProducts.perPage; push_cast; ring
  have e2 : ((i : ℤ) + 1) * AllProducts.perPage = ((i * 24 : Nat) : ℤ) + ((24 : Nat) : ℤ) := by
    unfold AllProducts.perPage; push_cast; ring
  rw [e1, e2, slice_nat]

theorem flatMap_pages {α : Type} (xs : List α) (n : Nat) :
    ((List.range n).flatMap fun i => (xs.drop (i * 24)).take 24) = xs.take (n * 24) := by
  induction n with
  | zero => simp
  | succ n ih =>
    rw [List.range_succ, List.flatMap_append, ih, List.flatMap_singleton, Nat.succ_mul,
      List.take_add]

/-- C30: the pagination of the product list. For every list and every page
number held in the state, `pageSafe` lies between `1` and `totalPages`, which
is the larger of `1` and the length divided by `24`, rounded up; the page
shown has at most `24` products; and the pages `1` to `totalPages`, one after
the other, are the list itself. -/
theorem pagination_partitions {α : Type} (filtered : List α) (page : ℤ) :
    1 ≤ AllProducts.pageSafe page filtered.length ∧
    AllProducts.pageSafe page filtered.length ≤ AllProducts.totalPages filtered.length ∧
    AllProducts.totalPages filtered.length = max 1 (((filtered.length : ℤ) + 23) / 24) ∧
    (AllProducts.pageItems filtered page).length ≤ 24 ∧
    ((List.range (AllProducts.totalPages filtered.length).toNat).flatMap
      fun i => AllProducts.pageItems filtered ((i : ℤ) + 1)) = filtered := by
  have hr := pageSafe_range page filtered.length
  have ht1 := totalPages_ge_one filtered.length
  refine ⟨hr.1, hr.2, ?_, ?_, ?_⟩
  · unfold AllProducts.totalPages AllProducts.perPage
    congr 1
    rw [Int.ceil_eq_iff]
    push_cast
    have hdiv := Int.ediv_add_emod ((filtered.length : ℤ) + 23) 24
    have hmod1 := Int.emod_nonneg ((filtered.length : ℤ) + 23) (by norm_num : (24 : ℤ) ≠ 0)
    have hmod2 := Int.emod_lt_of_pos ((filtered.length : ℤ) + 23) (by norm_num : (0 : ℤ) < 24)
    have hq : (((filtered.length : ℤ) + 23) / 24 : ℤ) * 24
        = (filtered.length : ℤ) + 23 - ((filtered.length : ℤ) + 23) % 24 := by linarith
    have hq2 : ((((filtered.length : ℤ) + 23) / 24 : ℤ) : ℚ) * 24
        = (filtered.length : ℚ) + 23 - ((((filtered.length : ℤ) + 23) % 24 : ℤ) : ℚ) := by
      exact_mod_cast hq
    have hm1 : (0 : ℚ) ≤ ((((filtered.length : ℤ) + 23) % 24 : ℤ) : ℚ) := by exact_mod_cast hmod1
    have hm2 : ((((filtered.length : ℤ) + 23) % 24 : ℤ) : ℚ) ≤ 23 := by
      have : ((filtered.length : ℤ) + 23) % 24 ≤ 23 := by omega
      exact_mod_cast this
    constructor
    · rw [lt_div_iff₀ (by norm_num : (0 : ℚ) < 24)]
      linarith
    · rw [div_le_iff₀ (by norm_num : (0 : ℚ) < 24)]
      linarith
  · obtain ⟨i, hi⟩ : ∃ i : Nat, AllProducts.pageSafe page filtered.length = (i : ℤ) + 1 :=
      ⟨(AllProducts.pageSafe page filtered.length - 1).toNat, by omega⟩
    have hps : AllProducts.pageSafe ((i : ℤ) + 1) filtered.length = (i : ℤ) + 1 :=
      pageSafe_of_mem _ _ (by omega) (by rw [← hi]; exact hr.2)
    have : AllProducts.pageItems filtered page = AllProducts.pageItems filtered ((i : ℤ) + 1) := by
      unfold AllProducts.pageItems
      rw [hi, hps]
    rw [this, pageItems_eq filtered i (by rw [← hi]; exact hr.2)]
    exact (List.length_take_le _ _)
  · have hcongr : ((List.range (AllProducts.totalPages filtered.length).toNat).flatMap
        fun i => AllProducts.pageItems filtered ((i : ℤ) + 1)) =
        ((List.range (AllProducts.totalPages filtered.length).toNat).flatMap
          fun i => (filtered.drop (i * 24)).take 24) := by
      apply List.flatMap_congr
      intro i hi
      rw [List.mem_range] at hi
      exact pageItems_eq filtered i (by omega)
    rw [hcongr, flatMap_pages]
    apply List.take_of_length_le
    have := length_le_totalPages filtered.length
    omega

end Storefront
